import Mathlib

/-!
# CasparCG Server: the ffmpeg producer (modules/ffmpeg/producer/av_producer.cpp)

A shallow embedding of the media producer: the decoder (Stream), the demuxer
(Input), the filter graph wrapper (Filter) and the orchestrator
(AVProducer::Impl).  Queues are lists (front of the queue = head of the list),
std::map is an association list in ascending key order, a nullable
shared_ptr is an Option, and a call that throws returns the state reached at
the throw.  The libav* calls are not part of the repository: what they answer
is supplied by a Lib record (one per operation), and what is handed to them is
recorded in the object they act on.
-/

namespace caspar.ffmpeg

/-! ## libavutil constants and time base arithmetic -/

/-- AV_NOPTS_VALUE, the int64 minimum. -/
def AV_NOPTS_VALUE : Int := -9223372036854775808

/-- AV_TIME_BASE, ticks per second of the global time base. -/
def AV_TIME_BASE : Int := 1000000

/-- AVRational of libavutil: a pair of ints, not normalised. -/
structure AVRational where
  num : Int
  den : Int
deriving DecidableEq, Repr

/-- The constant TIME_BASE_Q of av_producer.cpp, line 58. -/
def TIME_BASE_Q : AVRational := { num := 1, den := AV_TIME_BASE }

/-- av_inv_q of libavutil: swaps numerator and denominator. -/
def av_inv_q (q : AVRational) : AVRational := { num := q.den, den := q.num }

/-- av_rescale_rnd of libavutil with AV_ROUND_NEAR_INF: a * b / c rounded to the
nearest integer, halves away from zero; INT64_MIN for c <= 0 or b < 0.  The
arithmetic is on mathematical integers: it is the value the library returns
whenever that value is representable in int64. -/
def av_rescale_rnd (a b c : Int) : Int :=
  if c ≤ 0 ∨ b < 0 then AV_NOPTS_VALUE
  else if a < 0 then -((-a * b + c / 2) / c)
  else (a * b + c / 2) / c

/-- av_rescale_q of libavutil: rescales a from time base bq to time base cq. -/
def av_rescale_q (a : Int) (bq cq : AVRational) : Int :=
  av_rescale_rnd a (bq.num * cq.den) (cq.num * bq.den)

/-- Conversion of an int to size_t, as done by the comparisons of a container
size with an int member (buffer_.size() < buffer_capacity_). -/
def to_size_t (i : Int) : Nat := (i % 18446744073709551616).toNat

/-! ## Packets, frames and the compositor's draw_frame -/

/-- AVMediaType of libavutil. -/
inductive AVMediaType where
  | UNKNOWN
  | VIDEO
  | AUDIO
  | DATA
  | SUBTITLE
deriving DecidableEq, Repr

/-- AVPacket: the fields the producer reads. -/
structure AVPacket where
  stream_index : Int
  pts : Int := AV_NOPTS_VALUE
  duration : Int := 0
  payload : Nat := 0
deriving DecidableEq, Repr

/-- AVFrame: the fields the producer reads or writes; has_data stands for
data[0] != nullptr (false for the frame a drained codec leaves untouched). -/
structure AVFrame where
  pts : Int := AV_NOPTS_VALUE
  best_effort_timestamp : Int := AV_NOPTS_VALUE
  pkt_duration : Int := 0
  nb_samples : Int := 0
  sample_rate : Int := 0
  has_data : Bool := true
  content : Nat := 0
deriving DecidableEq, Repr

/-- core::field_mode. -/
inductive field_mode where
  | empty
  | lower
  | upper
  | progressive
deriving DecidableEq, Repr

/-- core::draw_frame, as far as the producer builds values of it: the two
sentinels, a frame made by make_frame from a video and an audio AVFrame, and
the results of draw_frame::still and draw_frame::interlace.  The class itself
is not among the sources, so its operations are kept as constructors. -/
inductive draw_frame where
  | empty
  | late
  | make_frame (video audio : Option AVFrame)
  | still (frame : draw_frame)
  | interlace (frame1 frame2 : draw_frame) (mode : field_mode)
deriving DecidableEq, Repr

/-- The struct Frame of av_producer.cpp, lines 77-82 (an OutputFrame). -/
structure Frame where
  frame : draw_frame := draw_frame.empty
  pts : Int
  duration : Int
deriving DecidableEq, Repr

/-- core::video_format_desc: the members the producer reads.  framerate is the
boost::rational time_scale / duration. -/
structure video_format_desc where
  field_mode : field_mode := caspar.ffmpeg.field_mode.progressive
  framerate : AVRational
  field_count : Int := 1
  time_scale : Int
  duration : Int
  audio_sample_rate : Int := 48000
  audio_cadence : List Int := []
deriving DecidableEq, Repr

/-! ## Stream: one decoder with its two queues -/

/-- AVCodecContext: the members the producer reads. -/
structure AVCodecContext where
  codec_type : AVMediaType
  time_base : AVRational := { num := 0, den := 1 }
  pkt_timebase : AVRational := { num := 0, den := 1 }
deriving DecidableEq, Repr

/-- The struct Stream of av_producer.cpp, lines 117-298. -/
structure Stream where
  decoder_ : AVCodecContext
  next_pts_ : Int
  input_capacity_ : Int := 256
  input_ : List (Option AVPacket) := []
  output_capacity_ : Int := 2
  output_ : List AVFrame := []
  abort_request_ : Bool := false
deriving DecidableEq, Repr

/-- Stream::flush, lines 281-297: the codec buffers are dropped and both queues
are emptied. -/
def Stream.flush (st : Stream) : Stream :=
  { st with output_ := [], input_ := [] }

/-- Stream::try_push, lines 253-268: the answer and the decoder afterwards. -/
def Stream.try_push (st : Stream) (packet : Option AVPacket) : Bool × Stream :=
  if to_size_t st.input_capacity_ < st.input_.length ∧ packet.isSome then (false, st)
  else (true, { st with input_ := st.input_ ++ [packet] })

/-! ## Input: the demuxer -/

/-- AVFormatContext: start_time and duration of the container, and the
timestamps handed to avformat_seek_file so far (oldest first). -/
structure AVFormatContext where
  start_time : Int := AV_NOPTS_VALUE
  duration : Int := AV_NOPTS_VALUE
  seek_requests : List Int := []
deriving DecidableEq, Repr

/-- The struct Input of av_producer.cpp, lines 300-517. -/
structure Input where
  format_ : AVFormatContext := {}
  streams_ : List (Int × Stream) := []
  output_capacity_ : Int := 64
  output_ : List (Option AVPacket) := []
  paused_ : Bool := false
  eof_ : Bool := false
  abort_request_ : Bool := false
deriving DecidableEq, Repr

/-- Input::start_time, lines 463-466. -/
def Input.start_time (input : Input) : Int :=
  if input.format_.start_time ≠ AV_NOPTS_VALUE then input.format_.start_time else 0

/-- Input::pause, lines 474-481. -/
def Input.pause (input : Input) : Input := { input with paused_ := true }

/-- Input::resume, lines 483-491. -/
def Input.resume (input : Input) : Input := { input with paused_ := false, eof_ := false }

/-- Input::eof, lines 468-472. -/
def Input.eof (input : Input) : Bool := input.eof_

/-- Input::paused, lines 404-408. -/
def Input.paused (input : Input) : Bool := input.paused_

/-! ## std::map as an association list in ascending key order -/

/-- std::map::find: the value stored under key k, if any. -/
def map_find {β : Type} : List (Int × β) → Int → Option β
  | [], _ => none
  | (k1, v) :: m, k => if k1 = k then some v else map_find m k

/-- Whether find(k) != end(). -/
def map_contains {β : Type} (m : List (Int × β)) (k : Int) : Bool := (map_find m k).isSome

/-- std::map::emplace: inserts (k, v) at its place in key order unless the key
is already present. -/
def map_emplace {β : Type} : List (Int × β) → Int → β → List (Int × β)
  | [], k, v => [(k, v)]
  | (k1, v1) :: m, k, v =>
    if k < k1 then (k, v) :: (k1, v1) :: m
    else if k = k1 then (k1, v1) :: m
    else (k1, v1) :: map_emplace m k v

/-- std::map::erase by key. -/
def map_erase {β : Type} (m : List (Int × β)) (k : Int) : List (Int × β) :=
  m.filter (fun p => decide (p.1 ≠ k))

/-- Assignment through the iterator returned by find: replaces the value
stored under k, if the key is present. -/
def map_set {β : Type} (m : List (Int × β)) (k : Int) (v : β) : List (Int × β) :=
  m.map (fun p => if p.1 = k then (p.1, v) else p)

/-! ## The libav* library, as seen by one operation -/

/-- AVFilterContext: a buffer source ("in_N") or a buffer sink ("out").  For a
sink the members are what av_buffersink_get_w, _h, _time_base, _frame_rate and
_sample_rate return. -/
structure AVFilterContext where
  name : String
  w : Int := 0
  h : Int := 0
  time_base : AVRational := { num := 0, den := 1 }
  frame_rate : AVRational := { num := 0, den := 1 }
  sample_rate : Int := 0
deriving DecidableEq, Repr

/-- What a pull on a buffer sink answers: AVERROR(EAGAIN), AVERROR_EOF,
another error, or a frame. -/
inductive SinkRet where
  | EAGAIN
  | EOF
  | error
  | frame (f : AVFrame)
deriving DecidableEq, Repr

/-- The answers of the libav* calls made during one operation.  A Bool is
true when the call returns a non-negative code (FF does not throw). -/
structure Lib where
  /-- avformat_seek_file(format, -1, INT64_MIN, ts, ts, 0), by ts -/
  avformat_seek_file : Int → Bool := fun _ => true
  /-- rendering by boost::format %f of static_cast<double>(start_time) / AV_TIME_BASE, by start_time -/
  format_f : Int → String := fun t => toString t
  /-- avfilter_graph_parse2, by spec: the media types of the unlinked input pads and of the unlinked output pads, in list order -/
  avfilter_graph_parse2 : String → Option (List AVMediaType × List AVMediaType) := fun _ => none
  /-- avfilter_graph_create_filter, by instance name -/
  avfilter_graph_create_filter : String → Bool := fun _ => true
  /-- avfilter_link, by the name of the source or sink being linked -/
  avfilter_link : String → Bool := fun _ => true
  /-- av_opt_set_int_list on the sink, by option name -/
  av_opt_set_int_list : String → Bool := fun _ => true
  /-- avfilter_graph_config, by final spec: the configured sink, or none on error -/
  avfilter_graph_config : String → Option AVFilterContext := fun _ => none
  /-- av_buffersrc_get_nb_failed_requests, by source -/
  av_buffersrc_get_nb_failed_requests : AVFilterContext → Int := fun _ => 0
  /-- av_buffersrc_close, by source -/
  av_buffersrc_close : AVFilterContext → Bool := fun _ => true
  /-- av_buffersrc_write_frame, by source -/
  av_buffersrc_write_frame : AVFilterContext → Bool := fun _ => true

/-! ## Filter: one filter graph with its sources and sink -/

/-- The struct Filter of av_producer.cpp, lines 519-773.  graph holds the spec
the graph was parsed from; start_time records the constructor argument of that
name (none for the default constructor), which the code writes into the spec. -/
structure Filter where
  graph : Option String := none
  sink : Option AVFilterContext := none
  sources : List (Int × AVFilterContext) := []
  frame : Option AVFrame := none
  eof : Bool := false
  start_time : Option Int := none
deriving DecidableEq, Repr

/-- Input::seek, lines 493-516: none when avformat_seek_file fails (FF throws
before anything is changed). -/
def Input.seek (lib : Lib) (input : Input) (ts : Int) (flush : Bool) : Option Input :=
  if lib.avformat_seek_file ts then
    let input1 : Input :=
      { input with format_ := { input.format_ with seek_requests := input.format_.seek_requests ++ [ts] } }
    if flush then
      some { input1 with output_ := [], streams_ := input1.streams_.map (fun p => (p.1, p.2.flush)) }
    else
      some input1
  else
    none

/-- Filter::Filter, lines 534-555: the user spec with its default and the
mandatory tail for the media type. -/
def Filter.spec_with_tail (lib : Lib) (filter_spec : String) (start_time : Int)
    (media_type : AVMediaType) (format_desc : video_format_desc) : String :=
  if media_type = AVMediaType.VIDEO then
    let spec := if filter_spec.isEmpty then "null" else filter_spec
    let spec := spec ++ ",bwdif=mode=send_field:parity=auto:deint=all"
    spec ++ ",fps=fps=" ++ toString (format_desc.framerate.num * format_desc.field_count)
      ++ "/" ++ toString format_desc.framerate.den
      ++ ":start_time=" ++ lib.format_f start_time
  else if media_type = AVMediaType.AUDIO then
    let spec := if filter_spec.isEmpty then "anull" else filter_spec
    spec ++ ",aresample=sample_rate=" ++ toString format_desc.audio_sample_rate
      ++ ":async=2000:first_pts="
      ++ toString (av_rescale_q start_time TIME_BASE_Q { num := 1, den := format_desc.audio_sample_rate })
  else
    filter_spec

/-- The number of streams of the input whose decoder has the given media type
(the counting loops of lines 600-605 and 610-615). -/
def Input.count_streams (input : Input) (type : AVMediaType) : Nat :=
  (input.streams_.filter (fun p => decide (p.2.decoder_.codec_type = type))).length

/-- Filter::Filter, lines 599-619: the spec that is parsed into the real graph,
given the numbers of video and audio inputs of the pre-parsed spec. -/
def Filter.merged_spec (input : Input) (filter_spec : String)
    (video_input_count audio_input_count : Nat) : String :=
  if audio_input_count = 1 then
    if input.count_streams AVMediaType.AUDIO > 1 then
      "amerge=inputs=" ++ toString (input.count_streams AVMediaType.AUDIO) ++ "," ++ filter_spec
    else filter_spec
  else if video_input_count = 1 then
    if input.count_streams AVMediaType.VIDEO > 1 then
      "alphamerge," ++ filter_spec
    else filter_spec
  else
    filter_spec

/-- The std::find_if of lines 636-639: the first stream, in key order, of the
pad's media type whose index is not yet a key of sources. -/
def Filter.find_stream (input : Input) (type : AVMediaType)
    (sources : List (Int × AVFilterContext)) : Option (Int × Stream) :=
  input.streams_.find? (fun p => decide (p.2.decoder_.codec_type = type) && !map_contains sources p.1)

/-- How the input loop of lines 624-694 ends: an FF or CASPAR_THROW_EXCEPTION
throws, the early return of lines 641-645 is taken, or every pad is bound. -/
inductive BindResult where
  | threw
  | unusable (sources : List (Int × AVFilterContext))
  | bound (sources : List (Int × AVFilterContext))
deriving DecidableEq, Repr

/-- Filter::Filter, lines 624-694: the loop over the dangling input pads (given
by their media types), starting from the sources bound so far. -/
def Filter.bind_inputs (lib : Lib) (input : Input) :
    List AVMediaType → List (Int × AVFilterContext) → BindResult
  | [], sources => BindResult.bound sources
  | type :: pads, sources =>
    if type ≠ AVMediaType.VIDEO ∧ type ≠ AVMediaType.AUDIO then BindResult.threw
    else
      match Filter.find_stream input type sources with
      | none => BindResult.unusable sources
      | some (index, st) =>
        if st.decoder_.codec_type = AVMediaType.VIDEO ∨ st.decoder_.codec_type = AVMediaType.AUDIO then
          if lib.avfilter_graph_create_filter ("in_" ++ toString index)
              && lib.avfilter_link ("in_" ++ toString index) then
            Filter.bind_inputs lib input pads
              (map_emplace sources index { name := "in_" ++ toString index })
          else BindResult.threw
        else BindResult.threw

/-- Filter::Filter, lines 696-771: sink creation, the check of the output pads
and the configuration of the graph; none when one of them throws. -/
def Filter.attach_sink (lib : Lib) (final_spec : String) (media_type : AVMediaType)
    (outputs : List AVMediaType) : Option AVFilterContext :=
  let sink_ok : Bool :=
    if media_type = AVMediaType.VIDEO then
      lib.avfilter_graph_create_filter "out" && lib.av_opt_set_int_list "pix_fmts"
    else if media_type = AVMediaType.AUDIO then
      lib.avfilter_graph_create_filter "out" && lib.av_opt_set_int_list "sample_fmts"
        && lib.av_opt_set_int_list "sample_rates"
    else false
  if sink_ok then
    match outputs with
    | [type] =>
      if type ≠ media_type then none
      else if lib.avfilter_link "out" then lib.avfilter_graph_config final_spec
      else none
    | _ => none
  else none

/-- Filter::Filter, lines 532-772: the constructed filter, or none when the
constructor throws.  (The allocations are taken to succeed.) -/
def Filter.ctor (lib : Lib) (filter_spec : String) (input : Input) (start_time : Int)
    (media_type : AVMediaType) (format_desc : video_format_desc) : Option Filter :=
  let spec := Filter.spec_with_tail lib filter_spec start_time media_type format_desc
  match lib.avfilter_graph_parse2 spec with
  | none => none
  | some (inputs2, _) =>
    let video_input_count := (inputs2.filter (fun t => decide (t = AVMediaType.VIDEO))).length
    let audio_input_count := (inputs2.filter (fun t => decide (t = AVMediaType.AUDIO))).length
    let final_spec := Filter.merged_spec input spec video_input_count audio_input_count
    match lib.avfilter_graph_parse2 final_spec with
    | none => none
    | some (inputs, outputs) =>
      match Filter.bind_inputs lib input inputs [] with
      | BindResult.threw => none
      | BindResult.unusable sources =>
        some { graph := none, sink := none, sources := sources, start_time := some start_time }
      | BindResult.bound sources =>
        match Filter.attach_sink lib final_spec media_type outputs with
        | none => none
        | some sink =>
          some { graph := some final_spec, sink := some sink, sources := sources,
                 start_time := some start_time }

/-! ## AVProducer::Impl: the orchestrator -/

/-- The struct AVProducer::Impl of av_producer.cpp, lines 775-813. -/
structure Impl where
  format_desc_ : video_format_desc
  format_tb_ : AVRational
  audio_cadence_ : List Int := []
  input_ : Input := {}
  video_filter_ : Filter := {}
  audio_filter_ : Filter := {}
  sources_ : List (Int × List AVFilterContext) := []
  start_ : Int := AV_NOPTS_VALUE
  duration_ : Int := AV_NOPTS_VALUE
  loop_ : Bool := false
  afilter_ : String := ""
  vfilter_ : String := ""
  frame_time_ : Int := 0
  frame_ : draw_frame := draw_frame.late
  buffer_ : List Frame := []
  buffer_capacity_ : Int
  abort_request_ : Bool := false
deriving DecidableEq, Repr

/-- How a member function of Impl ends: it returns a value in state s, it
throws in state s, or the script of library answers is used up before it ends
(stuck). -/
inductive Outcome (α : Type) where
  | returned (value : α) (s : Impl)
  | threw (s : Impl)
  | stuck
deriving Repr

/-- AVProducer::Impl::next_frame, lines 1126-1158: the frame returned and the
state afterwards.  The two list patterns that hold no frame stand for
buffer_[0] on a buffer that is too short; the first is never reached, the
second only when field_count converts to 0. -/
def Impl.next_frame (s : Impl) : draw_frame × Impl :=
  if s.buffer_.length < to_size_t s.format_desc_.field_count then
    (draw_frame.late, s)
  else if s.format_desc_.field_count = 2 then
    match s.buffer_ with
    | f0 :: f1 :: rest =>
      (draw_frame.interlace f0.frame f1.frame s.format_desc_.field_mode,
       { s with frame_ := draw_frame.still f1.frame,
                frame_time_ := f0.pts + f0.duration + f1.duration,
                buffer_ := rest })
    | _ => (draw_frame.late, s)
  else
    match s.buffer_ with
    | f0 :: rest =>
      (f0.frame,
       { s with frame_ := draw_frame.still f0.frame,
                frame_time_ := f0.pts + f0.duration,
                buffer_ := rest })
    | [] => (draw_frame.late, s)

/-- AVProducer::Impl::prev_frame, lines 1105-1124. -/
def Impl.prev_frame (s : Impl) : draw_frame × Impl :=
  if s.frame_ = draw_frame.late then
    match s.buffer_ with
    | [] => (draw_frame.late, s)
    | f0 :: _ =>
      (draw_frame.still f0.frame,
       { s with frame_ := draw_frame.still f0.frame, frame_time_ := f0.pts + f0.duration })
  else
    (s.frame_, s)

/-- AVProducer::Impl::time, lines 1160-1164. -/
def Impl.time (s : Impl) : Int :=
  if s.frame_time_ ≠ AV_NOPTS_VALUE then av_rescale_q s.frame_time_ TIME_BASE_Q s.format_tb_ else 0

/-- The statement sources_[key].push_back(source) of lines 1079-1084. -/
def sources_push_back (m : List (Int × List AVFilterContext)) (key : Int)
    (source : AVFilterContext) : List (Int × List AVFilterContext) :=
  match map_find m key with
  | some l => map_set m key (l ++ [source])
  | none => map_emplace m key [source]

/-- AVProducer::Impl::reset, lines 1073-1102.  It throws when a Filter
constructor throws; the video filter is then already replaced if the audio
constructor is the one that throws. -/
def Impl.reset (lib : Lib) (s : Impl) (ts : Int) : Outcome Unit :=
  match Filter.ctor lib s.vfilter_ s.input_ ts AVMediaType.VIDEO s.format_desc_ with
  | none => Outcome.threw s
  | some vf =>
    match Filter.ctor lib s.afilter_ s.input_ ts AVMediaType.AUDIO s.format_desc_ with
    | none => Outcome.threw { s with video_filter_ := vf }
    | some af =>
      let sources1 := vf.sources.foldl (fun m p => sources_push_back m p.1 p.2) []
      let sources2 := af.sources.foldl (fun m p => sources_push_back m p.1 p.2) sources1
      let streams := s.input_.streams_.map
        (fun p => if map_contains sources2 p.1 then p else (p.1, p.2.flush))
      let buffer :=
        if s.loop_ ∧ s.format_desc_.field_count = 2 then
          if s.buffer_.length % 2 ≠ 0 then s.buffer_.tail else s.buffer_
        else s.buffer_
      Outcome.returned ()
        { s with video_filter_ := vf, audio_filter_ := af, sources_ := sources2,
                 input_ := { s.input_ with streams_ := streams }, buffer_ := buffer }

/-- AVProducer::Impl::seek, lines 1166-1191. -/
def Impl.seek (lib : Lib) (s : Impl) (time : Int) : Outcome Unit :=
  let s1 : Impl := { s with buffer_ := [] }
  let time1 := av_rescale_q time s.format_tb_ TIME_BASE_Q + s.input_.start_time
  match s1.input_.seek lib time1 true with
  | none => Outcome.threw s1
  | some input1 =>
    match Impl.reset lib { s1 with input_ := input1.resume } time1 with
    | Outcome.returned _ s2 => Outcome.returned () { s2 with frame_ := draw_frame.late }
    | Outcome.threw s2 => Outcome.threw s2
    | Outcome.stuck => Outcome.stuck

/-- AVProducer::Impl::loop (setter), lines 1193-1200. -/
def Impl.loop (s : Impl) (loop : Bool) : Impl := { s with loop_ := loop }

/-- AVProducer::Impl::start (setter), lines 1207-1218. -/
def Impl.start (s : Impl) (start : Int) : Impl :=
  { s with start_ := av_rescale_q start s.format_tb_ TIME_BASE_Q }

/-- AVProducer::Impl::start (getter), lines 1220-1223. -/
def Impl.get_start (s : Impl) : Option Int :=
  if s.start_ ≠ AV_NOPTS_VALUE then some (av_rescale_q s.start_ TIME_BASE_Q s.format_tb_) else none

/-- AVProducer::Impl::duration (setter), lines 1225-1237. -/
def Impl.duration (s : Impl) (duration : Int) : Impl :=
  { s with duration_ := av_rescale_q duration s.format_tb_ TIME_BASE_Q, input_ := s.input_.resume }

/-- AVProducer::Impl::duration (getter), lines 1239-1253. -/
def Impl.get_duration (s : Impl) : Option Int :=
  let start := if s.start_ ≠ AV_NOPTS_VALUE then s.start_ else 0
  let duration :=
    if s.duration_ = AV_NOPTS_VALUE ∧ s.input_.format_.duration ≠ AV_NOPTS_VALUE then
      s.input_.format_.duration - start
    else s.duration_
  if duration = AV_NOPTS_VALUE ∨ duration < 0 then none
  else some (av_rescale_q duration TIME_BASE_Q s.format_tb_)

/-- The sink function of schedule_inputs, lines 972-988, run by Input::operator()
(lines 410-420) over the demuxer queue: the packets left in the queue, the
decoders and the result flag.  A null packet is pushed to every decoder
(try_push accepts a null packet whatever the queue holds); a packet of a bound
stream is offered to its decoder, and a refusal ends the draining. -/
def schedule_inputs_drain (sources_ : List (Int × List AVFilterContext)) :
    List (Option AVPacket) → List (Int × Stream) → Bool →
      List (Option AVPacket) × List (Int × Stream) × Bool
  | [], streams, result => ([], streams, result)
  | none :: rest, streams, _ =>
    schedule_inputs_drain sources_ rest
      (streams.map (fun p => (p.1, (p.2.try_push none).2))) true
  | some packet :: rest, streams, result =>
    if map_contains sources_ packet.stream_index then
      match map_find streams packet.stream_index with
      | some st =>
        if (st.try_push (some packet)).1 then
          schedule_inputs_drain sources_ rest
            (map_set streams packet.stream_index (st.try_push (some packet)).2) true
        else
          (some packet :: rest, streams, result)
      | none => schedule_inputs_drain sources_ rest streams true
    else
      schedule_inputs_drain sources_ rest streams true

/-- AVProducer::Impl::schedule_inputs, lines 968-991. -/
def Impl.schedule_inputs (s : Impl) : Bool × Impl :=
  let r := schedule_inputs_drain s.sources_ s.input_.output_ s.input_.streams_ false
  (r.2.2, { s with input_ := { s.input_ with output_ := r.1, streams_ := r.2.1 } })

/-- The sink function of schedule_filters, lines 1014-1037, run by
Stream::operator() (lines 270-279) over the output queue of the decoder of
stream index: the frames left in the queue, sources_ and the result flag; the
error value is the state at the frame on which av_buffersrc_close or
av_buffersrc_write_frame fails. -/
def schedule_filters_drain (lib : Lib) (index : Int) (srcs : List AVFilterContext) :
    Int → List AVFrame → List (Int × List AVFilterContext) → Bool →
      Except (List AVFrame × List (Int × List AVFilterContext))
        (List AVFrame × List (Int × List AVFilterContext) × Bool)
  | _, [], sources_, result => Except.ok ([], sources_, result)
  | nb_requests, frame :: rest, sources_, result =>
    if nb_requests = 0 then Except.ok (frame :: rest, sources_, result)
    else if srcs.all (fun source =>
        if !frame.has_data then lib.av_buffersrc_close source
        else lib.av_buffersrc_write_frame source) then
      schedule_filters_drain lib index srcs (nb_requests - 1) rest
        (if !frame.has_data then map_erase sources_ index else sources_)
        (result || !srcs.isEmpty)
    else
      Except.error (frame :: rest, sources_)

/-- The loop of schedule_filters over the copy of sources_, lines 999-1038. -/
def schedule_filters_loop (lib : Lib) :
    List (Int × List AVFilterContext) → Impl → Bool → Outcome Bool
  | [], s, result => Outcome.returned result s
  | (index, srcs) :: more, s, result =>
    match map_find s.input_.streams_ index with
    | none => schedule_filters_loop lib more s result
    | some st =>
      if srcs.foldl (fun nb source => max nb (lib.av_buffersrc_get_nb_failed_requests source)) 0 = 0 then
        schedule_filters_loop lib more s result
      else
        match schedule_filters_drain lib index srcs
            (srcs.foldl (fun nb source => max nb (lib.av_buffersrc_get_nb_failed_requests source)) 0)
            st.output_ s.sources_ result with
        | Except.error (output, sources1) =>
          Outcome.threw
            { s with sources_ := sources1,
                     input_ := { s.input_ with
                       streams_ := map_set s.input_.streams_ index { st with output_ := output } } }
        | Except.ok (output, sources1, result1) =>
          schedule_filters_loop lib more
            { s with sources_ := sources1,
                     input_ := { s.input_ with
                       streams_ := map_set s.input_.streams_ index { st with output_ := output } } }
            result1

/-- AVProducer::Impl::schedule_filters, lines 993-1041. -/
def Impl.schedule_filters (lib : Lib) (s : Impl) : Outcome Bool :=
  match schedule_filters_loop lib (s.schedule_inputs).2.sources_ (s.schedule_inputs).2
      (s.schedule_inputs).1 with
  | Outcome.returned result s1 =>
    if result then Outcome.returned true s1
    else Outcome.returned (s1.schedule_inputs).1 (s1.schedule_inputs).2
  | Outcome.threw s1 => Outcome.threw s1
  | Outcome.stuck => Outcome.stuck

/-- One round of the loop of filter_frame: what the pull on the sink answers,
and the library as seen by the schedule_filters call that follows an EAGAIN. -/
structure Pull where
  ret : SinkRet
  lib : Lib := {}

/-- The member video_filter_ (video = true) or audio_filter_ of the state. -/
def Impl.filter (s : Impl) (video : Bool) : Filter :=
  if video then s.video_filter_ else s.audio_filter_

/-- Assignment to the member frame of video_filter_ or audio_filter_, with eof. -/
def Impl.set_filter_frame (s : Impl) (video : Bool) (frame : Option AVFrame) (eof : Bool) : Impl :=
  if video then { s with video_filter_ := { s.video_filter_ with frame := frame, eof := eof } }
  else { s with audio_filter_ := { s.audio_filter_ with frame := frame, eof := eof } }

/-- The while (true) loop of filter_frame, lines 1050-1070, one Pull per round. -/
def filter_frame_loop (video : Bool) : List Pull → Impl → Outcome Bool
  | [], _ => Outcome.stuck
  | pull :: pulls, s =>
    match pull.ret with
    | SinkRet.EAGAIN =>
      match Impl.schedule_filters pull.lib s with
      | Outcome.returned true s1 => filter_frame_loop video pulls s1
      | Outcome.returned false s1 => Outcome.returned false s1
      | Outcome.threw s1 => Outcome.threw s1
      | Outcome.stuck => Outcome.stuck
    | SinkRet.EOF => Outcome.returned true (s.set_filter_frame video none true)
    | SinkRet.error => Outcome.threw s
    | SinkRet.frame f => Outcome.returned true (s.set_filter_frame video (some f) (s.filter video).eof)

/-- AVProducer::Impl::filter_frame, lines 1043-1071, on video_filter_ (video =
true) or audio_filter_.  nb_samples only selects the library call; the caller
passes the script of answers that belongs to the number of samples it asks for. -/
def Impl.filter_frame (video : Bool) (pulls : List Pull) (s : Impl) : Outcome Bool :=
  if (s.filter video).sink.isNone ∨ (s.filter video).sources.isEmpty ∨ (s.filter video).eof then
    Outcome.returned true (s.set_filter_frame video none (s.filter video).eof)
  else
    filter_frame_loop video pulls s

/-- The library answers used by one iteration of the orchestrator loop: lib for
the seeks and filter rebuilds, video for the rounds of the pull on the video
sink, and audio, by the number of samples asked for, for those on the audio
sink. -/
structure TickScript where
  lib : Lib := {}
  video : List Pull := []
  audio : Int → List Pull := fun _ => []

/-- The statement boost::range::rotate(audio_cadence_, std::end(audio_cadence_) - 1)
of line 852: the last entry becomes the first. -/
def Impl.rotate_cadence (s : Impl) : Impl :=
  { s with audio_cadence_ := s.audio_cadence_.rotate (s.audio_cadence_.length - 1) }

/-- The argument audio_cadence_[0] / format_desc_.field_count of line 880 (int
division; 0 stands for the entry of an empty cadence and for a division by 0). -/
def Impl.audio_nb_samples (s : Impl) : Int :=
  Int.tdiv (s.audio_cadence_.headD 0) s.format_desc_.field_count

/-- The local start_time of line 906. -/
def Impl.stream_start (s : Impl) : Int :=
  if s.input_.format_.start_time ≠ AV_NOPTS_VALUE then s.input_.format_.start_time else 0

/-- The value of frame.pts after lines 911-917, for a sink with the given time
base (av_buffersink_get_time_base) and a frame of the given pts. -/
def output_pts (sink_time_base : AVRational) (pts : Int) (start_time : Int) : Int :=
  av_rescale_q pts sink_time_base TIME_BASE_Q - start_time

/-- The value of frame.duration after line 913, for a video sink of the given
frame rate (av_buffersink_get_frame_rate). -/
def output_video_duration (sink_frame_rate : AVRational) : Int :=
  av_rescale_q 1 (av_inv_q sink_frame_rate) TIME_BASE_Q

/-- The value of frame.duration after line 916, for an audio sink of the given
sample rate and a frame of nb_samples samples. -/
def output_audio_duration (sink_sample_rate : Int) (nb_samples : Int) : Int :=
  av_rescale_q nb_samples { num := 1, den := sink_sample_rate } TIME_BASE_Q

/-- The Frame of lines 904-917 and 934: pts and duration from the video frame
when there is one, else from the audio frame.  A sink that is missing is read
as a default context, and without any frame both members are 0 (the loop does
not get here then: line 887). -/
def Impl.output_frame (s : Impl) (video audio : Option AVFrame) : Frame :=
  match video, audio with
  | some v, _ =>
    { frame := draw_frame.make_frame video audio,
      pts := output_pts (s.video_filter_.sink.getD { name := "" }).time_base v.pts s.stream_start,
      duration := output_video_duration (s.video_filter_.sink.getD { name := "" }).frame_rate }
  | none, some a =>
    { frame := draw_frame.make_frame video audio,
      pts := output_pts (s.audio_filter_.sink.getD { name := "" }).time_base a.pts s.stream_start,
      duration := output_audio_duration (s.audio_filter_.sink.getD { name := "" }).sample_rate a.nb_samples }
  | none, none =>
    { frame := draw_frame.make_frame video audio, pts := 0, duration := 0 }

/-- The orchestrator loop from line 919 to line 939, with the frames moved out
of the two filters: range enforcement, then the push into the buffer. -/
def Impl.tick_output (lib : Lib) (s : Impl) (video audio : Option AVFrame) : Outcome Unit :=
  if s.loop_ ∧ s.duration_ ≠ AV_NOPTS_VALUE ∧ (s.output_frame video audio).pts ≥ s.duration_ then
    match s.reset lib ((if s.start_ ≠ AV_NOPTS_VALUE then s.start_ else 0) + s.input_.start_time) with
    | Outcome.returned _ s1 =>
      match s1.input_.seek lib (if s.start_ ≠ AV_NOPTS_VALUE then s.start_ else 0) true with
      | none => Outcome.threw s1
      | some input1 => Outcome.returned () { s1 with input_ := input1.resume }
    | Outcome.threw s1 => Outcome.threw s1
    | Outcome.stuck => Outcome.stuck
  else if s.duration_ ≠ AV_NOPTS_VALUE ∧ (s.output_frame video audio).pts ≥ s.duration_ then
    Outcome.returned () { s with input_ := s.input_.pause }
  else
    Outcome.returned () { s with buffer_ := s.buffer_ ++ [s.output_frame video audio] }

/-- The orchestrator loop from line 886 to line 939, once both filters have
been asked for a frame. -/
def Impl.tick_frames (lib : Lib) (s : Impl) : Outcome Unit :=
  if s.video_filter_.frame.isNone ∧ s.audio_filter_.frame.isNone then
    s.reset lib ((if s.start_ ≠ AV_NOPTS_VALUE then s.start_ else 0) + s.input_.start_time)
  else if s.video_filter_.sink.isSome ∧ s.video_filter_.frame.isNone then
    Outcome.returned ()
      { s with audio_filter_ := { s.audio_filter_ with frame := none },
               video_filter_ := { s.video_filter_ with frame := none } }
  else
    Impl.tick_output lib
      { s with video_filter_ := { s.video_filter_ with frame := none },
               audio_filter_ := { s.audio_filter_ with frame := none } }
      s.video_filter_.frame s.audio_filter_.frame

/-- The orchestrator loop from line 874 to line 939: the two filters are asked
for a frame unless one is staged; a filter that starves ends the iteration. -/
def Impl.tick_filters (o : TickScript) (s : Impl) : Outcome Unit :=
  match (if s.video_filter_.frame.isNone then s.filter_frame true o.video
         else Outcome.returned true s) with
  | Outcome.threw s1 => Outcome.threw s1
  | Outcome.stuck => Outcome.stuck
  | Outcome.returned false s1 => Outcome.returned () s1
  | Outcome.returned true s1 =>
    match (if s1.audio_filter_.frame.isNone then s1.filter_frame false (o.audio s1.audio_nb_samples)
           else Outcome.returned true s1) with
    | Outcome.threw s2 => Outcome.threw s2
    | Outcome.stuck => Outcome.stuck
    | Outcome.returned false s2 => Outcome.returned () s2
    | Outcome.returned true s2 => Impl.tick_frames o.lib s2

/-- Whether an iteration of the orchestrator loop gets past the wait of lines
854-857 and the abort checks: the buffer has room and no abort is requested. -/
def Impl.tick_runs (s : Impl) : Bool :=
  !s.abort_request_ && decide (s.buffer_.length < to_size_t s.buffer_capacity_)

/-- One iteration of the loop of the orchestrator thread, lines 850-940.  With
an abort requested the loop ends; with a full buffer the iteration waits at
line 856, which is taken as the iteration not having begun. -/
def Impl.tick (o : TickScript) (s : Impl) : Outcome Unit :=
  if s.tick_runs then
    if s.rotate_cadence.loop_ ∧ s.rotate_cadence.input_.eof then
      match s.rotate_cadence.input_.seek o.lib
          ((if s.start_ ≠ AV_NOPTS_VALUE then s.start_ else 0) + s.input_.start_time) false with
      | none => Outcome.threw s.rotate_cadence
      | some input1 => Outcome.returned () { s.rotate_cadence with input_ := input1.resume }
    else
      Impl.tick_filters o s.rotate_cadence
  else
    Outcome.returned () s

/-- The member initialisers of AVProducer::Impl::Impl, lines 824-835, for an
opened input. -/
def Impl.init (format_desc : video_format_desc) (input : Input) (vfilter afilter : String)
    (start duration : Option Int) (loop : Bool) : Impl :=
  { format_desc_ := format_desc,
    format_tb_ := { num := format_desc.duration, den := format_desc.time_scale },
    input_ := input,
    start_ := start.getD AV_NOPTS_VALUE,
    duration_ := duration.getD AV_NOPTS_VALUE,
    loop_ := loop,
    vfilter_ := vfilter,
    afilter_ := afilter,
    audio_cadence_ := format_desc.audio_cadence,
    buffer_capacity_ := Int.tdiv format_desc.framerate.num format_desc.framerate.den }

/-- The constructor AVProducer::Impl::Impl, lines 815-846, up to the start of the
orchestrator thread. -/
def Impl.ctor (lib : Lib) (format_desc : video_format_desc) (input : Input)
    (vfilter afilter : String) (start duration : Option Int) (loop : Bool) : Outcome Unit :=
  if (Impl.init format_desc input vfilter afilter start duration loop).start_ ≠ AV_NOPTS_VALUE then
    (Impl.init format_desc input vfilter afilter start duration loop).seek lib
      (Impl.init format_desc input vfilter afilter start duration loop).start_
  else
    (Impl.init format_desc input vfilter afilter start duration loop).reset lib 0

/-- The state in which a member function ends, if it ends. -/
def Outcome.state? {α : Type} : Outcome α → Option Impl
  | Outcome.returned _ s => some s
  | Outcome.threw s => some s
  | Outcome.stuck => none

/-! ## Operations on a producer and runs -/

/-- What can happen to a producer between two observations: an iteration of
the orchestrator thread, a call of a member function by the consumer or the
control layer, work of the demuxer and decoder threads (which replaces the
state of the input by another one), or the abort request of the destructor. -/
inductive Op where
  | tick (o : TickScript)
  | next_frame
  | prev_frame
  | seek (lib : Lib) (time : Int)
  | reset (lib : Lib) (ts : Int)
  | loop (loop : Bool)
  | start (start : Int)
  | duration (duration : Int)
  | input_threads (input : Input)
  | abort

/-- The state after one operation; none when the script of library answers is
used up before the operation ends. -/
def Impl.step (s : Impl) : Op → Option Impl
  | Op.tick o => (s.tick o).state?
  | Op.next_frame => some s.next_frame.2
  | Op.prev_frame => some s.prev_frame.2
  | Op.seek lib time => (s.seek lib time).state?
  | Op.reset lib ts => (s.reset lib ts).state?
  | Op.loop loop => some (s.loop loop)
  | Op.start start => some (s.start start)
  | Op.duration duration => some (s.duration duration)
  | Op.input_threads input => some { s with input_ := input }
  | Op.abort => some { s with abort_request_ := true }

/-- The state after a sequence of operations. -/
def Impl.run (s : Impl) : List Op → Option Impl
  | [] => some s
  | op :: ops =>
    match s.step op with
    | some s1 => s1.run ops
    | none => none

/-! ## Readonly members of the producer -/

/-- AVProducer::Impl::width, lines 1255-1260. -/
def Impl.width (s : Impl) : Int :=
  match s.video_filter_.sink with
  | some sink => sink.w
  | none => 0

/-- AVProducer::Impl::height, lines 1262-1267. -/
def Impl.height (s : Impl) : Int :=
  match s.audio_filter_.sink with
  | some sink => sink.h
  | none => 0

/-! ## The worker threads of the decoder and of the demuxer -/

/-- How an iteration of a worker thread loop ends: the iteration is done and
the loop goes on in state s; the thread ends in state s (abort, AVERROR_EXIT,
or an exception caught by the catch-all of the thread); or the script of
library answers is used up before the iteration ends (stuck). -/
inductive WorkerOutcome (σ : Type) where
  | done (s : σ)
  | ended (s : σ)
  | stuck
deriving DecidableEq, Repr

/-- The state in which an iteration of a worker thread ends, if it ends. -/
def WorkerOutcome.state? {σ : Type} : WorkerOutcome σ → Option σ
  | WorkerOutcome.done s => some s
  | WorkerOutcome.ended s => some s
  | WorkerOutcome.stuck => none

/-- What avcodec_receive_frame answers: AVERROR(EAGAIN), AVERROR_EOF, another
error, or a decoded frame. -/
inductive ReceiveRet where
  | EAGAIN
  | EOF
  | error
  | frame (f : AVFrame)
deriving DecidableEq, Repr

/-- The library answers used by one iteration of the decoder thread: whether
avcodec_send_packet succeeds, and the successive answers of
avcodec_receive_frame. -/
structure DecodeScript where
  avcodec_send_packet : Bool := true
  avcodec_receive_frame : List ReceiveRet := []
deriving DecidableEq, Repr

/-- The value of frame_duration after lines 210-218, for a decoded frame. -/
def Stream.frame_duration (st : Stream) (frame : AVFrame) : Int :=
  if st.decoder_.codec_type = AVMediaType.VIDEO then
    if frame.pkt_duration > 0 then frame.pkt_duration
    else av_rescale_q 1 st.decoder_.time_base st.decoder_.pkt_timebase
  else if st.decoder_.codec_type = AVMediaType.AUDIO then
    av_rescale_q frame.nb_samples { num := 1, den := frame.sample_rate } st.decoder_.pkt_timebase
  else
    frame.pkt_duration

/-- The loop of lines 195-228 of the decoder thread, one answer of
avcodec_receive_frame per round: EAGAIN ends the iteration, AVERROR_EOF pushes
a frame without data whose pts is next_pts_, a decoded frame gets its pts,
moves next_pts_ and is pushed. -/
def Stream.receive_frames : List ReceiveRet → Stream → WorkerOutcome Stream
  | [], _ => WorkerOutcome.stuck
  | ReceiveRet.EAGAIN :: _, st => WorkerOutcome.done st
  | ReceiveRet.EOF :: rets, st =>
    Stream.receive_frames rets
      { st with output_ := st.output_ ++ [{ pts := st.next_pts_, has_data := false }] }
  | ReceiveRet.error :: _, st => WorkerOutcome.ended st
  | ReceiveRet.frame f :: rets, st =>
    Stream.receive_frames rets
      { st with
        next_pts_ := f.best_effort_timestamp
          + st.frame_duration { f with pts := f.best_effort_timestamp },
        output_ := st.output_ ++ [{ f with pts := f.best_effort_timestamp }] }

/-- Whether an iteration of the decoder thread gets past the wait of lines
173-176 and the abort checks: a packet is queued, the output queue holds fewer
than output_capacity_ frames and no abort is requested. -/
def Stream.worker_runs (st : Stream) : Bool :=
  !st.abort_request_ && !st.input_.isEmpty
    && decide (st.output_.length < to_size_t st.output_capacity_)

/-- One iteration of the loop of the decoder thread, lines 172-229.  An iteration
that waits at line 175 is taken as not having begun. -/
def Stream.worker (o : DecodeScript) (st : Stream) : WorkerOutcome Stream :=
  if st.abort_request_ then WorkerOutcome.ended st
  else if st.worker_runs then
    match st.input_ with
    | [] => WorkerOutcome.done st
    | _ :: rest =>
      if o.avcodec_send_packet then
        Stream.receive_frames o.avcodec_receive_frame { st with input_ := rest }
      else
        WorkerOutcome.ended { st with input_ := rest }
  else
    WorkerOutcome.done st

/-- Stream::operator(), lines 270-279, when the sink function accepts k frames
(or all of them, if fewer are queued). -/
def Stream.drain (st : Stream) (k : Nat) : Stream :=
  { st with output_ := st.output_.drop k }

/-- What can happen to a decoder: a try_push by the orchestrator, an iteration
of its thread, a drain by the orchestrator, or a flush. -/
inductive StreamOp where
  | try_push (packet : Option AVPacket)
  | worker (o : DecodeScript)
  | drain (k : Nat)
  | flush
deriving DecidableEq, Repr

/-- The decoder after one operation; none when the script is used up. -/
def Stream.step (st : Stream) : StreamOp → Option Stream
  | StreamOp.try_push packet => some (st.try_push packet).2
  | StreamOp.worker o => (st.worker o).state?
  | StreamOp.drain k => some (st.drain k)
  | StreamOp.flush => some st.flush

/-- The decoder after a sequence of operations. -/
def Stream.run (st : Stream) : List StreamOp → Option Stream
  | [] => some st
  | op :: ops =>
    match st.step op with
    | some st1 => st1.run ops
    | none => none

/-- What av_read_frame answers: AVERROR_EXIT, AVERROR_EOF, another error, or a
packet. -/
inductive ReadRet where
  | EXIT
  | EOF
  | error
  | packet (p : AVPacket)
deriving DecidableEq, Repr

/-- The demuxer thread from line 366 to line 389: av_read_frame and the push of
its packet, a null packet at end of file. -/
def Input.read_frame (ret : ReadRet) (input : Input) : WorkerOutcome Input :=
  match ret with
  | ReadRet.EXIT => WorkerOutcome.ended input
  | ReadRet.EOF =>
    WorkerOutcome.done
      { input with eof_ := true, paused_ := true, output_ := input.output_ ++ [none] }
  | ReadRet.error => WorkerOutcome.ended input
  | ReadRet.packet p =>
    WorkerOutcome.done
      { input with eof_ := false, paused_ := false, output_ := input.output_ ++ [some p] }

/-- Whether an iteration of the demuxer thread gets past the wait of lines
357-360 and the abort checks. -/
def Input.worker_runs (input : Input) : Bool :=
  !input.abort_request_ && !input.paused_
    && decide (input.output_.length < to_size_t input.output_capacity_)

/-- One iteration of the loop of the demuxer thread, lines 356-390.  An iteration
that waits at line 359 is taken as not having begun. -/
def Input.worker (ret : ReadRet) (input : Input) : WorkerOutcome Input :=
  if input.abort_request_ then WorkerOutcome.ended input
  else if input.worker_runs then Input.read_frame ret input
  else WorkerOutcome.done input

/-- Input::operator(), lines 410-420, when the sink function accepts k packets
(or all of them, if fewer are queued). -/
def Input.drain (input : Input) (k : Nat) : Input :=
  { input with output_ := input.output_.drop k }

/-- What can happen to a demuxer: an iteration of its thread, pause, resume, a
seek, a drain by the orchestrator, or work on its decoders (which replaces
their states by others). -/
inductive InputOp where
  | worker (ret : ReadRet)
  | pause
  | resume
  | seek (lib : Lib) (ts : Int) (flush : Bool)
  | drain (k : Nat)
  | decoders (streams : List (Int × Stream))

/-- The demuxer after one operation (a seek that throws changes nothing). -/
def Input.step (input : Input) : InputOp → Input
  | InputOp.worker ret => ((input.worker ret).state?).getD input
  | InputOp.pause => input.pause
  | InputOp.resume => input.resume
  | InputOp.seek lib ts flush => (input.seek lib ts flush).getD input
  | InputOp.drain k => input.drain k
  | InputOp.decoders streams => { input with streams_ := streams }

/-- The demuxer after a sequence of operations. -/
def Input.run (input : Input) : List InputOp → Input
  | [] => input
  | op :: ops => (input.step op).run ops

/-- The final spec of Filter::Filter, the one parsed into the real graph at line
621: the spec with its default and tail (lines 534-555), with the merge filter
of lines 599-619 in front according to the input counts of the pre-parse
(lines 566-591); none when the pre-parse throws. -/
def Filter.final_spec (lib : Lib) (filter_spec : String) (input : Input) (start_time : Int)
    (media_type : AVMediaType) (format_desc : video_format_desc) : Option String :=
  match lib.avfilter_graph_parse2
      (Filter.spec_with_tail lib filter_spec start_time media_type format_desc) with
  | none => none
  | some (inputs2, _) =>
    some (Filter.merged_spec input
      (Filter.spec_with_tail lib filter_spec start_time media_type format_desc)
      (inputs2.filter (fun t => decide (t = AVMediaType.VIDEO))).length
      (inputs2.filter (fun t => decide (t = AVMediaType.AUDIO))).length)

/-! ## The constructor of the decoder -/

/-- AVStream: the members the Stream constructor reads; codec_type stands for
codecpar->codec_type. -/
structure AVStream where
  start_time : Int := AV_NOPTS_VALUE
  time_base : AVRational := { num := 0, den := 1 }
  codec_type : AVMediaType := AVMediaType.UNKNOWN
deriving DecidableEq, Repr

/-- The answers of the libavcodec calls made by the Stream constructor. -/
structure CodecLib where
  /-- avcodec_find_decoder(stream->codecpar->codec_id) finds a codec, by stream -/
  avcodec_find_decoder : AVStream → Bool := fun _ => true
  /-- avcodec_parameters_to_context: the time_base of the filled context, or none on error, by stream -/
  avcodec_parameters_to_context : AVStream → Option AVRational := fun _ => some { num := 0, den := 1 }
  /-- av_opt_set_int, by option name -/
  av_opt_set_int : String → Bool := fun _ => true
  /-- avcodec_open2, by the context to open -/
  avcodec_open2 : AVCodecContext → Bool := fun _ => true

/-- Stream::Stream, lines 136-167, up to the start of the decoder thread: none
when an FF throws.  (The allocation is taken to succeed; the members framerate,
sample_aspect_ratio, channel_layout and channels of the context, set at lines
153-163, are not read by the producer model.) -/
def Stream.ctor (lib : CodecLib) (stream : AVStream) : Option Stream :=
  if lib.avcodec_find_decoder stream then
    match lib.avcodec_parameters_to_context stream with
    | none => none
    | some time_base =>
      if lib.av_opt_set_int "refcounted_frames" then
        if lib.avcodec_open2
            { codec_type := stream.codec_type, time_base := time_base,
              pkt_timebase := stream.time_base } then
          some { decoder_ := { codec_type := stream.codec_type, time_base := time_base,
                               pkt_timebase := stream.time_base },
                 next_pts_ := stream.start_time }
        else none
      else none
  else none

/-! ## ffmpeg_producer.cpp: the SEEK command and the in and out points -/

/-- std::numeric_limits<uint32_t>::max(). -/
def UINT32_MAX : Nat := 4294967295

/-- The conversion of an integer value to uint32_t, and the result of uint32_t
arithmetic whose mathematical value is i: i modulo 2^32. -/
def to_uint32 (i : Int) : Nat := (i % 4294967296).toNat

/-- The video decoder of ffmpeg_producer, as far as the SEEK command reads it:
what nb_frames() and file_frame_number() return (both uint32_t). -/
structure video_decoder where
  nb_frames : Nat := 0
  file_frame_number : Nat := 0
deriving DecidableEq, Repr

/-- The member input_ of ffmpeg_producer, as far as the SEEK command reads it:
in_ and out_ are what input_.in() and input_.out() return (both uint32_t). -/
structure input where
  in_ : Nat := 0
  out_ : Nat := 0
deriving DecidableEq, Repr

/-- The struct ffmpeg_producer of ffmpeg_producer.cpp, lines 74-562: the members
the SEEK command reads. -/
structure ffmpeg_producer where
  input_ : input := {}
  video_decoder_ : Option video_decoder := none
deriving DecidableEq, Repr

/-- ffmpeg_producer::file_frame_number, lines 337-340. -/
def ffmpeg_producer.file_frame_number (p : ffmpeg_producer) : Nat :=
  match p.video_decoder_ with
  | some d => d.file_frame_number
  | none => 0

/-- ffmpeg_producer::file_nb_frames, lines 356-359. -/
def ffmpeg_producer.file_nb_frames (p : ffmpeg_producer) : Nat :=
  match p.video_decoder_ with
  | some d => d.nb_frames
  | none => 0

/-- boost::iequals on ASCII text: equality up to the case of the letters. -/
def iequals (a b : String) : Bool := a.data.map Char.toLower == b.data.map Char.toLower

/-- ffmpeg_producer::call, lines 398-408: the int64_t seek taken from the value
parameter; none when boost::lexical_cast throws.  lexical_cast is the parse of
a decimal int64_t. -/
def ffmpeg_producer.seek_base (p : ffmpeg_producer) (lexical_cast : String → Option Int)
    (value : String) : Option Int :=
  if iequals value "rel" then some (p.file_frame_number : Int)
  else if iequals value "in" then some (p.input_.in_ : Int)
  else if iequals value "out" then some (p.input_.out_ : Int)
  else if iequals value "end" then some (p.file_nb_frames : Int)
  else lexical_cast value

/-- ffmpeg_producer::call, lines 398-411: the requested position, the value of
seek before the range check.  offset is params.at(2) when params.size() > 2.
(int64_t sums are taken on the integers: an overflow of seek += offset is
undefined.) -/
def ffmpeg_producer.seek_position (p : ffmpeg_producer) (lexical_cast : String → Option Int)
    (value : String) (offset : Option String) : Option Int :=
  match p.seek_base lexical_cast value with
  | none => none
  | some seek =>
    match offset with
    | none => some seek
    | some text =>
      match lexical_cast text with
      | none => none
      | some n => some (seek + n)

/-- ffmpeg_producer::call, lines 413-416: the int64_t seek after the range check.
The comparison seek >= nb_frames is made in int64_t; nb_frames - 1 is computed
in uint32_t (nb_frames is the uint32_t that file_nb_frames returned) and then
converted to int64_t. -/
def seek_clamp (nb_frames : Nat) (seek : Int) : Int :=
  if seek < 0 then 0
  else if seek ≥ (nb_frames : Int) then (to_uint32 ((nb_frames : Int) - 1) : Int)
  else seek

/-- ffmpeg_producer::call, lines 394-419, for the command SEEK with a non-empty
value: the frame index static_cast<uint32_t>(seek) handed to input_.seek; none
when a lexical_cast throws. -/
def ffmpeg_producer.call_seek (p : ffmpeg_producer) (lexical_cast : String → Option Int)
    (value : String) (offset : Option String) : Option Nat :=
  (p.seek_position lexical_cast value offset).map
    (fun seek => to_uint32 (seek_clamp p.file_nb_frames seek))

/-- The parameters of create_producer that set the in and out points, each as
what get_param finds for the name: none when the name is not among the
parameters (get_param then returns its default), else the uint32_t value that
follows it. -/
structure producer_params where
  SEEK : Option Nat := none
  IN : Option Nat := none
  LENGTH : Option Nat := none
  OUT : Option Nat := none
deriving DecidableEq, Repr

/-- The local variable in of create_producer after lines 583-584. -/
def create_producer_in (params : producer_params) : Nat :=
  params.IN.getD (params.SEEK.getD 0)

/-- The local variable out of create_producer after lines 586-590, before the OUT
parameter is read: LENGTH (default uint32_max) plus in, in uint32_t
arithmetic, unless the test of line 587 fails. -/
def create_producer_length_out (params : producer_params) : Nat :=
  if (params.LENGTH.getD UINT32_MAX : Int)
      < (to_uint32 ((UINT32_MAX : Int) - (create_producer_in params : Int)) : Int) then
    to_uint32 ((params.LENGTH.getD UINT32_MAX : Int) + (create_producer_in params : Int))
  else UINT32_MAX

/-- The local variable out of create_producer after line 591. -/
def create_producer_out (params : producer_params) : Nat :=
  params.OUT.getD (create_producer_length_out params)

/-! ## Predicates used in the statements -/

/-- The state in which a member function ends satisfies P (nothing is claimed
of a run that does not end). -/
def Outcome.Ends {α : Type} (P : Impl → Prop) : Outcome α → Prop
  | Outcome.returned _ s => P s
  | Outcome.threw s => P s
  | Outcome.stuck => True

/-- The members of the producer that neither the filters nor the scheduling of
packets and frames write: the output buffer, its capacity, the range end, the
audio cadence and the target format. -/
def Impl.output_view (s : Impl) : List Frame × Int × Int × List Int × video_format_desc :=
  (s.buffer_, s.buffer_capacity_, s.duration_, s.audio_cadence_, s.format_desc_)

/-- The members of output_view are the same in both states. -/
def SameOutput (s s1 : Impl) : Prop := s1.output_view = s.output_view

/-- The output buffer of s1 is at most k frames longer than that of s, with the
same capacity. -/
def BufferGrowth (k : Nat) (s s1 : Impl) : Prop :=
  s1.buffer_.length ≤ s.buffer_.length + k ∧ s1.buffer_capacity_ = s.buffer_capacity_

/-- The output buffer holds at most to_size_t(buffer_capacity_) frames. -/
def Impl.bounded (s : Impl) : Prop := s.buffer_.length ≤ to_size_t s.buffer_capacity_

/-- The numbers of samples asked of the audio filter (line 880) by k consecutive
iterations of the orchestrator loop that each get to line 880, the first one
starting in state s: each iteration rotates the cadence (line 852) and asks
for audio_cadence_[0] / field_count. -/
def Impl.window_requests : Nat → Impl → List Int
  | 0, _ => []
  | k + 1, s => s.rotate_cadence.audio_nb_samples :: Impl.window_requests k s.rotate_cadence

/-- The number of audio samples carried by a frame made by make_frame. -/
def draw_frame.audio_samples : draw_frame → Int
  | draw_frame.make_frame _ (some a) => a.nb_samples
  | _ => 0

/-- The audio cadence and the target format are the same in both states. -/
def SameCadence (s s1 : Impl) : Prop :=
  s1.audio_cadence_ = s.audio_cadence_ ∧ s1.format_desc_ = s.format_desc_

/-- The number of frames the loop of lines 195-228 pushes for a script of answers
of avcodec_receive_frame: the decoded frames and end-of-stream markers before
the first EAGAIN or error. -/
def pushed_frames : List ReceiveRet → Nat
  | [] => 0
  | ReceiveRet.EAGAIN :: _ => 0
  | ReceiveRet.error :: _ => 0
  | ReceiveRet.EOF :: rets => pushed_frames rets + 1
  | ReceiveRet.frame _ :: rets => pushed_frames rets + 1

/-- The number of frames a decoder operation can push: those of the script for
an iteration of the thread, none for the other operations. -/
def StreamOp.pushes : StreamOp → Nat
  | StreamOp.worker o => pushed_frames o.avcodec_receive_frame
  | _ => 0

/-- Whether schedule_inputs hands a consumed packet to the decoder of stream i: a
null packet goes to every decoder, another packet to the decoder of its
stream_index when that stream is a key of sources_. -/
def delivered_to (sources_ : List (Int × List AVFilterContext)) (i : Int) :
    Option AVPacket → Bool
  | none => true
  | some packet => map_contains sources_ i && decide (packet.stream_index = i)

/-- The decoders with, for each of them, the packets of consumed that are handed
to it appended to its input queue in their order. -/
def deliver (sources_ : List (Int × List AVFilterContext)) (consumed : List (Option AVPacket))
    (streams : List (Int × Stream)) : List (Int × Stream) :=
  streams.map (fun p =>
    (p.1, { p.2 with input_ := p.2.input_ ++ consumed.filter (delivered_to sources_ p.1) }))

/-! ## Example inputs -/

/-- A progressive 25 fps target format (1080p25-like): one field per frame. -/
def example_format_25p : video_format_desc :=
  { framerate := { num := 25, den := 1 }, field_count := 1, time_scale := 25000, duration := 1000,
    audio_cadence := [1920] }

/-- An interlaced 29.97 fps target format (NTSC-like): two fields per frame. -/
def example_format_2997i : video_format_desc :=
  { field_mode := field_mode.upper, framerate := { num := 30000, den := 1001 }, field_count := 2,
    time_scale := 30000, duration := 1001, audio_cadence := [1602, 1601, 1602, 1601, 1602] }

/-- An output frame with the given content number, pts and duration. -/
def example_frame (n : Nat) (pts duration : Int) : Frame :=
  { frame := draw_frame.make_frame (some { pts := n, content := n }) none, pts := pts, duration := duration }

/-- An interlaced producer state holding a single buffered frame. -/
def example_underflow_state : Impl :=
  { format_desc_ := example_format_2997i, format_tb_ := { num := 1001, den := 30000 },
    buffer_capacity_ := 29, buffer_ := [example_frame 0 0 16683] }

/-- Library answers for a file with one video and one audio stream: a spec that
starts with the letter a is an audio graph with one audio input and output,
any other spec a video graph with one video input and output; every call
succeeds. -/
def example_lib : Lib :=
  { avfilter_graph_parse2 := fun spec =>
      if spec.data.head? = some 'a' then some ([AVMediaType.AUDIO], [AVMediaType.AUDIO])
      else some ([AVMediaType.VIDEO], [AVMediaType.VIDEO]),
    avfilter_graph_config := fun spec =>
      if spec.data.head? = some 'a' then some { name := "out", time_base := { num := 1, den := 48000 }, sample_rate := 48000 }
      else some { name := "out", w := 1920, h := 1080, time_base := { num := 1, den := 25 },
                  frame_rate := { num := 25, den := 1 } } }

/-- A demuxer at end of file with packets and frames still queued. -/
def example_input : Input :=
  { format_ := { start_time := 0, duration := 10000000 },
    streams_ := [(0, { decoder_ := { codec_type := AVMediaType.VIDEO }, next_pts_ := 0,
                       input_ := [some { stream_index := 0 }], output_ := [{ pts := 0 }] }),
                 (1, { decoder_ := { codec_type := AVMediaType.AUDIO }, next_pts_ := 0,
                       input_ := [some { stream_index := 1 }] })],
    output_ := [some { stream_index := 0, payload := 7 }, none],
    paused_ := true, eof_ := true }

/-- A progressive producer in the middle of playback. -/
def example_state : Impl :=
  { format_desc_ := example_format_25p, format_tb_ := { num := 1000, den := 25000 },
    audio_cadence_ := [1920], input_ := example_input, buffer_capacity_ := 25,
    frame_ := draw_frame.still (example_frame 0 0 40000).frame, frame_time_ := 40000,
    buffer_ := [example_frame 1 40000 40000, example_frame 2 80000 40000] }

/-- Library answers of an iteration in which both sinks deliver a frame at the
first pull: a video frame of pts n, and an audio frame of as many samples as
were asked for. -/
def example_tick (n : Int) : TickScript :=
  { lib := example_lib,
    video := [{ ret := SinkRet.frame { pts := n, content := n.toNat } }],
    audio := fun nb_samples => [{ ret := SinkRet.frame { pts := n, nb_samples := nb_samples } }] }

/-- The producer constructed on example_input for the 25p format, no filters,
no start, no duration, no loop. -/
def example_constructed : Impl :=
  ((Impl.ctor example_lib example_format_25p example_input "" "" none none false).state?).getD
    example_state

/-- The producer constructed on example_input for the interlaced 29.97 format,
no filters, no start, no duration, no loop. -/
def example_interlaced : Impl :=
  ((Impl.ctor example_lib example_format_2997i example_input "" "" none none false).state?).getD
    example_state

/-- An interlaced producer state with three buffered frames. -/
def example_three_fields : Impl :=
  { example_interlaced with
    buffer_ := [example_frame 0 0 16683, example_frame 1 16683 16683, example_frame 2 33367 16683] }

/-- The 25p producer of example_constructed with the range end set to frame 2
(duration_ = 80000) and loop as given. -/
def example_ranged (loop : Bool) : Impl :=
  { (example_constructed.duration 2) with loop_ := loop }

/-- A progressive 29.97 fps target format: one field per frame, five-frame cadence. -/
def example_format_2997p : video_format_desc :=
  { framerate := { num := 30000, den := 1001 }, field_count := 1,
    time_scale := 30000, duration := 1001, audio_cadence := [1602, 1601, 1602, 1601, 1602] }

/-- The producer constructed for the progressive 29.97 format on an input whose
demuxer queue is empty. -/
def example_2997p : Impl :=
  ((Impl.ctor example_lib example_format_2997p { example_input with output_ := [] } "" "" none none
    false).state?).getD example_state

/-- Library answers of an iteration in which the video sink delivers a frame and
the audio sink answers EAGAIN while there is nothing to schedule. -/
def example_starved_tick (n : Int) : TickScript :=
  { lib := example_lib,
    video := [{ ret := SinkRet.frame { pts := n, content := n.toNat } }],
    audio := fun _ => [{ ret := SinkRet.EAGAIN }] }

/-- The 25p producer of example_constructed after start(25): start_ = 1000000 us,
no duration set, container duration 10000000 us. -/
def example_started : Impl := example_constructed.start 25

/-- A demuxer for a file with a single video stream. -/
def example_video_input : Input :=
  { format_ := { start_time := 0, duration := 10000000 },
    streams_ := [(0, { decoder_ := { codec_type := AVMediaType.VIDEO }, next_pts_ := 0 })] }

/-- The 25p producer constructed on the file with a single video stream. -/
def example_video_only : Impl :=
  ((Impl.ctor example_lib example_format_25p example_video_input "" "" none none false).state?).getD
    example_state

/-- The 25p producer right after seek(0), with one frame in the output buffer. -/
def example_after_seek : Impl :=
  { ((example_constructed.seek example_lib 0).state?.getD example_state) with
    buffer_ := [example_frame 0 0 40000] }

/-- A packet of stream 0 with the given payload number. -/
def example_packet (n : Nat) : AVPacket := { stream_index := 0, payload := n }

/-- A video decoder whose input queue holds exactly input_capacity_ = 256 packets. -/
def example_full_stream : Stream :=
  { decoder_ := { codec_type := AVMediaType.VIDEO }, next_pts_ := 0,
    input_ := List.replicate 256 (some (example_packet 0)) }

/-- A freshly opened video decoder: both queues empty. -/
def example_stream : Stream :=
  { decoder_ := { codec_type := AVMediaType.VIDEO, time_base := { num := 1, den := 25 },
                  pkt_timebase := { num := 1, den := 25 } },
    next_pts_ := 0 }

/-- A decoded frame with the given timestamp and duration 1. -/
def example_decoded (n : Int) : AVFrame :=
  { best_effort_timestamp := n, pkt_duration := 1, content := n.toNat }

/-- A freshly opened demuxer with one video decoder. -/
def example_open_input : Input :=
  { format_ := { start_time := 0, duration := 10000000 }, streams_ := [(0, example_stream)] }

/-- Codec answers for a packet that yields one frame. -/
def example_decode_one : DecodeScript :=
  { avcodec_receive_frame := [ReceiveRet.frame (example_decoded 0), ReceiveRet.EAGAIN] }

/-- Codec answers for a packet that yields three frames. -/
def example_decode_three : DecodeScript :=
  { avcodec_receive_frame :=
      [ReceiveRet.frame (example_decoded 0), ReceiveRet.frame (example_decoded 1),
       ReceiveRet.frame (example_decoded 2), ReceiveRet.EAGAIN] }

/-- Codec answers for the null packet when the codec still holds two frames: the
two frames, then end of stream. -/
def example_decode_flush : DecodeScript :=
  { avcodec_receive_frame :=
      [ReceiveRet.frame (example_decoded 0), ReceiveRet.frame (example_decoded 1),
       ReceiveRet.EOF, ReceiveRet.EAGAIN] }

/-- The 25p producer with loop on, two buffered frames, and the demuxer at end of
file with packets and frames still queued. -/
def example_looping : Impl := { example_state with loop_ := true }

/-- The constructed 25p producer with four packets in the demuxer queue: one of
the video stream 0, a null packet, one of the audio stream 1, one of a stream 5
that is bound to no filter. -/
def example_scheduling : Impl :=
  { example_constructed with
    input_ := { example_constructed.input_ with
      output_ := [some { stream_index := 0, payload := 1 }, none,
                  some { stream_index := 1, payload := 2 }, some { stream_index := 5, payload := 3 }] } }

/-- A demuxer for a file with two video streams (0 and 1) and two audio streams
(2 and 3). -/
def example_four_streams : Input :=
  { format_ := { start_time := 0, duration := 10000000 },
    streams_ := [(0, { decoder_ := { codec_type := AVMediaType.VIDEO }, next_pts_ := 0 }),
                 (1, { decoder_ := { codec_type := AVMediaType.VIDEO }, next_pts_ := 0 }),
                 (2, { decoder_ := { codec_type := AVMediaType.AUDIO }, next_pts_ := 0 }),
                 (3, { decoder_ := { codec_type := AVMediaType.AUDIO }, next_pts_ := 0 })] }

/-- Library answers for a spec with one dangling video input, one dangling audio
input and one video output (such as an overlay of a waveform of the audio on
the video); every call succeeds. -/
def example_mixed_lib : Lib :=
  { avfilter_graph_parse2 := fun _ => some ([AVMediaType.VIDEO, AVMediaType.AUDIO], [AVMediaType.VIDEO]),
    avfilter_graph_config := fun _ =>
      some { name := "out", w := 1920, h := 1080, time_base := { num := 1, den := 25 },
             frame_rate := { num := 25, den := 1 } } }

/-- A parse of decimal numbers that knows the texts used in the examples. -/
def example_lexical_cast (text : String) : Option Int :=
  if text = "0" then some 0
  else if text = "7" then some 7
  else if text = "-5" then some (-5)
  else if text = "1000" then some 1000
  else none

/-- An ffmpeg_producer on a file of 100 video frames, playing frame 40, with the in
point at 10 and the out point at 90. -/
def example_file_producer : ffmpeg_producer :=
  { input_ := { in_ := 10, out_ := 90 },
    video_decoder_ := some { nb_frames := 100, file_frame_number := 40 } }

/-- An ffmpeg_producer on a file without video: no video decoder. -/
def example_audio_producer : ffmpeg_producer :=
  { input_ := { in_ := 0, out_ := 4294967295 }, video_decoder_ := none }

/-- A freshly opened audio decoder (stream time base 1/48000) with one packet in
its input queue. -/
def example_audio_stream : Stream :=
  { decoder_ := { codec_type := AVMediaType.AUDIO, time_base := { num := 1, den := 48000 },
                  pkt_timebase := { num := 1, den := 48000 } },
    next_pts_ := 0, input_ := [some { stream_index := 1 }] }

/-- A decoded audio frame of 1024 samples at 48 kHz whose pkt_duration is 1000. -/
def example_audio_frame : AVFrame :=
  { best_effort_timestamp := 2048, pkt_duration := 1000, nb_samples := 1024, sample_rate := 48000 }

/-- A video stream (time base 1/25) whose start_time is unset. -/
def example_unset_stream : AVStream :=
  { start_time := AV_NOPTS_VALUE, time_base := { num := 1, den := 25 },
    codec_type := AVMediaType.VIDEO }

/-- Codec answers for the null packet when the codec holds no frame: end of
stream. -/
def example_decode_eof : DecodeScript :=
  { avcodec_receive_frame := [ReceiveRet.EOF, ReceiveRet.EAGAIN] }

/-- The decoder constructed for example_unset_stream when every library call
succeeds. -/
def example_unset_decoder : Stream :=
  (Stream.ctor {} example_unset_stream).getD example_stream

/-- The 25p producer constructed on example_input with start = 25 and
duration = 50. -/
def example_ctor_ranged : Impl :=
  ((Impl.ctor example_lib example_format_25p example_input "" "" (some 25) (some 50) false).state?).getD
    example_state

/-- The 25p producer with loop on and the range end at frame 2
(duration_ = 80000), on a container whose start_time is 1000000 us. -/
def example_shifted : Impl :=
  { (example_ranged true) with
    input_ := { (example_ranged true).input_ with
      format_ := { start_time := 1000000, duration := 10000000 } } }

/-- The state of example_shifted with the demuxer at end of file. -/
def example_shifted_eof : Impl :=
  { example_shifted with input_ := { example_shifted.input_ with eof_ := true, paused_ := true } }

/-- Library answers for a file with one video and one audio stream when the video
spec has two dangling video inputs (such as an overlay of two videos): a spec
that starts with the letter a is an audio graph with one audio input and
output, any other spec a video graph with two video inputs and one video
output; every call succeeds. -/
def example_overlay_lib : Lib :=
  { avfilter_graph_parse2 := fun spec =>
      if spec.data.head? = some 'a' then some ([AVMediaType.AUDIO], [AVMediaType.AUDIO])
      else some ([AVMediaType.VIDEO, AVMediaType.VIDEO], [AVMediaType.VIDEO]),
    avfilter_graph_config := fun spec =>
      if spec.data.head? = some 'a' then some { name := "out", time_base := { num := 1, den := 48000 }, sample_rate := 48000 }
      else some { name := "out", w := 1920, h := 1080, time_base := { num := 1, den := 25 },
                  frame_rate := { num := 25, den := 1 } } }

/-- The 25p producer constructed on example_input (one video stream, one audio
stream) with a video filter that has two video inputs. -/
def example_overlay : Impl :=
  ((Impl.ctor example_overlay_lib example_format_25p example_input "overlay" "" none none false).state?).getD
    example_state

end caspar.ffmpeg

/-! ## Theorems -/

namespace caspar.ffmpeg

/-- C1: whenever the output buffer holds fewer than field_count frames (field_count
being a C++ int), next_frame returns the late sentinel and the output buffer, the
remembered last frame and the value reported by time() are what they were. -/
theorem next_frame_underflow (s : Impl)
    (h_int : s.format_desc_.field_count < 2147483648)
    (h_few : (s.buffer_.length : Int) < s.format_desc_.field_count) :
    s.next_frame.1 = draw_frame.late
      ∧ s.next_frame.2.buffer_ = s.buffer_
      ∧ s.next_frame.2.frame_ = s.frame_
      ∧ s.next_frame.2.time = s.time := by
  have h : s.buffer_.length < to_size_t s.format_desc_.field_count := by
    unfold to_size_t
    omega
  simp [Impl.next_frame, h]

/-- Witness of C1: an interlaced producer with one buffered frame. -/
theorem next_frame_underflow_witness :
    example_underflow_state.next_frame.1 = draw_frame.late
      ∧ example_underflow_state.next_frame.2.buffer_ = example_underflow_state.buffer_
      ∧ example_underflow_state.next_frame.2.frame_ = example_underflow_state.frame_
      ∧ example_underflow_state.next_frame.2.time = example_underflow_state.time :=
  next_frame_underflow example_underflow_state (by decide) (by decide)

/-- C2: with field_count = 1 and a buffer f0 :: rest, next_frame returns the frame of
f0 and leaves rest; with field_count = 2 and a buffer f0 :: f1 :: rest, it returns
interlace(f0.frame, f1.frame, field_mode) and leaves rest.  In both cases the
remaining frames are the old ones in their old order. -/
theorem next_frame_pops (s : Impl) (f0 f1 : Frame) (rest : List Frame) :
    (s.format_desc_.field_count = 1 → s.buffer_ = f0 :: rest →
        s.next_frame.1 = f0.frame ∧ s.next_frame.2.buffer_ = rest)
      ∧ (s.format_desc_.field_count = 2 → s.buffer_ = f0 :: f1 :: rest →
        s.next_frame.1 = draw_frame.interlace f0.frame f1.frame s.format_desc_.field_mode
          ∧ s.next_frame.2.buffer_ = rest) := by
  constructor
  · intro hfc hbuf
    simp [Impl.next_frame, hfc, hbuf, to_size_t]
  · intro hfc hbuf
    have h2 : ¬ (rest.length + 1 + 1 < 2) := by omega
    simp [Impl.next_frame, hfc, hbuf, to_size_t, h2]

/-- Witness of C2: one pop from a progressive buffer of two frames. -/
theorem next_frame_pops_witness :
    ({ format_desc_ := example_format_25p, format_tb_ := { num := 1, den := 25 }, buffer_capacity_ := 25,
       buffer_ := [example_frame 0 0 40000, example_frame 1 40000 40000] } : Impl).next_frame.1
        = (example_frame 0 0 40000).frame
      ∧ ({ format_desc_ := example_format_25p, format_tb_ := { num := 1, den := 25 }, buffer_capacity_ := 25,
           buffer_ := [example_frame 0 0 40000, example_frame 1 40000 40000] } : Impl).next_frame.2.buffer_
        = [example_frame 1 40000 40000] :=
  (next_frame_pops _ (example_frame 0 0 40000) (example_frame 1 40000 40000)
    [example_frame 1 40000 40000]).1 rfl rfl

/-- A constructed filter records the start_time it was constructed with. -/
theorem Filter.ctor_start_time (lib : Lib) (spec : String) (input : Input) (ts : Int)
    (mt : AVMediaType) (fd : video_format_desc) (f : Filter)
    (h : Filter.ctor lib spec input ts mt fd = some f) : f.start_time = some ts := by
  unfold Filter.ctor at h
  simp only at h
  split at h
  · exact absurd h (by simp)
  · split at h
    · exact absurd h (by simp)
    · split at h
      · exact absurd h (by simp)
      · simp only [Option.some.injEq] at h
        rw [← h]
      · split at h
        · exact absurd h (by simp)
        · simp only [Option.some.injEq] at h
          rw [← h]

/-- Input::seek with flush: all queues are empty afterwards and ts was handed to
avformat_seek_file. -/
theorem Input.seek_flush (lib : Lib) (input input1 : Input) (ts : Int)
    (h : input.seek lib ts true = some input1) :
    input1.output_ = [] ∧ (∀ p ∈ input1.streams_, p.2.input_ = [] ∧ p.2.output_ = [])
      ∧ input1.format_.seek_requests = input.format_.seek_requests ++ [ts]
      ∧ input1.format_.start_time = input.format_.start_time := by
  unfold Input.seek at h
  split at h
  · simp only [if_true, Option.some.injEq] at h
    rw [← h]
    refine ⟨rfl, ?_, rfl, rfl⟩
    intro p hp
    simp only [List.mem_map] at hp
    obtain ⟨q, _, rfl⟩ := hp
    exact ⟨rfl, rfl⟩
  · exact absurd h (by simp)

/-- A reset always ends: it returns or throws. -/
theorem Impl.reset_ends (lib : Lib) (s : Impl) (ts : Int) : s.reset lib ts ≠ Outcome.stuck := by
  unfold Impl.reset
  split
  · simp
  · split
    · simp
    · simp

/-- What reset leaves alone, and what it sets, when it returns. -/
theorem Impl.reset_returned (lib : Lib) (s s1 : Impl) (ts : Int)
    (h : s.reset lib ts = Outcome.returned () s1) :
    s1.video_filter_.start_time = some ts ∧ s1.audio_filter_.start_time = some ts
      ∧ s1.input_.format_ = s.input_.format_ ∧ s1.input_.output_ = s.input_.output_
      ∧ s1.input_.paused_ = s.input_.paused_ ∧ s1.input_.eof_ = s.input_.eof_
      ∧ s1.frame_ = s.frame_
      ∧ ((∀ p ∈ s.input_.streams_, p.2.input_ = [] ∧ p.2.output_ = []) →
          ∀ p ∈ s1.input_.streams_, p.2.input_ = [] ∧ p.2.output_ = [])
      ∧ (s.buffer_ = [] → s1.buffer_ = []) := by
  unfold Impl.reset at h
  split at h
  · exact absurd h (by simp)
  · rename_i vf hvf
    split at h
    · exact absurd h (by simp)
    · rename_i af haf
      simp only [Outcome.returned.injEq, true_and] at h
      rw [← h]
      refine ⟨Filter.ctor_start_time _ _ _ _ _ _ _ hvf, Filter.ctor_start_time _ _ _ _ _ _ _ haf,
        rfl, rfl, rfl, rfl, rfl, ?_, ?_⟩
      · intro hall p hp
        simp only [List.mem_map] at hp
        obtain ⟨q, hq, rfl⟩ := hp
        split
        · exact hall q hq
        · exact ⟨rfl, rfl⟩
      · intro hb
        simp only [hb]
        split <;> simp

/-- C3: let target = rescale(ts, format_tb_, TIME_BASE_Q) + container start_time, the
latter read as 0 when it is AV_NOPTS_VALUE.  seek(ts) always ends; it returns
when avformat_seek_file accepts target and both Filter constructors succeed;
and when it returns, the output buffer is empty, the demuxer queue and both
queues of every decoder are empty, the demuxer is neither paused nor at eof,
the remembered frame is the late sentinel, and target is the timestamp handed
last to avformat_seek_file and the start_time both filters were rebuilt with. -/
theorem seek_effect (lib : Lib) (s : Impl) (ts target : Int)
    (h_target : target = av_rescale_q ts s.format_tb_ TIME_BASE_Q
      + (if s.input_.format_.start_time ≠ AV_NOPTS_VALUE then s.input_.format_.start_time else 0)) :
    s.seek lib ts ≠ Outcome.stuck
      ∧ (∀ input1 : Input, s.input_.seek lib target true = some input1 →
          (Filter.ctor lib s.vfilter_ input1.resume target AVMediaType.VIDEO s.format_desc_).isSome →
          (Filter.ctor lib s.afilter_ input1.resume target AVMediaType.AUDIO s.format_desc_).isSome →
          ∃ s1 : Impl, s.seek lib ts = Outcome.returned () s1)
      ∧ (∀ s1 : Impl, s.seek lib ts = Outcome.returned () s1 →
          s1.buffer_ = []
            ∧ s1.input_.output_ = []
            ∧ (∀ p ∈ s1.input_.streams_, p.2.input_ = [] ∧ p.2.output_ = [])
            ∧ s1.input_.paused_ = false ∧ s1.input_.eof_ = false
            ∧ s1.frame_ = draw_frame.late
            ∧ s1.input_.format_.seek_requests = s.input_.format_.seek_requests ++ [target]
            ∧ s1.video_filter_.start_time = some target
            ∧ s1.audio_filter_.start_time = some target) := by
  subst h_target
  refine ⟨?_, ?_, ?_⟩
  · unfold Impl.seek
    simp only
    split
    · simp
    · split
      · simp
      · simp
      · rename_i hreset
        exact absurd hreset (Impl.reset_ends lib _ _)
  · intro input1 hseek hv ha
    obtain ⟨vf, hvf⟩ := Option.isSome_iff_exists.mp hv
    obtain ⟨af, haf⟩ := Option.isSome_iff_exists.mp ha
    unfold Impl.seek
    simp only
    rw [show s.input_.start_time
      = (if s.input_.format_.start_time ≠ AV_NOPTS_VALUE then s.input_.format_.start_time else 0)
      from rfl, hseek]
    simp only [Impl.reset, hvf, haf]
    exact ⟨_, rfl⟩
  · intro s1 h
    unfold Impl.seek at h
    simp only at h
    split at h
    · exact absurd h (by simp)
    · rename_i input1 hseek
      obtain ⟨hout, hstreams, hreq, _⟩ := Input.seek_flush lib _ _ _ hseek
      split at h
      · rename_i u s2 hreset
        simp only [Outcome.returned.injEq, true_and] at h
        obtain ⟨hv, ha, hfmt, hout2, hp, he, _, hst, hb⟩ := Impl.reset_returned lib _ _ _ hreset
        rw [← h]
        refine ⟨hb rfl, ?_, hst hstreams, ?_, ?_, rfl, ?_, hv, ha⟩
        · rw [hout2]; exact hout
        · rw [hp]; rfl
        · rw [he]; rfl
        · rw [hfmt]; exact hreq
      · exact absurd h (by simp)
      · exact absurd h (by simp)

/-- Witness of C3: seek(50) on a paused producer at end of file with queued
packets, decoded frames and two buffered output frames; the target is
2000000 us. -/
theorem seek_effect_witness :
    ((example_state.seek example_lib 50).state?.getD example_state).buffer_ = []
      ∧ ((example_state.seek example_lib 50).state?.getD example_state).input_.format_.seek_requests
          = [2000000]
      ∧ ((example_state.seek example_lib 50).state?.getD example_state).input_.paused_ = false :=
  have h := (seek_effect example_lib example_state 50 2000000 (by rfl)).2.2
    ((example_state.seek example_lib 50).state?.getD example_state) (by rfl)
  ⟨h.1, h.2.2.2.2.2.2.1, h.2.2.2.1⟩

/-! ### The output buffer is bounded by its capacity (C4) -/

theorem SameOutput.refl (s : Impl) : SameOutput s s := rfl

theorem SameOutput.trans {s s1 s2 : Impl} (h1 : SameOutput s s1) (h2 : SameOutput s1 s2) :
    SameOutput s s2 := Eq.trans h2 h1

theorem SameOutput.buffer {s s1 : Impl} (h : SameOutput s s1) : s1.buffer_ = s.buffer_ :=
  congrArg (fun v => v.1) h

theorem SameOutput.capacity {s s1 : Impl} (h : SameOutput s s1) :
    s1.buffer_capacity_ = s.buffer_capacity_ :=
  congrArg (fun v => v.2.1) h

theorem SameOutput.duration {s s1 : Impl} (h : SameOutput s s1) : s1.duration_ = s.duration_ :=
  congrArg (fun v => v.2.2.1) h

theorem SameOutput.cadence {s s1 : Impl} (h : SameOutput s s1) :
    s1.audio_cadence_ = s.audio_cadence_ :=
  congrArg (fun v => v.2.2.2.1) h

theorem SameOutput.format {s s1 : Impl} (h : SameOutput s s1) :
    s1.format_desc_ = s.format_desc_ :=
  congrArg (fun v => v.2.2.2.2) h

theorem Outcome.Ends.mono {α : Type} {P Q : Impl → Prop} (hPQ : ∀ s, P s → Q s)
    {o : Outcome α} (h : o.Ends P) : o.Ends Q := by
  cases o <;> simp_all [Outcome.Ends]

theorem schedule_inputs_sameOutput (s : Impl) : SameOutput s s.schedule_inputs.2 := rfl

theorem schedule_filters_loop_sameOutput (lib : Lib) (l : List (Int × List AVFilterContext)) :
    ∀ (s : Impl) (result : Bool), (schedule_filters_loop lib l s result).Ends (SameOutput s) := by
  induction l with
  | nil => intro s result; exact SameOutput.refl s
  | cons p more ih =>
    intro s result
    obtain ⟨index, srcs⟩ := p
    unfold schedule_filters_loop
    split
    · exact ih s result
    · split
      · exact ih s result
      · split
        · exact rfl
        · exact (ih _ _).mono (fun s2 h2 => SameOutput.trans rfl h2)

theorem schedule_filters_sameOutput (lib : Lib) (s : Impl) :
    (s.schedule_filters lib).Ends (SameOutput s) := by
  unfold Impl.schedule_filters
  have h := schedule_filters_loop_sameOutput lib (s.schedule_inputs).2.sources_
    (s.schedule_inputs).2 (s.schedule_inputs).1
  split
  · rename_i result s1 heq
    rw [heq] at h
    have h1 : SameOutput s s1 := SameOutput.trans (schedule_inputs_sameOutput s) h
    split
    · exact h1
    · exact SameOutput.trans h1 (schedule_inputs_sameOutput s1)
  · rename_i s1 heq
    rw [heq] at h
    exact SameOutput.trans (schedule_inputs_sameOutput s) h
  · trivial

theorem set_filter_frame_sameOutput (s : Impl) (video : Bool) (f : Option AVFrame) (eof : Bool) :
    SameOutput s (s.set_filter_frame video f eof) := by
  unfold Impl.set_filter_frame
  split <;> exact rfl

theorem filter_frame_loop_sameOutput (video : Bool) (pulls : List Pull) :
    ∀ s : Impl, (filter_frame_loop video pulls s).Ends (SameOutput s) := by
  induction pulls with
  | nil => intro s; trivial
  | cons pull pulls ih =>
    intro s
    unfold filter_frame_loop
    split
    · have h := schedule_filters_sameOutput pull.lib s
      split
      · rename_i s1 heq
        rw [heq] at h
        exact (ih s1).mono (fun s2 h2 => SameOutput.trans h h2)
      · rename_i s1 heq
        rw [heq] at h
        exact h
      · rename_i s1 heq
        rw [heq] at h
        exact h
      · trivial
    · exact set_filter_frame_sameOutput _ _ _ _
    · exact SameOutput.refl s
    · exact set_filter_frame_sameOutput _ _ _ _

theorem filter_frame_sameOutput (video : Bool) (pulls : List Pull) (s : Impl) :
    (s.filter_frame video pulls).Ends (SameOutput s) := by
  unfold Impl.filter_frame
  split
  · exact set_filter_frame_sameOutput _ _ _ _
  · exact filter_frame_loop_sameOutput video pulls s

theorem SameOutput.growth {s s1 : Impl} (h : SameOutput s s1) (k : Nat) : BufferGrowth k s s1 :=
  ⟨by rw [h.buffer]; omega, h.capacity⟩

theorem BufferGrowth.after_sameOutput {k : Nat} {s s1 s2 : Impl} (h1 : SameOutput s s1)
    (h2 : BufferGrowth k s1 s2) : BufferGrowth k s s2 :=
  ⟨by have := h2.1; rw [h1.buffer] at this; exact this, h2.2.trans h1.capacity⟩

theorem reset_growth (lib : Lib) (s : Impl) (ts : Int) :
    (s.reset lib ts).Ends (BufferGrowth 0 s) := by
  unfold Impl.reset
  split
  · exact ⟨Nat.le_refl _, rfl⟩
  · split
    · exact ⟨Nat.le_refl _, rfl⟩
    · refine ⟨?_, rfl⟩
      simp only [Nat.add_zero]
      split
      · split
        · simp [List.length_tail]
        · exact Nat.le_refl _
      · exact Nat.le_refl _

theorem seek_growth (lib : Lib) (s : Impl) (time : Int) :
    (s.seek lib time).Ends (BufferGrowth 0 s) := by
  unfold Impl.seek
  simp only
  split
  · exact ⟨by simp, rfl⟩
  · rename_i input1 _
    have h := reset_growth lib
      { s with buffer_ := [], input_ := input1.resume }
      (av_rescale_q time s.format_tb_ TIME_BASE_Q + s.input_.start_time)
    split
    · rename_i u s2 heq
      rw [heq] at h
      exact ⟨by have := h.1; simp at this; simp [this], h.2⟩
    · rename_i s2 heq
      rw [heq] at h
      exact ⟨by have := h.1; simp at this; simp [this], h.2⟩
    · trivial

theorem tick_output_growth (lib : Lib) (s : Impl) (video audio : Option AVFrame) :
    (s.tick_output lib video audio).Ends (BufferGrowth 1 s) := by
  unfold Impl.tick_output
  split
  · have h := reset_growth lib s
      ((if s.start_ ≠ AV_NOPTS_VALUE then s.start_ else 0) + s.input_.start_time)
    split
    · rename_i u s1 heq
      rw [heq] at h
      split
      · exact ⟨by have := h.1; omega, h.2⟩
      · exact ⟨by have := h.1; simp only; omega, h.2⟩
    · rename_i s1 heq
      rw [heq] at h
      exact ⟨by have := h.1; omega, h.2⟩
    · trivial
  · split
    · exact ⟨by simp, rfl⟩
    · exact ⟨by simp, rfl⟩

theorem tick_frames_growth (lib : Lib) (s : Impl) :
    (s.tick_frames lib).Ends (BufferGrowth 1 s) := by
  unfold Impl.tick_frames
  split
  · exact (reset_growth lib s _).mono (fun s1 h => ⟨by have := h.1; omega, h.2⟩)
  · split
    · exact ⟨by simp, rfl⟩
    · exact (tick_output_growth lib _ _ _).mono (fun s1 h => ⟨h.1, h.2⟩)

theorem tick_filters_growth (o : TickScript) (s : Impl) :
    (s.tick_filters o).Ends (BufferGrowth 1 s) := by
  unfold Impl.tick_filters
  have hv : (if s.video_filter_.frame.isNone then s.filter_frame true o.video
      else Outcome.returned true s).Ends (SameOutput s) := by
    split
    · exact filter_frame_sameOutput _ _ _
    · exact SameOutput.refl s
  split
  · rename_i s1 heq
    rw [heq] at hv
    exact hv.growth 1
  · trivial
  · rename_i s1 heq
    rw [heq] at hv
    exact hv.growth 1
  · rename_i s1 heq
    rw [heq] at hv
    have ha : (if s1.audio_filter_.frame.isNone then
        s1.filter_frame false (o.audio s1.audio_nb_samples)
        else Outcome.returned true s1).Ends (SameOutput s1) := by
      split
      · exact filter_frame_sameOutput _ _ _
      · exact SameOutput.refl s1
    split
    · rename_i s2 heq2
      rw [heq2] at ha
      exact (SameOutput.trans hv ha).growth 1
    · trivial
    · rename_i s2 heq2
      rw [heq2] at ha
      exact (SameOutput.trans hv ha).growth 1
    · rename_i s2 heq2
      rw [heq2] at ha
      exact (tick_frames_growth o.lib s2).mono
        (fun s3 h3 => BufferGrowth.after_sameOutput (SameOutput.trans hv ha) h3)

theorem BufferGrowth.bounded {s s1 : Impl} (h : BufferGrowth 0 s s1) (hs : s.bounded) :
    s1.bounded := by
  unfold Impl.bounded at *
  rw [h.2]
  have := h.1
  omega

theorem tick_bounded (o : TickScript) (s : Impl) (hs : s.bounded) :
    (s.tick o).Ends (fun s1 => s1.bounded ∧ s1.buffer_capacity_ = s.buffer_capacity_) := by
  unfold Impl.tick
  split
  · rename_i hruns
    have hlt : s.buffer_.length < to_size_t s.buffer_capacity_ := by
      simp only [Impl.tick_runs, Bool.and_eq_true, decide_eq_true_eq] at hruns
      exact hruns.2
    split
    · split
      · exact ⟨hs, rfl⟩
      · exact ⟨hs, rfl⟩
    · refine (tick_filters_growth o s.rotate_cadence).mono (fun s1 h => ?_)
      have h1 := h.1
      have h2 := h.2
      refine ⟨?_, h2⟩
      unfold Impl.bounded
      rw [h2]
      simp only [Impl.rotate_cadence] at h1 ⊢
      omega
  · exact ⟨hs, rfl⟩

theorem step_bounded (s s1 : Impl) (op : Op) (hs : s.bounded) (h : s.step op = some s1) :
    s1.bounded ∧ s1.buffer_capacity_ = s.buffer_capacity_ := by
  cases op with
  | tick o =>
    have ht := tick_bounded o s hs
    simp only [Impl.step] at h
    cases hto : s.tick o with
    | returned v s2 => rw [hto] at h ht; simp only [Outcome.state?, Option.some.injEq] at h; rw [← h]; exact ht
    | threw s2 => rw [hto] at h ht; simp only [Outcome.state?, Option.some.injEq] at h; rw [← h]; exact ht
    | stuck => rw [hto] at h; simp [Outcome.state?] at h
  | next_frame =>
    simp only [Impl.step, Option.some.injEq] at h
    rw [← h]
    unfold Impl.bounded at *
    unfold Impl.next_frame
    split
    · exact ⟨hs, rfl⟩
    · split
      · split
        · rename_i heq
          rw [heq] at hs
          simp only [List.length_cons] at hs
          exact ⟨by simp only; omega, rfl⟩
        · exact ⟨hs, rfl⟩
      · split
        · rename_i heq
          rw [heq] at hs
          simp only [List.length_cons] at hs
          exact ⟨by simp only; omega, rfl⟩
        · exact ⟨hs, rfl⟩
  | prev_frame =>
    simp only [Impl.step, Option.some.injEq] at h
    rw [← h]
    unfold Impl.prev_frame
    split
    · split
      · exact ⟨hs, rfl⟩
      · exact ⟨hs, rfl⟩
    · exact ⟨hs, rfl⟩
  | seek lib time =>
    have ht := seek_growth lib s time
    simp only [Impl.step] at h
    cases hto : s.seek lib time with
    | returned v s2 =>
      rw [hto] at h ht; simp only [Outcome.state?, Option.some.injEq] at h; rw [← h]
      exact ⟨ht.bounded hs, ht.2⟩
    | threw s2 =>
      rw [hto] at h ht; simp only [Outcome.state?, Option.some.injEq] at h; rw [← h]
      exact ⟨ht.bounded hs, ht.2⟩
    | stuck => rw [hto] at h; simp [Outcome.state?] at h
  | reset lib ts =>
    have ht := reset_growth lib s ts
    simp only [Impl.step] at h
    cases hto : s.reset lib ts with
    | returned v s2 =>
      rw [hto] at h ht; simp only [Outcome.state?, Option.some.injEq] at h; rw [← h]
      exact ⟨ht.bounded hs, ht.2⟩
    | threw s2 =>
      rw [hto] at h ht; simp only [Outcome.state?, Option.some.injEq] at h; rw [← h]
      exact ⟨ht.bounded hs, ht.2⟩
    | stuck => rw [hto] at h; simp [Outcome.state?] at h
  | loop b => simp only [Impl.step, Option.some.injEq] at h; rw [← h]; exact ⟨hs, rfl⟩
  | start t => simp only [Impl.step, Option.some.injEq] at h; rw [← h]; exact ⟨hs, rfl⟩
  | duration d => simp only [Impl.step, Option.some.injEq] at h; rw [← h]; exact ⟨hs, rfl⟩
  | input_threads input => simp only [Impl.step, Option.some.injEq] at h; rw [← h]; exact ⟨hs, rfl⟩
  | abort => simp only [Impl.step, Option.some.injEq] at h; rw [← h]; exact ⟨hs, rfl⟩

theorem run_bounded (ops : List Op) : ∀ (s s1 : Impl), s.bounded → s.run ops = some s1 →
    s1.bounded ∧ s1.buffer_capacity_ = s.buffer_capacity_ := by
  induction ops with
  | nil =>
    intro s s1 hs h
    simp only [Impl.run, Option.some.injEq] at h
    rw [← h]
    exact ⟨hs, rfl⟩
  | cons op ops ih =>
    intro s s1 hs h
    simp only [Impl.run] at h
    split at h
    · rename_i s2 hstep
      have h2 := step_bounded s s2 op hs hstep
      have h3 := ih s2 s1 h2.1 h
      exact ⟨h3.1, h3.2.trans h2.2⟩
    · exact absurd h (by simp)

theorem ctor_bounded (lib : Lib) (fd : video_format_desc) (input : Input)
    (vfilter afilter : String) (start duration : Option Int) (loop : Bool) :
    (Impl.ctor lib fd input vfilter afilter start duration loop).Ends
      (fun s => s.bounded ∧ s.buffer_capacity_ = Int.tdiv fd.framerate.num fd.framerate.den) := by
  have h0 : (Impl.init fd input vfilter afilter start duration loop).bounded := by
    simp [Impl.bounded, Impl.init]
  unfold Impl.ctor
  split
  · exact (seek_growth lib _ _).mono (fun s h => ⟨h.bounded h0, h.2⟩)
  · exact (reset_growth lib _ _).mono (fun s h => ⟨h.bounded h0, h.2⟩)

/-- C4: for a target frame rate num/den with 0 <= num < 2^31 and den > 0, in every
state reached from a constructed producer by any sequence of orchestrator
iterations, next_frame, prev_frame, seek, reset, the setters, work of the
demuxer and decoder threads and abort (including states left by a call that
throws), buffer_capacity_ is the integer part of num/den and the output buffer
holds at most buffer_capacity_ frames. -/
theorem buffer_within_capacity (lib : Lib) (fd : video_format_desc) (input : Input)
    (vfilter afilter : String) (start duration : Option Int) (loop : Bool)
    (ops : List Op) (s0 s : Impl)
    (h_num : 0 ≤ fd.framerate.num) (h_den : 0 < fd.framerate.den)
    (h_int : fd.framerate.num < 2147483648)
    (h_ctor : Impl.ctor lib fd input vfilter afilter start duration loop = Outcome.returned () s0)
    (h_run : s0.run ops = some s) :
    s.buffer_capacity_ = Int.tdiv fd.framerate.num fd.framerate.den
      ∧ (s.buffer_.length : Int) ≤ s.buffer_capacity_ := by
  have hc := ctor_bounded lib fd input vfilter afilter start duration loop
  rw [h_ctor] at hc
  have hr := run_bounded ops s0 s hc.1 h_run
  have hcap : s.buffer_capacity_ = Int.tdiv fd.framerate.num fd.framerate.den := hr.2.trans hc.2
  refine ⟨hcap, ?_⟩
  have hb := hr.1
  unfold Impl.bounded to_size_t at hb
  have h1 : 0 ≤ s.buffer_capacity_ := by
    rw [hcap]; exact Int.tdiv_nonneg h_num (le_of_lt h_den)
  have h2 : s.buffer_capacity_ ≤ fd.framerate.num := by
    rw [hcap, Int.tdiv_eq_ediv h_num (le_of_lt h_den)]
    exact Int.ediv_le_self _ h_num
  omega

/-- Witness of C4: a 25p producer after two appending iterations, a next_frame
and a third iteration. -/
theorem buffer_within_capacity_witness :
    ((example_constructed.run [Op.tick (example_tick 0), Op.tick (example_tick 1), Op.next_frame,
        Op.tick (example_tick 2)]).getD example_state).buffer_capacity_ = 25
      ∧ ((((example_constructed.run [Op.tick (example_tick 0), Op.tick (example_tick 1), Op.next_frame,
        Op.tick (example_tick 2)]).getD example_state).buffer_.length : Nat) : Int)
          ≤ ((example_constructed.run [Op.tick (example_tick 0), Op.tick (example_tick 1), Op.next_frame,
        Op.tick (example_tick 2)]).getD example_state).buffer_capacity_ :=
  buffer_within_capacity example_lib example_format_25p example_input "" "" none none false
    [Op.tick (example_tick 0), Op.tick (example_tick 1), Op.next_frame, Op.tick (example_tick 2)]
    example_constructed _ (by decide) (by decide) (by decide) (by rfl) (by rfl)

/-! ### Field parity of the output buffer (C5) -/

/-- C5, counterexample: an interlaced producer (field_count = 2), right after
construction, runs one orchestrator iteration in which both sinks deliver a
frame; the output buffer then holds one frame, an odd number. -/
theorem buffer_parity_counterexample :
    Impl.ctor example_lib example_format_2997i example_input "" "" none none false
        = Outcome.returned () example_interlaced
      ∧ example_interlaced.format_desc_.field_count = 2
      ∧ (example_interlaced.run [Op.tick (example_tick 0)]).map (fun s => s.buffer_.length)
        = some 1 := by
  refine ⟨by rfl, by rfl, by rfl⟩

/-- A seek that returns leaves the output buffer empty. -/
theorem seek_returned_buffer (lib : Lib) (s s1 : Impl) (time : Int)
    (h : s.seek lib time = Outcome.returned () s1) : s1.buffer_ = [] := by
  unfold Impl.seek at h
  simp only at h
  split at h
  · exact absurd h (by simp)
  · split at h
    · rename_i u s2 hreset
      simp only [Outcome.returned.injEq, true_and] at h
      rw [← h]
      exact (Impl.reset_returned lib _ _ _ hreset).2.2.2.2.2.2.2.2 rfl
    · exact absurd h (by simp)
    · exact absurd h (by simp)

/-- C5, amended: with field_count = 2, next_frame removes no frame or two and so
keeps the parity of the buffer length; a seek that returns leaves the buffer
empty; a reset that returns with loop on leaves an even number of frames; and
an orchestrator iteration appends at most one frame. -/
theorem buffer_parity (s : Impl) (h_fc : s.format_desc_.field_count = 2) :
    s.next_frame.2.buffer_.length % 2 = s.buffer_.length % 2
      ∧ (∀ (lib : Lib) (time : Int) (s1 : Impl),
          s.seek lib time = Outcome.returned () s1 → s1.buffer_ = [])
      ∧ (∀ (lib : Lib) (ts : Int) (s1 : Impl), s.loop_ = true →
          s.reset lib ts = Outcome.returned () s1 → s1.buffer_.length % 2 = 0)
      ∧ (∀ (o : TickScript), (s.tick o).Ends (fun s1 =>
          s1.buffer_.length = s.buffer_.length + 1 ∨ s1.buffer_.length ≤ s.buffer_.length)) := by
  refine ⟨?_, ?_, ?_, ?_⟩
  · unfold Impl.next_frame
    split
    · rfl
    · split
      · rename_i heq
        simp only [heq, List.length_cons]
        omega
      · rfl
  · intro lib time s1 h
    exact seek_returned_buffer lib s s1 time h
  · intro lib ts s1 hloop h
    unfold Impl.reset at h
    split at h
    · exact absurd h (by simp)
    · split at h
      · exact absurd h (by simp)
      · simp only [Outcome.returned.injEq, true_and] at h
        rw [← h]
        simp only [hloop, h_fc, and_self, if_true]
        split
        · rename_i hodd
          rw [List.length_tail]
          omega
        · omega
  · intro o
    unfold Impl.tick
    split
    · split
      · split
        · exact Or.inr (Nat.le_refl _)
        · exact Or.inr (Nat.le_refl _)
      · refine (tick_filters_growth o s.rotate_cadence).mono (fun s1 h => ?_)
        have h1 := h.1
        simp only [Impl.rotate_cadence] at h1
        omega
    · exact Or.inr (Nat.le_refl _)

/-- Witness of C5 (amended): an interlaced producer with three buffered frames. -/
theorem buffer_parity_witness :
    example_three_fields.next_frame.2.buffer_.length % 2 = example_three_fields.buffer_.length % 2
      ∧ ((example_three_fields.seek example_lib 0).state?.getD example_state).buffer_ = [] :=
  have h := buffer_parity example_three_fields (by rfl)
  ⟨h.1, h.2.1 example_lib 0 _ (by rfl)⟩

/-! ### Consecutive output frames (C6) -/

/-- Rounding to nearest is additive up to one unit: with F(m) = floor((m * B + c/2) / c),
F(m + 1) differs from F(m) + F(1) by at most 1. -/
theorem round_div_step (B c m : Int) (hc : 0 < c) :
    |((m + 1) * B + c / 2) / c - ((m * B + c / 2) / c + (1 * B + c / 2) / c)| ≤ 1 := by
  have e0 := Int.emod_add_ediv (m * B + c / 2) c
  have e1 := Int.emod_add_ediv ((m + 1) * B + c / 2) c
  have e2 := Int.emod_add_ediv (1 * B + c / 2) c
  have n0 := Int.emod_nonneg (m * B + c / 2) (ne_of_gt hc)
  have n1 := Int.emod_nonneg ((m + 1) * B + c / 2) (ne_of_gt hc)
  have n2 := Int.emod_nonneg (1 * B + c / 2) (ne_of_gt hc)
  have l0 := Int.emod_lt_of_pos (m * B + c / 2) hc
  have l1 := Int.emod_lt_of_pos ((m + 1) * B + c / 2) hc
  have l2 := Int.emod_lt_of_pos (1 * B + c / 2) hc
  have hh0 : 0 ≤ c / 2 := Int.ediv_nonneg (le_of_lt hc) (by decide)
  have hh1 : c / 2 ≤ c := Int.ediv_le_self 2 (le_of_lt hc)
  generalize ((m + 1) * B + c / 2) / c = q1 at *
  generalize (m * B + c / 2) / c = q0 at *
  generalize (1 * B + c / 2) / c = q2 at *
  generalize ((m + 1) * B + c / 2) % c = r1 at *
  generalize (m * B + c / 2) % c = r0 at *
  generalize (1 * B + c / 2) % c = r2 at *
  generalize c / 2 = h at *
  have key : c * (q1 - (q0 + q2)) = r0 + r2 - r1 - h := by linear_combination e1 - e0 - e2
  rw [abs_le]
  constructor
  · by_contra hlt
    have : q1 - (q0 + q2) ≤ -2 := by omega
    have : c * (q1 - (q0 + q2)) ≤ c * (-2) := Int.mul_le_mul_of_nonneg_left this (le_of_lt hc)
    omega
  · by_contra hlt
    have : 2 ≤ q1 - (q0 + q2) := by omega
    have : c * 2 ≤ c * (q1 - (q0 + q2)) := Int.mul_le_mul_of_nonneg_left this (le_of_lt hc)
    omega

/-- The same for av_rescale_rnd, at every integer n. -/
theorem av_rescale_rnd_step (n b c : Int) (hb : 0 ≤ b) (hc : 0 < c) :
    |av_rescale_rnd (n + 1) b c - (av_rescale_rnd n b c + av_rescale_rnd 1 b c)| ≤ 1 := by
  have hguard : ¬ (c ≤ 0 ∨ b < 0) := by omega
  unfold av_rescale_rnd
  simp only [hguard, if_false]
  have h1 : ¬ ((1 : Int) < 0) := by decide
  simp only [h1, if_false]
  by_cases hn : n < 0
  · by_cases hn1 : n + 1 < 0
    · simp only [hn, hn1, if_true]
      have h := round_div_step b c (-(n + 1)) hc
      have e1 : (-(n + 1) + 1) * b = -n * b := by ring
      rw [e1] at h
      rw [abs_le] at h ⊢
      omega
    · have hn0 : n = -1 := by omega
      subst hn0
      have hz : ((-1 + 1) * b + c / 2) / c = 0 := by
        have hh0 : 0 ≤ c / 2 := Int.ediv_nonneg (le_of_lt hc) (by decide)
        have hh1 : c / 2 < c := by omega
        simp only [neg_add_cancel, zero_mul, zero_add]
        exact Int.ediv_eq_zero_of_lt hh0 hh1
      simp only [show ¬ ((-1 : Int) + 1 < 0) by decide, show ((-1 : Int) < 0) by decide, if_true,
        if_false, hz]
      simp
  · have hn1 : ¬ (n + 1 < 0) := by omega
    simp only [hn, hn1, if_false]
    exact round_div_step b c n hc

/-- C6: for a video sink whose frame rate num/den is positive and whose time base is
den/num, every container start time and every sink pts n, the OutputFrame of
lines 904-917 has pts = av_rescale_q(n, den/num, 1/1000000) - start, where
start is the start_time of the container (0 when that is AV_NOPTS_VALUE), and
duration = av_rescale_q(1, den/num, 1/1000000), and the pts computed from n + 1
differs from pts + duration computed from n by at most 1. -/
theorem consecutive_output_frames (s : Impl) (k : AVFilterContext) (v0 v1 : AVFrame)
    (a0 a1 : Option AVFrame)
    (h_sink : s.video_filter_.sink = some k)
    (h_num : 0 < k.frame_rate.num) (h_den : 0 < k.frame_rate.den)
    (h_tb : k.time_base = av_inv_q k.frame_rate)
    (h_next : v1.pts = v0.pts + 1) :
    (s.output_frame (some v0) a0).pts
        = av_rescale_q v0.pts { num := k.frame_rate.den, den := k.frame_rate.num } TIME_BASE_Q
          - (if s.input_.format_.start_time ≠ AV_NOPTS_VALUE then s.input_.format_.start_time
             else 0)
      ∧ (s.input_.format_.start_time ≠ AV_NOPTS_VALUE →
          (s.output_frame (some v0) a0).pts
            = av_rescale_q v0.pts { num := k.frame_rate.den, den := k.frame_rate.num } TIME_BASE_Q
              - s.input_.format_.start_time)
      ∧ (s.input_.format_.start_time = AV_NOPTS_VALUE →
          (s.output_frame (some v0) a0).pts
            = av_rescale_q v0.pts { num := k.frame_rate.den, den := k.frame_rate.num } TIME_BASE_Q)
      ∧ (s.output_frame (some v0) a0).duration
        = av_rescale_q 1 { num := k.frame_rate.den, den := k.frame_rate.num } TIME_BASE_Q
      ∧ |(s.output_frame (some v1) a1).pts
          - ((s.output_frame (some v0) a0).pts + (s.output_frame (some v0) a0).duration)| ≤ 1 := by
  have hpts : (s.output_frame (some v0) a0).pts
      = av_rescale_q v0.pts { num := k.frame_rate.den, den := k.frame_rate.num } TIME_BASE_Q
        - (if s.input_.format_.start_time ≠ AV_NOPTS_VALUE then s.input_.format_.start_time
           else 0) := by
    simp only [Impl.output_frame, h_sink, Option.getD_some, output_pts, h_tb, av_inv_q,
      Impl.stream_start]
  refine ⟨hpts, ?_, ?_, ?_, ?_⟩
  · intro h
    rw [hpts, if_pos h]
  · intro h
    have hn : ¬ (s.input_.format_.start_time ≠ AV_NOPTS_VALUE) := fun hne => hne h
    rw [hpts, if_neg hn, sub_zero]
  · simp only [Impl.output_frame, h_sink, Option.getD_some, output_video_duration, av_inv_q]
  · have hstep := av_rescale_rnd_step v0.pts (k.frame_rate.den * AV_TIME_BASE)
      (1 * k.frame_rate.num) (by unfold AV_TIME_BASE; omega) (by omega)
    simp only [Impl.output_frame, h_sink, Option.getD_some, output_pts, output_video_duration,
      h_tb, h_next, av_inv_q, av_rescale_q, TIME_BASE_Q]
    rw [abs_le] at hstep ⊢
    omega

/-- Witness of C6: sink pts 30 and 31 on the 25p producer whose container starts at
1000000 us: the output pts are 1200000 - 1000000 and 1240000 - 1000000, the
duration is 40000. -/
theorem consecutive_output_frames_witness :
    example_shifted.input_.format_.start_time = 1000000
      ∧ (example_shifted.output_frame (some { pts := 30 }) none).pts = 200000
      ∧ (example_shifted.output_frame (some { pts := 31 }) none).pts = 240000
      ∧ (example_shifted.output_frame (some { pts := 30 }) none).duration = 40000
      ∧ (example_shifted.output_frame (some { pts := 30 }) none).pts
          = av_rescale_q 30 { num := 1, den := 25 } TIME_BASE_Q - 1000000
      ∧ |(example_shifted.output_frame (some { pts := 31 }) none).pts
          - ((example_shifted.output_frame (some { pts := 30 }) none).pts
              + (example_shifted.output_frame (some { pts := 30 }) none).duration)| ≤ 1 :=
  ⟨by rfl, by rfl, by rfl, by rfl,
   (consecutive_output_frames example_shifted
      { name := "out", w := 1920, h := 1080, time_base := { num := 1, den := 25 },
        frame_rate := { num := 25, den := 1 } }
      { pts := 30 } { pts := 31 } none none (by rfl) (by decide) (by decide) (by rfl)
      (by rfl)).2.1 (by decide),
   (consecutive_output_frames example_shifted
      { name := "out", w := 1920, h := 1080, time_base := { num := 1, den := 25 },
        frame_rate := { num := 25, den := 1 } }
      { pts := 30 } { pts := 31 } none none (by rfl) (by decide) (by decide) (by rfl)
      (by rfl)).2.2.2.2⟩

/-! ### The first ten output frames at 25 fps (C7) -/

/-- C7: with a video sink of frame rate 25/1 and time base 1/25 and container start
time 0, a video frame of sink pts n, 0 <= n <= 9, gives an OutputFrame of
pts 40000 * n and duration 40000. -/
theorem first_ten_output_frames (s : Impl) (k : AVFilterContext) (v : AVFrame) (a : Option AVFrame)
    (h_sink : s.video_filter_.sink = some k)
    (h_rate : k.frame_rate = { num := 25, den := 1 })
    (h_tb : k.time_base = { num := 1, den := 25 })
    (h_start : s.input_.format_.start_time = 0)
    (h_lo : 0 ≤ v.pts) (h_hi : v.pts ≤ 9) :
    (s.output_frame (some v) a).pts = 40000 * v.pts
      ∧ (s.output_frame (some v) a).duration = 40000 := by
  simp only [Impl.output_frame, h_sink, Option.getD_some, output_pts, output_video_duration, h_tb,
    h_rate, av_inv_q, av_rescale_q, TIME_BASE_Q, Impl.stream_start, h_start, av_rescale_rnd,
    AV_TIME_BASE, AV_NOPTS_VALUE]
  constructor
  · have h : ¬ (v.pts < 0) := by omega
    simp only [h, if_false]
    norm_num
    omega
  · decide

/-- Witness of C7: ten orchestrator iterations on the constructed 25p producer,
the sink delivering pts 0..9, fill the buffer with pts 0, 40000, ..., 360000 and
duration 40000 each; and the theorem at n = 9. -/
theorem first_ten_output_frames_witness :
    ((example_constructed.run ((List.range 10).map (fun n => Op.tick (example_tick n)))).map
        (fun s => s.buffer_.map (fun f => (f.pts, f.duration))))
      = some [(0, 40000), (40000, 40000), (80000, 40000), (120000, 40000), (160000, 40000),
              (200000, 40000), (240000, 40000), (280000, 40000), (320000, 40000), (360000, 40000)]
      ∧ (example_constructed.output_frame (some { pts := 9 }) none).pts = 40000 * 9 :=
  ⟨by rfl, (first_ten_output_frames example_constructed _ { pts := 9 } none (by rfl) (by rfl) (by rfl)
    (by rfl) (by decide) (by decide)).1⟩

/-! ### The audio cadence over a window of output ticks (C8) -/

/-- C8, counterexample, on two producers as constructed.  (1) Interlaced 29.97
(field_count = 2, cadence 1602, 1601, 1602, 1601, 1602, sum 8008): ten
consecutive iterations, each appending a frame (a window of five output
ticks), ask for 801, 800, 801, 800, 801, 801, 800, 801, 800, 801 samples, 8006
in all.  (2) Progressive 29.97 (field_count =
1, same cadence): when the second of six iterations starves on audio, the five
frames appended carry 1602, 1602, 1601, 1602, 1602 samples, 8009 in all. -/
theorem cadence_window_counterexample :
    Impl.ctor example_lib example_format_2997i example_input "" "" none none false
        = Outcome.returned () example_interlaced
      ∧ Impl.ctor example_lib example_format_2997p { example_input with output_ := [] } "" "" none
          none false = Outcome.returned () example_2997p
      ∧ example_interlaced.format_desc_.field_count = 2
      ∧ example_interlaced.audio_cadence_ = [1602, 1601, 1602, 1601, 1602]
      ∧ (example_interlaced.run ((List.range 10).map (fun n => Op.tick (example_tick n)))).map
          (fun s => s.buffer_.map (fun f => f.frame.audio_samples))
        = some [801, 800, 801, 800, 801, 801, 800, 801, 800, 801]
      ∧ ([801, 800, 801, 800, 801, 801, 800, 801, 800, 801] : List Int).sum = 8006
      ∧ example_interlaced.audio_cadence_.sum = 8008
      ∧ example_2997p.format_desc_.field_count = 1
      ∧ example_2997p.audio_cadence_ = [1602, 1601, 1602, 1601, 1602]
      ∧ (example_2997p.run [Op.tick (example_tick 0), Op.tick (example_starved_tick 1),
            Op.tick (example_tick 1), Op.tick (example_tick 2), Op.tick (example_tick 3),
            Op.tick (example_tick 4)]).map
          (fun s => s.buffer_.map (fun f => f.frame.audio_samples))
        = some [1602, 1602, 1601, 1602, 1602]
      ∧ ([1602, 1602, 1601, 1602, 1602] : List Int).sum = 8009 := by
  refine ⟨by rfl, by rfl, by rfl, by rfl, by rfl, by rfl, by rfl, by rfl, by rfl, by rfl, by rfl⟩

/-- One rotation of line 852 on a cadence: the last entry comes first. -/
theorem rotate_append_singleton (l : List Int) (y : Int) :
    (l ++ [y]).rotate ((l ++ [y]).length - 1) = y :: l := by
  have h : (l ++ [y]).length - 1 = l.length := by simp
  rw [h, List.rotate_append_length_eq]
  rfl

theorem window_requests_append (a b : Nat) : ∀ s : Impl,
    Impl.window_requests (a + b) s
      = Impl.window_requests a s ++ Impl.window_requests b (Impl.rotate_cadence^[a] s) := by
  induction a with
  | zero => intro s; simp [Impl.window_requests]
  | succ a ih =>
    intro s
    have h : a + 1 + b = (a + b) + 1 := by omega
    rw [h]
    simp only [Impl.window_requests, ih, Function.iterate_succ, Function.comp_apply,
      List.cons_append]

theorem window_requests_pass (Y : List Int) : ∀ (X : List Int) (s : Impl),
    s.audio_cadence_ = X ++ Y →
      Impl.window_requests Y.length s
          = Y.reverse.map (fun c => Int.tdiv c s.format_desc_.field_count)
        ∧ (Impl.rotate_cadence^[Y.length] s).audio_cadence_ = Y ++ X
        ∧ (Impl.rotate_cadence^[Y.length] s).format_desc_ = s.format_desc_ := by
  induction Y using List.reverseRecOn with
  | nil => intro X s h; simp [Impl.window_requests, h]
  | append_singleton Y y ih =>
    intro X s h
    have hrot : s.rotate_cadence.audio_cadence_ = (y :: X) ++ Y := by
      simp only [Impl.rotate_cadence, h]
      rw [← List.append_assoc, rotate_append_singleton]
      simp
    obtain ⟨h1, h2, h3⟩ := ih (y :: X) s.rotate_cadence hrot
    have hlen : (Y ++ [y]).length = Y.length + 1 := by simp
    rw [hlen]
    refine ⟨?_, ?_, ?_⟩
    · simp only [Impl.window_requests, h1, List.reverse_append, List.reverse_singleton,
        List.singleton_append, List.map_cons, Impl.audio_nb_samples, hrot, List.cons_append,
        List.headD_cons]
      rfl
    · rw [Function.iterate_succ, Function.comp_apply, h2]
      simp
    · rw [Function.iterate_succ, Function.comp_apply, h3]
      rfl

theorem sum_tdiv_dvd (fc : Int) (l : List Int) (h : ∀ c ∈ l, fc ∣ c) :
    fc * (l.map (fun c => Int.tdiv c fc)).sum = l.sum := by
  induction l with
  | nil => simp
  | cons c l ih =>
    have hc : fc ∣ c := h c (List.mem_cons_self c l)
    have hl := ih (fun x hx => h x (List.mem_cons_of_mem c hx))
    simp only [List.map_cons, List.sum_cons, mul_add, hl]
    rw [Int.mul_tdiv_cancel' hc]

theorem window_requests_sum (s : Impl)
    (h_fc : s.format_desc_.field_count = 1 ∨ s.format_desc_.field_count = 2) :
    (Impl.window_requests (s.audio_cadence_.length * s.format_desc_.field_count.toNat) s).sum
      = s.format_desc_.field_count
          * (s.audio_cadence_.map (fun c => Int.tdiv c s.format_desc_.field_count)).sum := by
  obtain ⟨h1, h2, h3⟩ := window_requests_pass s.audio_cadence_ [] s (by simp)
  rcases h_fc with h | h
  · rw [h]
    simp only [Int.toNat_one, Nat.mul_one, one_mul]
    rw [h1, h, List.map_reverse, List.sum_reverse]
  · have h2' : (Impl.rotate_cadence^[s.audio_cadence_.length] s).audio_cadence_
        = [] ++ s.audio_cadence_ := by rw [h2]; simp
    obtain ⟨g1, _, _⟩ := window_requests_pass s.audio_cadence_ []
      (Impl.rotate_cadence^[s.audio_cadence_.length] s) h2'
    rw [h3] at g1
    have hn : s.audio_cadence_.length * s.format_desc_.field_count.toNat
        = s.audio_cadence_.length + s.audio_cadence_.length := by
      rw [h]
      have : (2 : Int).toNat = 2 := rfl
      rw [this]
      omega
    rw [hn, window_requests_append, List.sum_append, g1, h1, h, List.map_reverse,
      List.sum_reverse]
    ring

theorem SameOutput.sameCadence {s s1 : Impl} (h : SameOutput s s1) : SameCadence s s1 :=
  ⟨h.cadence, h.format⟩

theorem SameCadence.chain {s s1 s2 : Impl} (h1 : SameCadence s s1) (h2 : SameCadence s1 s2) :
    SameCadence s s2 := ⟨h2.1.trans h1.1, h2.2.trans h1.2⟩

theorem reset_sameCadence (lib : Lib) (s : Impl) (ts : Int) :
    (s.reset lib ts).Ends (SameCadence s) := by
  unfold Impl.reset
  split
  · exact ⟨rfl, rfl⟩
  · split
    · exact ⟨rfl, rfl⟩
    · exact ⟨rfl, rfl⟩

theorem tick_output_sameCadence (lib : Lib) (s : Impl) (video audio : Option AVFrame) :
    (s.tick_output lib video audio).Ends (SameCadence s) := by
  unfold Impl.tick_output
  split
  · have h := reset_sameCadence lib s
      ((if s.start_ ≠ AV_NOPTS_VALUE then s.start_ else 0) + s.input_.start_time)
    split
    · rename_i u s1 heq
      rw [heq] at h
      split
      · exact h
      · exact h
    · rename_i s1 heq
      rw [heq] at h
      exact h
    · trivial
  · split
    · exact ⟨rfl, rfl⟩
    · exact ⟨rfl, rfl⟩

theorem tick_frames_sameCadence (lib : Lib) (s : Impl) :
    (s.tick_frames lib).Ends (SameCadence s) := by
  unfold Impl.tick_frames
  split
  · exact reset_sameCadence lib s _
  · split
    · exact ⟨rfl, rfl⟩
    · exact tick_output_sameCadence lib _ _ _

theorem tick_filters_sameCadence (o : TickScript) (r : Impl) :
    (r.tick_filters o).Ends (SameCadence r) := by
  unfold Impl.tick_filters
  have hv : (if r.video_filter_.frame.isNone then r.filter_frame true o.video
      else Outcome.returned true r).Ends (SameOutput r) := by
    split
    · exact filter_frame_sameOutput _ _ _
    · exact SameOutput.refl r
  split
  · rename_i s1 heq
    rw [heq] at hv
    exact hv.sameCadence
  · trivial
  · rename_i s1 heq
    rw [heq] at hv
    exact hv.sameCadence
  · rename_i s1 heq
    rw [heq] at hv
    have ha : (if s1.audio_filter_.frame.isNone then
        s1.filter_frame false (o.audio s1.audio_nb_samples)
        else Outcome.returned true s1).Ends (SameOutput s1) := by
      split
      · exact filter_frame_sameOutput _ _ _
      · exact SameOutput.refl s1
    split
    · rename_i s2 heq2
      rw [heq2] at ha
      exact (SameOutput.trans hv ha).sameCadence
    · trivial
    · rename_i s2 heq2
      rw [heq2] at ha
      exact (SameOutput.trans hv ha).sameCadence
    · rename_i s2 heq2
      rw [heq2] at ha
      exact (tick_frames_sameCadence o.lib s2).mono (fun s3 h3 =>
        SameCadence.chain (SameOutput.trans hv ha).sameCadence h3)

theorem tick_rotates (o : TickScript) (s : Impl) (h_runs : s.tick_runs = true) :
    (s.tick o).Ends (SameCadence s.rotate_cadence) := by
  unfold Impl.tick
  rw [if_pos h_runs]
  split
  · split
    · exact ⟨rfl, rfl⟩
    · exact ⟨rfl, rfl⟩
  · exact tick_filters_sameCadence o s.rotate_cadence

theorem tick_filters_request (o : TickScript) (audio1 : Int → List Pull) (r : Impl)
    (h : audio1 r.audio_nb_samples = o.audio r.audio_nb_samples) :
    r.tick_filters { o with audio := audio1 } = r.tick_filters o := by
  unfold Impl.tick_filters
  simp only
  have hv : (if r.video_filter_.frame.isNone then r.filter_frame true o.video
      else Outcome.returned true r).Ends (SameOutput r) := by
    split
    · exact filter_frame_sameOutput _ _ _
    · exact SameOutput.refl r
  cases hV : (if r.video_filter_.frame.isNone then r.filter_frame true o.video
      else Outcome.returned true r) with
  | threw s1 => rfl
  | stuck => rfl
  | returned b s1 =>
    rw [hV] at hv
    cases b with
    | false => rfl
    | true =>
      have hn : s1.audio_nb_samples = r.audio_nb_samples := by
        unfold Impl.audio_nb_samples
        rw [hv.cadence, hv.format]
      simp only [hn, h]

theorem tick_request (o : TickScript) (audio1 : Int → List Pull) (s : Impl)
    (h : audio1 s.rotate_cadence.audio_nb_samples = o.audio s.rotate_cadence.audio_nb_samples) :
    s.tick { o with audio := audio1 } = s.tick o := by
  unfold Impl.tick
  rw [tick_filters_request o audio1 s.rotate_cadence h]

/-- C8, amended: an orchestrator iteration consults the audio sink only for
audio_cadence_[0] / field_count samples, taken after the rotation of that
iteration (the iteration is the same for any two scripts that agree there);
an iteration that gets past the wait leaves the cadence rotated by one step
and the format unchanged; and for field_count in {1, 2} the amounts asked over
|C| * field_count consecutive such iterations add up to field_count times the
sum of c / field_count (int division) over the cadence C, which is sum(C) when
field_count divides every entry. -/
theorem cadence_window (s : Impl)
    (h_fc : s.format_desc_.field_count = 1 ∨ s.format_desc_.field_count = 2) :
    (∀ (o : TickScript) (audio1 : Int → List Pull),
        audio1 s.rotate_cadence.audio_nb_samples = o.audio s.rotate_cadence.audio_nb_samples →
          s.tick { o with audio := audio1 } = s.tick o)
      ∧ (∀ o : TickScript, s.tick_runs = true →
          (s.tick o).Ends (fun s1 => s1.audio_cadence_ = s.rotate_cadence.audio_cadence_
            ∧ s1.format_desc_ = s.format_desc_))
      ∧ (Impl.window_requests (s.audio_cadence_.length * s.format_desc_.field_count.toNat) s).sum
          = s.format_desc_.field_count
              * (s.audio_cadence_.map (fun c => Int.tdiv c s.format_desc_.field_count)).sum
      ∧ ((∀ c ∈ s.audio_cadence_, s.format_desc_.field_count ∣ c) →
          (Impl.window_requests (s.audio_cadence_.length * s.format_desc_.field_count.toNat) s).sum
            = s.audio_cadence_.sum) := by
  refine ⟨fun o audio1 h => tick_request o audio1 s h, fun o h => tick_rotates o s h,
    window_requests_sum s h_fc, fun hdiv => ?_⟩
  rw [window_requests_sum s h_fc]
  exact sum_tdiv_dvd _ _ hdiv

/-- Witness of C8 (amended): the progressive 29.97 producer asks for 8008 samples
over five iterations, the interlaced one for 8006 over ten. -/
theorem cadence_window_witness :
    (Impl.window_requests 5 example_2997p).sum = 8008
      ∧ (Impl.window_requests 10 example_interlaced).sum = 2 * (801 + 800 + 801 + 800 + 801) :=
  ⟨(cadence_window example_2997p (Or.inl (by rfl))).2.2.2 (by decide),
   (cadence_window example_interlaced (Or.inr (by rfl))).2.2.1⟩

/-! ### Range enforcement (C9) -/

theorem round_div_self (d a : Int) (ha : 0 < a) : (d * a + a / 2) / a = d := by
  have h0 : 0 ≤ a / 2 := Int.ediv_nonneg (le_of_lt ha) (by decide)
  have h1 : a / 2 < a := by omega
  have hsplit : d * a + a / 2 = a / 2 + d * a := by ring
  rw [hsplit, Int.add_mul_ediv_right _ _ (ne_of_gt ha), Int.ediv_eq_zero_of_lt h0 h1]
  simp

/-- Rescaling by a/b >= 1 and back by b/a gives the value back. -/
theorem av_rescale_rnd_round_trip (d a b : Int) (hd : 0 ≤ d) (hb : 0 < b) (hab : b ≤ a) :
    av_rescale_rnd (av_rescale_rnd d a b) b a = d ∧ 0 ≤ av_rescale_rnd d a b := by
  have ha : 0 < a := by omega
  have hg1 : ¬ (b ≤ 0 ∨ a < 0) := by omega
  have hg2 : ¬ (a ≤ 0 ∨ b < 0) := by omega
  have hd0 : ¬ (d < 0) := by omega
  have hb2 : 0 ≤ b / 2 := Int.ediv_nonneg (le_of_lt hb) (by decide)
  have hda : 0 ≤ d * a := Int.mul_nonneg hd (le_of_lt ha)
  have hy : 0 ≤ (d * a + b / 2) / b := Int.ediv_nonneg (by omega) (le_of_lt hb)
  have hy0 : ¬ ((d * a + b / 2) / b < 0) := by omega
  unfold av_rescale_rnd
  simp only [hg1, hg2, hd0, hy0, if_false]
  refine ⟨?_, hy⟩
  by_cases hlt : b < a
  · have e := Int.emod_add_ediv (d * a + b / 2) b
    have n0 := Int.emod_nonneg (d * a + b / 2) (ne_of_gt hb)
    have l0 := Int.emod_lt_of_pos (d * a + b / 2) hb
    generalize (d * a + b / 2) / b = y at *
    generalize (d * a + b / 2) % b = r at *
    have hyb : y * b = d * a + b / 2 - r := by linear_combination e
    rw [hyb]
    have hlow : 0 ≤ b / 2 - r + a / 2 := by omega
    have hhigh : b / 2 - r + a / 2 < a := by omega
    have hsplit : d * a + b / 2 - r + a / 2 = (b / 2 - r + a / 2) + d * a := by ring
    rw [hsplit, Int.add_mul_ediv_right _ _ (ne_of_gt ha), Int.ediv_eq_zero_of_lt hlow hhigh]
    simp
  · have hba : b = a := by omega
    subst hba
    rw [round_div_self d b hb, round_div_self d b hb]

/-- C10: when the frame tick format_tb_ = num/den is at least one microsecond
(0 < den <= num * AV_TIME_BASE) and d >= 0, duration(d) followed by duration()
returns d. -/
theorem duration_round_trip (s : Impl) (d : Int)
    (h_den : 0 < s.format_tb_.den)
    (h_tick : s.format_tb_.den ≤ s.format_tb_.num * AV_TIME_BASE)
    (h_d : 0 ≤ d) :
    (s.duration d).get_duration = some d := by
  have h := av_rescale_rnd_round_trip d (s.format_tb_.num * AV_TIME_BASE) (1 * s.format_tb_.den)
    h_d (by omega) (by omega)
  have hne : av_rescale_rnd d (s.format_tb_.num * AV_TIME_BASE) (1 * s.format_tb_.den)
      ≠ AV_NOPTS_VALUE := by
    have := h.2
    unfold AV_NOPTS_VALUE
    omega
  have hnn : ¬ (av_rescale_rnd d (s.format_tb_.num * AV_TIME_BASE) (1 * s.format_tb_.den) < 0) := by
    have := h.2
    omega
  simp only [Impl.get_duration, Impl.duration, av_rescale_q, TIME_BASE_Q, hne, hnn, false_and,
    if_false, false_or, h.1]

/-- Witness of C10: 250 frames on the 25p producer. -/
theorem duration_round_trip_witness :
    (example_constructed.duration 250).get_duration = some 250 :=
  duration_round_trip example_constructed 250 (by decide) (by decide) (by decide)

/-! ### Reading the duration when none was set (C11) -/

/-- C11, counterexample: on the 25p producer with no duration set, container
duration 10000000 us (250 frames) and start(25) called (start_ = 1000000 us),
duration() returns 225, not the container duration 250. -/
theorem duration_unset_counterexample :
    example_started.duration_ = AV_NOPTS_VALUE
      ∧ example_started.input_.format_.duration = 10000000
      ∧ example_started.start_ = 1000000
      ∧ av_rescale_q example_started.input_.format_.duration TIME_BASE_Q example_started.format_tb_
          = 250
      ∧ example_started.get_duration = some 225 := by
  refine ⟨by rfl, by rfl, by rfl, by rfl, by rfl⟩

/-- Rescaling a non-negative value to a positive time base gives a non-negative value. -/
theorem av_rescale_q_nonneg (a : Int) (tb : AVRational) (ha : 0 ≤ a) (h_num : 0 < tb.num)
    (h_den : 0 ≤ tb.den) : 0 ≤ av_rescale_q a TIME_BASE_Q tb := by
  have hg : ¬ (tb.num * AV_TIME_BASE ≤ 0 ∨ 1 * tb.den < 0) := by
    unfold AV_TIME_BASE
    omega
  have ha0 : ¬ (a < 0) := by omega
  simp only [av_rescale_q, av_rescale_rnd, TIME_BASE_Q, hg, ha0, if_false]
  have hc : 0 < tb.num * AV_TIME_BASE := by
    unfold AV_TIME_BASE
    omega
  have hab : 0 ≤ a * (1 * tb.den) := Int.mul_nonneg ha (by omega)
  have hc2 : 0 ≤ tb.num * AV_TIME_BASE / 2 := Int.ediv_nonneg (le_of_lt hc) (by decide)
  exact Int.ediv_nonneg (by omega) (le_of_lt hc)

/-- C11, amended: with no duration set and the container duration D known,
duration() is rescale(D - start, TIME_BASE_Q, format_tb_), where start is
start_ or 0 when no start is set, and absent when D - start is negative; so it
is the rescaled container duration when no start is set (or start is 0) and
D >= 0.  With no duration set and D unknown it is absent.  And for a positive
frame time base a reported duration is never negative, in any state. -/
theorem duration_unset (s : Impl) (h_unset : s.duration_ = AV_NOPTS_VALUE) :
    (s.input_.format_.duration ≠ AV_NOPTS_VALUE →
        s.get_duration =
          if s.input_.format_.duration - (if s.start_ ≠ AV_NOPTS_VALUE then s.start_ else 0) < 0
          then none
          else some (av_rescale_q
            (s.input_.format_.duration - (if s.start_ ≠ AV_NOPTS_VALUE then s.start_ else 0))
            TIME_BASE_Q s.format_tb_))
      ∧ (s.input_.format_.duration ≠ AV_NOPTS_VALUE → 0 ≤ s.input_.format_.duration →
          (s.start_ = AV_NOPTS_VALUE ∨ s.start_ = 0) →
          s.get_duration = some (av_rescale_q s.input_.format_.duration TIME_BASE_Q s.format_tb_))
      ∧ (s.input_.format_.duration = AV_NOPTS_VALUE → s.get_duration = none)
      ∧ (∀ (s1 : Impl) (d : Int), 0 < s1.format_tb_.num → 0 ≤ s1.format_tb_.den →
          s1.get_duration = some d → 0 ≤ d) := by
  have hgen : s.input_.format_.duration ≠ AV_NOPTS_VALUE →
      s.get_duration =
        if s.input_.format_.duration - (if s.start_ ≠ AV_NOPTS_VALUE then s.start_ else 0) < 0
        then none
        else some (av_rescale_q
          (s.input_.format_.duration - (if s.start_ ≠ AV_NOPTS_VALUE then s.start_ else 0))
          TIME_BASE_Q s.format_tb_) := by
    intro hD
    simp only [Impl.get_duration, h_unset, hD, ne_eq, not_false_eq_true, and_self, if_true]
    by_cases hneg :
        s.input_.format_.duration - (if ¬ s.start_ = AV_NOPTS_VALUE then s.start_ else 0) < 0
    · simp only [hneg, or_true, if_true]
    · have hne : s.input_.format_.duration - (if ¬ s.start_ = AV_NOPTS_VALUE then s.start_ else 0)
          ≠ AV_NOPTS_VALUE := by
        unfold AV_NOPTS_VALUE at *
        omega
      simp only [hneg, hne, or_self, if_false]
  refine ⟨hgen, ?_, ?_, ?_⟩
  · intro hD hD0 hstart
    rw [hgen hD]
    rcases hstart with h | h
    · simp only [h, ne_eq, not_true_eq_false, if_false, sub_zero]
      rw [if_neg (by omega)]
    · have hs : (if s.start_ ≠ AV_NOPTS_VALUE then s.start_ else 0) = 0 := by
        split
        · exact h
        · rfl
      rw [hs, sub_zero, if_neg (by omega)]
  · intro hD
    simp [Impl.get_duration, h_unset, hD]
  · intro s1 d h_num h_den h
    unfold Impl.get_duration at h
    simp only at h
    generalize (if s1.duration_ = AV_NOPTS_VALUE ∧ s1.input_.format_.duration ≠ AV_NOPTS_VALUE
      then s1.input_.format_.duration - (if s1.start_ ≠ AV_NOPTS_VALUE then s1.start_ else 0)
      else s1.duration_) = dur at h
    split at h
    · exact absurd h (by simp)
    · rename_i hcond
      simp only [Option.some.injEq] at h
      rw [← h]
      exact av_rescale_q_nonneg _ _ (by omega) h_num h_den

/-- Witness of C11 (amended): the 25p producer with start(25) reports 225 frames,
the one without a start 250. -/
theorem duration_unset_witness :
    example_started.get_duration = some 225 ∧ example_constructed.get_duration = some 250 :=
  ⟨(duration_unset example_started (by rfl)).1 (by decide),
   (duration_unset example_constructed (by rfl)).2.1 (by decide) (by decide) (Or.inl (by rfl))⟩

/-! ### width() and height() (C12) -/

/-- C12, the code at the failing input: the 25p producer constructed on a file
with a single video stream has a video sink of 1920 x 1080 and no audio sink;
width() is 1920 and height() is 0.  In every state height() is the h of the
audio sink, or 0 without an audio sink, whatever the video sink is. -/
theorem height_reads_audio_sink :
    Impl.ctor example_lib example_format_25p example_video_input "" "" none none false
        = Outcome.returned () example_video_only
      ∧ example_video_only.video_filter_.sink.map (fun sink => (sink.w, sink.h)) = some (1920, 1080)
      ∧ example_video_only.audio_filter_.sink = none
      ∧ example_video_only.width = 1920
      ∧ example_video_only.height = 0
      ∧ (∀ s : Impl, s.height = (s.audio_filter_.sink.map (fun sink => sink.h)).getD 0)
      ∧ (∀ s : Impl, s.width = (s.video_filter_.sink.map (fun sink => sink.w)).getD 0) := by
  refine ⟨by rfl, by rfl, by rfl, by rfl, by rfl, ?_, ?_⟩
  · intro s
    unfold Impl.height
    cases s.audio_filter_.sink <;> rfl
  · intro s
    unfold Impl.width
    cases s.video_filter_.sink <;> rfl

/-! ### prev_frame (C13) -/

/-- C13, counterexample: right after seek(0) the remembered frame is the late
sentinel; with one frame (pts 0, duration 40000) in the buffer, time() is 0
before prev_frame and 1 after it. -/
theorem prev_frame_counterexample :
    example_after_seek.frame_ = draw_frame.late
      ∧ example_after_seek.buffer_ = [example_frame 0 0 40000]
      ∧ example_after_seek.time = 0
      ∧ example_after_seek.prev_frame.2.time = 1 := by
  refine ⟨by rfl, by rfl, by rfl, by rfl⟩

/-- C13, amended: prev_frame never changes the output buffer.  When the
remembered frame is not the late sentinel, or the buffer is empty, it changes
nothing at all, so time() is the same before and after.  When the remembered
frame is the late sentinel and the buffer holds a frame f0 at its front, it
returns and remembers still(f0.frame) and sets frame_time_ to
f0.pts + f0.duration, which time() then reports. -/
theorem prev_frame_effect (s : Impl) :
    s.prev_frame.2.buffer_ = s.buffer_
      ∧ ((s.frame_ ≠ draw_frame.late ∨ s.buffer_ = []) →
          s.prev_frame.2 = s ∧ s.prev_frame.2.time = s.time)
      ∧ (s.frame_ ≠ draw_frame.late → s.prev_frame.1 = s.frame_)
      ∧ (∀ (f0 : Frame) (rest : List Frame), s.frame_ = draw_frame.late → s.buffer_ = f0 :: rest →
          s.prev_frame.1 = draw_frame.still f0.frame
            ∧ s.prev_frame.2.frame_ = draw_frame.still f0.frame
            ∧ s.prev_frame.2.frame_time_ = f0.pts + f0.duration
            ∧ s.prev_frame.2.time =
                (if f0.pts + f0.duration ≠ AV_NOPTS_VALUE
                 then av_rescale_q (f0.pts + f0.duration) TIME_BASE_Q s.format_tb_ else 0)) := by
  refine ⟨?_, ?_, ?_, ?_⟩
  · unfold Impl.prev_frame
    split
    · split <;> rfl
    · rfl
  · intro h
    have hs : s.prev_frame.2 = s := by
      unfold Impl.prev_frame
      rcases h with h | h
      · rw [if_neg h]
      · split
        · rw [h]
        · rfl
    rw [hs]
    exact ⟨rfl, rfl⟩
  · intro h
    unfold Impl.prev_frame
    rw [if_neg h]
  · intro f0 rest hlate hbuf
    simp only [Impl.prev_frame, hlate, hbuf, if_true, Impl.time]
    exact ⟨trivial, trivial, trivial, trivial⟩

/-- Witness of C13 (amended): the producer right after seek(0) with one buffered
frame, and the producer in the middle of playback. -/
theorem prev_frame_effect_witness :
    example_after_seek.prev_frame.2.frame_time_ = 40000
      ∧ example_state.prev_frame.2.time = example_state.time :=
  ⟨((prev_frame_effect example_after_seek).2.2.2 (example_frame 0 0 40000) [] (by rfl)
      (by rfl)).2.2.1,
   ((prev_frame_effect example_state).2.1 (Or.inl (by decide))).2⟩

/-! ### Stream::try_push (C14) -/

/-- C14, the code at the failing input: a decoder whose input queue holds exactly
input_capacity_ = 256 packets accepts a further non-null packet, and the queue
then holds 257.  In general try_push refuses exactly when the packet is
non-null and the queue holds more than input_capacity_ packets; a refusal
leaves the decoder unchanged, an acceptance appends the packet at the back,
and a null packet is always accepted. -/
theorem try_push_at_capacity :
    example_full_stream.input_capacity_ = 256
      ∧ example_full_stream.input_.length = 256
      ∧ (example_full_stream.try_push (some (example_packet 1))).1 = true
      ∧ (example_full_stream.try_push (some (example_packet 1))).2.input_.length = 257
      ∧ (∀ (st : Stream) (packet : Option AVPacket),
          ((st.try_push packet).1 = false ↔
            (packet.isSome = true ∧ to_size_t st.input_capacity_ < st.input_.length))
          ∧ ((st.try_push packet).1 = false → (st.try_push packet).2 = st)
          ∧ ((st.try_push packet).1 = true →
              (st.try_push packet).2 = { st with input_ := st.input_ ++ [packet] })
          ∧ (st.try_push none).1 = true) := by
  have hlen : example_full_stream.input_.length = 256 := List.length_replicate _ _
  have hnot : ¬ (to_size_t example_full_stream.input_capacity_ < example_full_stream.input_.length
      ∧ (some (example_packet 1)).isSome = true) := by
    rw [hlen]
    decide
  refine ⟨by rfl, hlen, ?_, ?_, ?_⟩
  · simp only [Stream.try_push, if_neg hnot]
  · have h2 : (example_full_stream.try_push (some (example_packet 1))).2
        = { example_full_stream with
            input_ := example_full_stream.input_ ++ [some (example_packet 1)] } := by
      simp only [Stream.try_push, if_neg hnot]
    rw [h2]
    simp only [List.length_append, hlen, List.length_singleton]
  intro st packet
  unfold Stream.try_push
  refine ⟨?_, ?_, ?_, ?_⟩
  · split
    · rename_i h
      simp [h.1, h.2]
    · rename_i h
      simp only [Bool.true_eq_false, false_iff]
      intro h2
      exact h ⟨h2.2, h2.1⟩
  · split
    · intro _; rfl
    · intro h; simp at h
  · split
    · intro h; simp at h
    · intro _; rfl
  · simp

/-! ### The output queue of a decoder (C15) -/

/-- C15, counterexample: a freshly opened decoder (output_capacity_ = 2) is given
one packet, and for it the codec returns three frames before EAGAIN; the output
queue then holds three frames.  The same with a null packet when the codec
still holds two frames: two frames and the end-of-stream marker. -/
theorem decoder_output_counterexample :
    example_stream.output_capacity_ = 2
      ∧ example_stream.output_ = []
      ∧ (example_stream.run
          [StreamOp.try_push (some (example_packet 0)), StreamOp.worker example_decode_three]).map
          (fun st => st.output_.length) = some 3
      ∧ (example_stream.run
          [StreamOp.try_push none, StreamOp.worker example_decode_flush]).map
          (fun st => st.output_.length) = some 3 := by
  refine ⟨by rfl, by rfl, by rfl, by rfl⟩

theorem receive_frames_length (rets : List ReceiveRet) : ∀ (st st1 : Stream),
    (Stream.receive_frames rets st).state? = some st1 →
      st1.output_.length = st.output_.length + pushed_frames rets
        ∧ st1.output_capacity_ = st.output_capacity_ := by
  induction rets with
  | nil => intro st st1 h; simp [Stream.receive_frames, WorkerOutcome.state?] at h
  | cons r rets ih =>
    intro st st1 h
    cases r with
    | EAGAIN =>
      simp only [Stream.receive_frames, WorkerOutcome.state?, Option.some.injEq] at h
      rw [← h]
      exact ⟨rfl, rfl⟩
    | EOF =>
      simp only [Stream.receive_frames] at h
      obtain ⟨h1, h2⟩ := ih _ _ h
      refine ⟨?_, h2⟩
      rw [h1]
      simp only [List.length_append, List.length_singleton, pushed_frames]
      omega
    | error =>
      simp only [Stream.receive_frames, WorkerOutcome.state?, Option.some.injEq] at h
      rw [← h]
      exact ⟨rfl, rfl⟩
    | frame f =>
      simp only [Stream.receive_frames] at h
      obtain ⟨h1, h2⟩ := ih _ _ h
      refine ⟨?_, h2⟩
      rw [h1]
      simp only [List.length_append, List.length_singleton, pushed_frames]
      omega

theorem worker_output (o : DecodeScript) (st st1 : Stream)
    (h : (st.worker o).state? = some st1) :
    st1.output_capacity_ = st.output_capacity_
      ∧ (st1.output_.length = st.output_.length
        ∨ (st.output_.length < to_size_t st.output_capacity_
            ∧ st1.output_.length = st.output_.length + pushed_frames o.avcodec_receive_frame)) := by
  unfold Stream.worker at h
  split at h
  · simp only [WorkerOutcome.state?, Option.some.injEq] at h
    rw [← h]
    exact ⟨rfl, Or.inl rfl⟩
  · split at h
    · rename_i hruns
      have hlt : st.output_.length < to_size_t st.output_capacity_ := by
        simp only [Stream.worker_runs, Bool.and_eq_true, decide_eq_true_eq] at hruns
        exact hruns.2
      split at h
      · simp only [WorkerOutcome.state?, Option.some.injEq] at h
        rw [← h]
        exact ⟨rfl, Or.inl rfl⟩
      · split at h
        · obtain ⟨h1, h2⟩ := receive_frames_length _ _ _ h
          exact ⟨h2, Or.inr ⟨hlt, h1⟩⟩
        · simp only [WorkerOutcome.state?, Option.some.injEq] at h
          rw [← h]
          exact ⟨rfl, Or.inl rfl⟩
    · simp only [WorkerOutcome.state?, Option.some.injEq] at h
      rw [← h]
      exact ⟨rfl, Or.inl rfl⟩

theorem stream_step_output (st st1 : Stream) (op : StreamOp) (h : st.step op = some st1) :
    st1.output_capacity_ = st.output_capacity_
      ∧ (st1.output_.length ≤ st.output_.length
        ∨ (st.output_.length < to_size_t st.output_capacity_
            ∧ st1.output_.length = st.output_.length + op.pushes)) := by
  cases op with
  | try_push packet =>
    simp only [Stream.step, Option.some.injEq] at h
    rw [← h]
    unfold Stream.try_push
    split
    · exact ⟨rfl, Or.inl (Nat.le_refl _)⟩
    · exact ⟨rfl, Or.inl (Nat.le_refl _)⟩
  | worker o =>
    simp only [Stream.step] at h
    obtain ⟨h1, h2⟩ := worker_output o st st1 h
    refine ⟨h1, ?_⟩
    rcases h2 with h2 | h2
    · exact Or.inl (Nat.le_of_eq h2)
    · exact Or.inr h2
  | drain k =>
    simp only [Stream.step, Option.some.injEq] at h
    rw [← h]
    refine ⟨rfl, Or.inl ?_⟩
    simp only [Stream.drain, List.length_drop]
    omega
  | flush =>
    simp only [Stream.step, Option.some.injEq] at h
    rw [← h]
    exact ⟨rfl, Or.inl (by simp [Stream.flush])⟩

theorem stream_run_bounded (ops : List StreamOp) : ∀ (st st1 : Stream),
    (∀ op ∈ ops, op.pushes ≤ 1) → st.output_.length ≤ to_size_t st.output_capacity_ →
    st.run ops = some st1 →
      st1.output_capacity_ = st.output_capacity_
        ∧ st1.output_.length ≤ to_size_t st1.output_capacity_ := by
  induction ops with
  | nil =>
    intro st st1 _ hb h
    simp only [Stream.run, Option.some.injEq] at h
    rw [← h]
    exact ⟨rfl, hb⟩
  | cons op ops ih =>
    intro st st1 hops hb h
    simp only [Stream.run] at h
    split at h
    · rename_i st2 hstep
      obtain ⟨hc, hlen⟩ := stream_step_output st st2 op hstep
      have hop : op.pushes ≤ 1 := hops op (List.mem_cons_self op ops)
      have hb2 : st2.output_.length ≤ to_size_t st2.output_capacity_ := by
        rw [hc]
        rcases hlen with hl | hl
        · omega
        · omega
      obtain ⟨h3, h4⟩ := ih st2 st1 (fun x hx => hops x (List.mem_cons_of_mem op hx)) hb2 h
      exact ⟨h3.trans hc, h4⟩
    · exact absurd h (by simp)

/-- C15, amended: an iteration of the decoder thread takes a packet only while the
output queue holds fewer than output_capacity_ frames, and then appends every
frame the codec returns for that packet, and a marker frame at end of stream;
so after it the queue holds the frames it held before plus those, at most
output_capacity_ - 1 plus their number.  try_push, drain and flush add no
frame.  Hence, when the codec returns at most one frame for every packet, the
queue holds at most output_capacity_ frames in every state reached from a
state that does. -/
theorem decoder_output_growth (st : Stream) (h_cap : st.output_capacity_ = 2) :
    (∀ (o : DecodeScript) (st1 : Stream), (st.worker o).state? = some st1 →
        st1.output_.length = st.output_.length
          ∨ (st.output_.length < 2
              ∧ st1.output_.length = st.output_.length + pushed_frames o.avcodec_receive_frame))
      ∧ (∀ packet : Option AVPacket, (st.try_push packet).2.output_ = st.output_)
      ∧ (∀ k : Nat, (st.drain k).output_ = st.output_.drop k)
      ∧ st.flush.output_ = []
      ∧ (∀ (ops : List StreamOp) (st1 : Stream), (∀ op ∈ ops, op.pushes ≤ 1) →
          st.output_.length ≤ 2 → st.run ops = some st1 → st1.output_.length ≤ 2) := by
  have h2 : to_size_t st.output_capacity_ = 2 := by rw [h_cap]; rfl
  refine ⟨?_, ?_, fun k => rfl, rfl, ?_⟩
  · intro o st1 h
    have hw := (worker_output o st st1 h).2
    rw [h2] at hw
    exact hw
  · intro packet
    unfold Stream.try_push
    split <;> rfl
  · intro ops st1 hops hb h
    obtain ⟨hc, hlen⟩ := stream_run_bounded ops st st1 hops (by rw [h2]; exact hb) h
    rw [hc, h2] at hlen
    exact hlen

/-- Witness of C15 (amended): the freshly opened decoder after a packet for which
the codec returns one frame, and after one for which it returns three. -/
theorem decoder_output_growth_witness :
    ((example_stream.run
        [StreamOp.try_push (some (example_packet 0)), StreamOp.worker example_decode_one]).getD
        example_stream).output_.length ≤ 2
      ∧ ((((example_stream.try_push (some (example_packet 0))).2.worker
            example_decode_three).state?.getD example_stream).output_.length = 0 + 3) :=
  ⟨(decoder_output_growth example_stream (by rfl)).2.2.2.2
      [StreamOp.try_push (some (example_packet 0)), StreamOp.worker example_decode_one]
      ((example_stream.run
        [StreamOp.try_push (some (example_packet 0)), StreamOp.worker example_decode_one]).getD
        example_stream) (by decide) (by decide) (by rfl),
   (((decoder_output_growth (example_stream.try_push (some (example_packet 0))).2 (by rfl)).1
      example_decode_three
      (((example_stream.try_push (some (example_packet 0))).2.worker
        example_decode_three).state?.getD example_stream) (by rfl)).resolve_left (by decide)).2⟩

/-! ### The read step of the demuxer thread and resume (C16) -/

/-- C16: a read step of the demuxer thread that hits end of file appends exactly
one null packet to the output queue and sets paused_ and eof_; a read step
that returns a packet appends that packet, and eof_ is false after it; no
other packet is added or removed and the decoders are not touched.  An
iteration of the thread that gets past its wait is such a read step.  resume()
clears paused_ and eof_ and leaves the output queue unchanged. -/
theorem demuxer_read_step (input : Input) :
    (∃ input1 : Input, Input.read_frame ReadRet.EOF input = WorkerOutcome.done input1
        ∧ input1.output_ = input.output_ ++ [none]
        ∧ input1.paused_ = true ∧ input1.eof_ = true
        ∧ input1.streams_ = input.streams_)
      ∧ (∀ p : AVPacket, ∃ input1 : Input,
          Input.read_frame (ReadRet.packet p) input = WorkerOutcome.done input1
            ∧ input1.output_ = input.output_ ++ [some p]
            ∧ input1.eof_ = false
            ∧ input1.streams_ = input.streams_)
      ∧ (∀ ret : ReadRet, input.worker_runs = true → input.worker ret = Input.read_frame ret input)
      ∧ (input.resume.paused_ = false ∧ input.resume.eof_ = false
          ∧ input.resume.output_ = input.output_) := by
  refine ⟨⟨_, rfl, rfl, rfl, rfl, rfl⟩, fun p => ⟨_, rfl, rfl, rfl, rfl⟩, ?_, rfl, rfl, rfl⟩
  intro ret hruns
  have hab : input.abort_request_ = false := by
    simp only [Input.worker_runs, Bool.and_eq_true, Bool.not_eq_true'] at hruns
    exact hruns.1.1
  simp only [Input.worker, hab, hruns, if_true, Bool.false_eq_true, if_false]

/-- Witness of C16: the freshly opened demuxer reads a packet, then hits end of
file: the queue holds the packet and one null packet, paused and at eof. -/
theorem demuxer_read_step_witness :
    ((example_open_input.run
        [InputOp.worker (ReadRet.packet (example_packet 3)), InputOp.worker ReadRet.EOF]).output_
        = [some (example_packet 3), none])
      ∧ (example_open_input.run
        [InputOp.worker (ReadRet.packet (example_packet 3)), InputOp.worker ReadRet.EOF]).eof_ = true
      ∧ example_open_input.worker ReadRet.EOF = Input.read_frame ReadRet.EOF example_open_input :=
  ⟨by rfl, by rfl, (demuxer_read_step example_open_input).2.2.1 ReadRet.EOF (by rfl)⟩

/-! ### Input::seek with and without flush, and the loop step at end of file (C17) -/

/-- C17: Input::seek returns exactly when avformat_seek_file succeeds.  With flush
= true the demuxer output queue and both queues of every decoder are empty
afterwards.  With flush = false the output queue, the decoders and the paused_
and eof_ flags are unchanged.  An orchestrator iteration that gets past its
wait with loop on and the demuxer at eof seeks without flush: when the seek
succeeds it returns with the output buffer, the demuxer queue and the decoders
unchanged and paused_ and eof_ cleared; when the seek fails it throws with
all of these unchanged. -/
theorem seek_flush_or_not (lib : Lib) (input : Input) (ts : Int) :
    (∀ flush : Bool, (input.seek lib ts flush).isSome = lib.avformat_seek_file ts)
      ∧ (∀ input1 : Input, input.seek lib ts true = some input1 →
          input1.output_ = []
            ∧ (∀ p ∈ input1.streams_, p.2.input_ = [] ∧ p.2.output_ = [])
            ∧ input1.streams_.map (fun p => p.1) = input.streams_.map (fun p => p.1))
      ∧ (∀ input1 : Input, input.seek lib ts false = some input1 →
          input1.output_ = input.output_ ∧ input1.streams_ = input.streams_
            ∧ input1.paused_ = input.paused_ ∧ input1.eof_ = input.eof_)
      ∧ (∀ (o : TickScript) (s : Impl), s.tick_runs = true → s.loop_ = true →
          s.input_.eof_ = true →
          (o.lib.avformat_seek_file
              ((if s.start_ ≠ AV_NOPTS_VALUE then s.start_ else 0) + s.input_.start_time) = true →
            ∃ s1 : Impl, s.tick o = Outcome.returned () s1
              ∧ s1.buffer_ = s.buffer_
              ∧ s1.input_.output_ = s.input_.output_
              ∧ s1.input_.streams_ = s.input_.streams_
              ∧ s1.input_.paused_ = false ∧ s1.input_.eof_ = false
              ∧ s1.input_.format_.seek_requests = s.input_.format_.seek_requests ++
                  [(if s.start_ ≠ AV_NOPTS_VALUE then s.start_ else 0) + s.input_.start_time])
          ∧ (o.lib.avformat_seek_file
              ((if s.start_ ≠ AV_NOPTS_VALUE then s.start_ else 0) + s.input_.start_time) = false →
            ∃ s1 : Impl, s.tick o = Outcome.threw s1
              ∧ s1.buffer_ = s.buffer_ ∧ s1.input_ = s.input_)) := by
  refine ⟨?_, ?_, ?_, ?_⟩
  · intro flush
    unfold Input.seek
    cases lib.avformat_seek_file ts <;> cases flush <;> rfl
  · intro input1 h
    obtain ⟨h1, h2, _, _⟩ := Input.seek_flush lib input input1 ts h
    refine ⟨h1, h2, ?_⟩
    unfold Input.seek at h
    split at h
    · simp only [if_true, Option.some.injEq] at h
      rw [← h]
      simp only [List.map_map]
      rfl
    · exact absurd h (by simp)
  · intro input1 h
    unfold Input.seek at h
    split at h
    · simp only [Bool.false_eq_true, if_false, Option.some.injEq] at h
      rw [← h]
      exact ⟨rfl, rfl, rfl, rfl⟩
    · exact absurd h (by simp)
  · intro o s hruns hloop heof
    have hcond : s.rotate_cadence.loop_ = true ∧ s.rotate_cadence.input_.eof = true :=
      ⟨hloop, heof⟩
    constructor
    · intro hseek
      simp only [Impl.tick, hruns, if_true, hcond, and_self]
      simp only [Impl.rotate_cadence, Input.seek, hseek, if_true, Bool.false_eq_true, if_false]
      exact ⟨_, rfl, rfl, rfl, rfl, rfl, rfl, rfl⟩
    · intro hseek
      simp only [Impl.tick, hruns, if_true, hcond, and_self]
      simp only [Impl.rotate_cadence, Input.seek, hseek, Bool.false_eq_true, if_false]
      exact ⟨_, rfl, rfl, rfl⟩

/-- Witness of C17: the producer with loop on and the demuxer at eof, with two
packets queued and two frames buffered, runs one orchestrator iteration. -/
theorem seek_flush_or_not_witness :
    ∃ s1 : Impl, example_looping.tick (example_tick 0) = Outcome.returned () s1
      ∧ s1.buffer_ = example_looping.buffer_
      ∧ s1.input_.output_ = example_looping.input_.output_
      ∧ s1.input_.streams_ = example_looping.input_.streams_
      ∧ s1.input_.paused_ = false ∧ s1.input_.eof_ = false
      ∧ s1.input_.format_.seek_requests = example_looping.input_.format_.seek_requests ++
          [(if example_looping.start_ ≠ AV_NOPTS_VALUE then example_looping.start_ else 0)
            + example_looping.input_.start_time] :=
  ((seek_flush_or_not example_lib example_input 0).2.2.2 (example_tick 0) example_looping
    (by rfl) (by rfl) (by rfl)).1 (by rfl)

/-! ### schedule_inputs (C18) -/

theorem map_find_none_ne {β : Type} (m : List (Int × β)) (k : Int) (h : map_find m k = none) :
    ∀ p ∈ m, p.1 ≠ k := by
  induction m with
  | nil => intro p hp; simp at hp
  | cons q m ih =>
    obtain ⟨k1, v⟩ := q
    simp only [map_find] at h
    split at h
    · exact absurd h (by simp)
    · rename_i hne
      intro p hp
      rcases List.mem_cons.mp hp with hp | hp
      · rw [hp]; exact hne
      · exact ih h p hp

theorem map_find_some_unique {β : Type} (m : List (Int × β)) (k : Int) (v : β)
    (hnd : (m.map (fun p => p.1)).Nodup) (h : map_find m k = some v) :
    ∀ p ∈ m, p.1 = k → p.2 = v := by
  induction m with
  | nil => intro p hp; simp at hp
  | cons q m ih =>
    obtain ⟨k1, v1⟩ := q
    simp only [List.map_cons, List.nodup_cons] at hnd
    simp only [map_find] at h
    intro p hp hk
    split at h
    · rename_i hk1
      simp only [Option.some.injEq] at h
      rcases List.mem_cons.mp hp with hp | hp
      · rw [hp]; exact h
      · exfalso
        apply hnd.1
        rw [hk1, ← hk]
        exact List.mem_map.mpr ⟨p, hp, rfl⟩
    · rename_i hk1
      rcases List.mem_cons.mp hp with hp | hp
      · rw [hp] at hk
        exact absurd hk hk1
      · exact ih hnd.2 h p hp hk

theorem deliver_keys (sources_ : List (Int × List AVFilterContext))
    (consumed : List (Option AVPacket)) (streams : List (Int × Stream)) :
    (deliver sources_ consumed streams).map (fun p => p.1) = streams.map (fun p => p.1) := by
  simp only [deliver, List.map_map]
  rfl

theorem map_set_keys {β : Type} (m : List (Int × β)) (k : Int) (v : β) :
    (map_set m k v).map (fun p => p.1) = m.map (fun p => p.1) := by
  simp only [map_set, List.map_map]
  apply List.map_congr_left
  intro p _
  simp only [Function.comp_apply]
  split <;> rfl

theorem schedule_inputs_drain_spec (sources_ : List (Int × List AVFilterContext))
    (queue : List (Option AVPacket)) : ∀ (streams : List (Int × Stream)) (result : Bool),
    (streams.map (fun p => p.1)).Nodup →
    ∃ consumed : List (Option AVPacket),
      queue = consumed ++ (schedule_inputs_drain sources_ queue streams result).1
        ∧ (schedule_inputs_drain sources_ queue streams result).2.1
            = deliver sources_ consumed streams
        ∧ (schedule_inputs_drain sources_ queue streams result).2.2
            = (result || !consumed.isEmpty)
        ∧ (∀ (front : Option AVPacket) (rest : List (Option AVPacket)),
            (schedule_inputs_drain sources_ queue streams result).1 = front :: rest →
            ∃ (packet : AVPacket) (st : Stream), front = some packet
              ∧ map_contains sources_ packet.stream_index = true
              ∧ map_find (schedule_inputs_drain sources_ queue streams result).2.1
                  packet.stream_index = some st
              ∧ (st.try_push (some packet)).1 = false) := by
  induction queue with
  | nil =>
    intro streams result _
    refine ⟨[], rfl, ?_, by simp [schedule_inputs_drain], ?_⟩
    · simp only [schedule_inputs_drain, deliver, List.filter_nil, List.append_nil]
      exact (List.map_id' streams).symm
    · intro front rest h
      simp [schedule_inputs_drain] at h
  | cons pkt queue ih =>
    intro streams result hnd
    cases pkt with
    | none =>
      have hkeys : ((streams.map (fun p => (p.1, (p.2.try_push none).2))).map (fun p => p.1)).Nodup := by
        simp only [List.map_map]
        exact hnd
      obtain ⟨c, hq, hs, hr, hf⟩ := ih (streams.map (fun p => (p.1, (p.2.try_push none).2))) true hkeys
      refine ⟨none :: c, ?_, ?_, ?_, ?_⟩
      · simp only [schedule_inputs_drain, List.cons_append]
        rw [← hq]
      · simp only [schedule_inputs_drain]
        rw [hs]
        simp only [deliver, List.map_map]
        apply List.map_congr_left
        intro p _
        simp [Stream.try_push, delivered_to]
      · simp only [schedule_inputs_drain]
        rw [hr]
        simp
      · intro front rest h
        simp only [schedule_inputs_drain] at h ⊢
        exact hf front rest h
    | some packet =>
      by_cases hc : map_contains sources_ packet.stream_index = true
      · cases hfind : map_find streams packet.stream_index with
        | none =>
          obtain ⟨c, hq, hs, hr, hf⟩ := ih streams true hnd
          have hne := map_find_none_ne streams packet.stream_index hfind
          refine ⟨some packet :: c, ?_, ?_, ?_, ?_⟩
          · simp only [schedule_inputs_drain, hc, if_true, hfind, List.cons_append]
            rw [← hq]
          · simp only [schedule_inputs_drain, hc, if_true, hfind]
            rw [hs]
            simp only [deliver]
            apply List.map_congr_left
            intro p hp
            have : packet.stream_index ≠ p.1 := fun h => hne p hp h.symm
            simp [delivered_to, this]
          · simp only [schedule_inputs_drain, hc, if_true, hfind]
            rw [hr]
            simp
          · intro front rest h
            simp only [schedule_inputs_drain, hc, if_true, hfind] at h ⊢
            exact hf front rest h
        | some st =>
          have huniq := map_find_some_unique streams packet.stream_index st hnd hfind
          by_cases hpush : (st.try_push (some packet)).1 = true
          · have hkeys : ((map_set streams packet.stream_index
                (st.try_push (some packet)).2).map (fun p => p.1)).Nodup := by
              rw [map_set_keys]
              exact hnd
            obtain ⟨c, hq, hs, hr, hf⟩ := ih (map_set streams packet.stream_index
              (st.try_push (some packet)).2) true hkeys
            have hst : (st.try_push (some packet)).2
                = { st with input_ := st.input_ ++ [some packet] } := by
              unfold Stream.try_push at hpush ⊢
              split
              · rename_i hcond
                rw [if_pos hcond] at hpush
                exact absurd hpush (by simp)
              · rfl
            refine ⟨some packet :: c, ?_, ?_, ?_, ?_⟩
            · simp only [schedule_inputs_drain, hc, if_true, hfind, hpush, List.cons_append]
              rw [← hq]
            · simp only [schedule_inputs_drain, hc, if_true, hfind, hpush]
              rw [hs]
              simp only [deliver, map_set, List.map_map]
              apply List.map_congr_left
              intro p hp
              simp only [Function.comp_apply]
              by_cases hk : p.1 = packet.stream_index
              · have hp2 : p.2 = st := huniq p hp hk
                have hd : delivered_to sources_ p.1 (some packet) = true := by
                  simp [delivered_to, hk, hc]
                simp only [hk, if_true, hst]
                rw [← hk, hp2, List.filter_cons_of_pos hd]
                simp
              · have : packet.stream_index ≠ p.1 := fun h => hk h.symm
                simp [hk, delivered_to, this]
            · simp only [schedule_inputs_drain, hc, if_true, hfind, hpush]
              rw [hr]
              simp
            · intro front rest h
              simp only [schedule_inputs_drain, hc, if_true, hfind, hpush] at h ⊢
              exact hf front rest h
          · have hpush2 : (st.try_push (some packet)).1 = false := by
              cases h : (st.try_push (some packet)).1
              · rfl
              · exact absurd h hpush
            refine ⟨[], ?_, ?_, ?_, ?_⟩
            · simp only [schedule_inputs_drain, hc, if_true, hfind, hpush2, Bool.false_eq_true,
                if_false, List.nil_append]
            · simp only [schedule_inputs_drain, hc, if_true, hfind, hpush2, Bool.false_eq_true,
                if_false, deliver, List.filter_nil, List.append_nil]
              exact (List.map_id' streams).symm
            · simp [schedule_inputs_drain, hc, hfind, hpush2]
            · intro front rest h
              simp only [schedule_inputs_drain, hc, if_true, hfind, hpush2, Bool.false_eq_true,
                if_false, List.cons.injEq] at h ⊢
              exact ⟨packet, st, h.1.symm, hc, hfind, hpush2⟩
      · obtain ⟨c, hq, hs, hr, hf⟩ := ih streams true hnd
        refine ⟨some packet :: c, ?_, ?_, ?_, ?_⟩
        · simp only [schedule_inputs_drain, hc, Bool.false_eq_true, if_false, List.cons_append]
          rw [← hq]
        · simp only [schedule_inputs_drain, hc, Bool.false_eq_true, if_false]
          rw [hs]
          simp only [deliver]
          apply List.map_congr_left
          intro p _
          by_cases hk : packet.stream_index = p.1
          · rw [hk] at hc
            simp [delivered_to, hc]
          · simp [delivered_to, hk]
        · simp only [schedule_inputs_drain, hc, Bool.false_eq_true, if_false]
          rw [hr]
          simp
        · intro front rest h
          simp only [schedule_inputs_drain, hc, Bool.false_eq_true, if_false] at h ⊢
          exact hf front rest h

theorem map_find_of_mem {β : Type} (m : List (Int × β)) (k : Int) (v : β)
    (hnd : (m.map (fun p => p.1)).Nodup) (h : (k, v) ∈ m) : map_find m k = some v := by
  cases hf : map_find m k with
  | none => exact absurd rfl (map_find_none_ne m k hf (k, v) h)
  | some w =>
    have := map_find_some_unique m k w hnd hf (k, v) h rfl
    simp only at this
    rw [this]

theorem map_find_deliver (sources_ : List (Int × List AVFilterContext))
    (consumed : List (Option AVPacket)) (streams : List (Int × Stream)) (k : Int) :
    map_find (deliver sources_ consumed streams) k
      = (map_find streams k).map (fun st =>
          { st with input_ := st.input_ ++ consumed.filter (delivered_to sources_ k) }) := by
  induction streams with
  | nil => rfl
  | cons q m ih =>
    obtain ⟨k1, v⟩ := q
    simp only [deliver, List.map_cons, map_find]
    by_cases hk : k1 = k
    · simp only [hk, if_true, Option.map_some']
    · simp only [hk, if_false]
      exact ih

/-- C18: one schedule_inputs call, on a producer whose decoders have distinct
stream indices, consumes a prefix of the demuxer queue and leaves the rest at
the demuxer queue; every decoder i keeps its fields and gets appended to its
input queue, in demuxer-queue order, exactly the consumed null packets plus,
only when i is a key of sources_, the consumed packets whose stream_index is i;
the call returns whether anything was consumed; nothing else of the producer
changes; and when packets remain, the front one is the packet of a bound stream
that its decoder refused, so nothing from it on was consumed. -/
theorem schedule_inputs_dispatch (s : Impl)
    (h_keys : (s.input_.streams_.map (fun p => p.1)).Nodup) :
    ∃ consumed : List (Option AVPacket),
      s.input_.output_ = consumed ++ (s.schedule_inputs).2.input_.output_
        ∧ (s.schedule_inputs).2.input_.streams_ = deliver s.sources_ consumed s.input_.streams_
        ∧ (∀ (i : Int) (st : Stream), (i, st) ∈ s.input_.streams_ →
            map_find (s.schedule_inputs).2.input_.streams_ i
              = some { st with
                  input_ := st.input_ ++ consumed.filter (fun p =>
                    match p with
                    | none => true
                    | some packet =>
                      map_contains s.sources_ i && decide (packet.stream_index = i)) })
        ∧ (s.schedule_inputs).1 = !consumed.isEmpty
        ∧ (s.schedule_inputs).2
            = { s with input_ := { s.input_ with
                  output_ := (s.schedule_inputs).2.input_.output_,
                  streams_ := (s.schedule_inputs).2.input_.streams_ } }
        ∧ (∀ (front : Option AVPacket) (rest : List (Option AVPacket)),
            (s.schedule_inputs).2.input_.output_ = front :: rest →
            ∃ (packet : AVPacket) (st : Stream), front = some packet
              ∧ map_contains s.sources_ packet.stream_index = true
              ∧ map_find (s.schedule_inputs).2.input_.streams_ packet.stream_index = some st
              ∧ to_size_t st.input_capacity_ < st.input_.length
              ∧ (st.try_push (some packet)).1 = false) := by
  obtain ⟨c, hq, hs, hr, hf⟩ :=
    schedule_inputs_drain_spec s.sources_ s.input_.output_ s.input_.streams_ false h_keys
  refine ⟨c, hq, hs, ?_, ?_, rfl, ?_⟩
  · intro i st hmem
    have h1 : (s.schedule_inputs).2.input_.streams_ = deliver s.sources_ c s.input_.streams_ := hs
    rw [h1, map_find_deliver, map_find_of_mem s.input_.streams_ i st h_keys hmem]
    simp only [Option.map_some', Option.some.injEq]
    have hfun : (fun p : Option AVPacket =>
        match p with
        | none => true
        | some packet => map_contains s.sources_ i && decide (packet.stream_index = i))
        = delivered_to s.sources_ i := by
      funext p
      cases p <;> rfl
    rw [hfun]
  · have h1 : (s.schedule_inputs).1
        = (schedule_inputs_drain s.sources_ s.input_.output_ s.input_.streams_ false).2.2 := rfl
    rw [h1, hr]
    simp
  · intro front rest h
    obtain ⟨packet, st, h1, h2, h3, h4⟩ := hf front rest h
    refine ⟨packet, st, h1, h2, h3, ?_, h4⟩
    unfold Stream.try_push at h4
    split at h4
    · rename_i hcond
      exact hcond.1
    · exact absurd h4 (by simp)

theorem schedule_inputs_dispatch_witness :
    (example_scheduling.input_.streams_.map (fun p => p.1)).Nodup
      ∧ (example_scheduling.schedule_inputs).2.input_.output_ = []
      ∧ (example_scheduling.schedule_inputs).2.input_.streams_.map (fun p => (p.1, p.2.input_))
          = [(0, [some { stream_index := 0 }, some { stream_index := 0, payload := 1 }, none]),
             (1, [some { stream_index := 1 }, none, some { stream_index := 1, payload := 2 }])]
      ∧ ∃ consumed : List (Option AVPacket),
      example_scheduling.input_.output_
          = consumed ++ (example_scheduling.schedule_inputs).2.input_.output_
        ∧ (example_scheduling.schedule_inputs).2.input_.streams_
            = deliver example_scheduling.sources_ consumed example_scheduling.input_.streams_
        ∧ (∀ (i : Int) (st : Stream), (i, st) ∈ example_scheduling.input_.streams_ →
            map_find (example_scheduling.schedule_inputs).2.input_.streams_ i
              = some { st with
                  input_ := st.input_ ++ consumed.filter (fun p =>
                    match p with
                    | none => true
                    | some packet =>
                      map_contains example_scheduling.sources_ i
                        && decide (packet.stream_index = i)) })
        ∧ (example_scheduling.schedule_inputs).1 = !consumed.isEmpty
        ∧ (example_scheduling.schedule_inputs).2
            = { example_scheduling with input_ := { example_scheduling.input_ with
                  output_ := (example_scheduling.schedule_inputs).2.input_.output_,
                  streams_ := (example_scheduling.schedule_inputs).2.input_.streams_ } }
        ∧ (∀ (front : Option AVPacket) (rest : List (Option AVPacket)),
            (example_scheduling.schedule_inputs).2.input_.output_ = front :: rest →
            ∃ (packet : AVPacket) (st : Stream), front = some packet
              ∧ map_contains example_scheduling.sources_ packet.stream_index = true
              ∧ map_find (example_scheduling.schedule_inputs).2.input_.streams_
                  packet.stream_index = some st
              ∧ to_size_t st.input_capacity_ < st.input_.length
              ∧ (st.try_push (some packet)).1 = false) :=
  ⟨by decide, by decide, by decide, schedule_inputs_dispatch example_scheduling (by decide)⟩

/-! ### pause followed by resume (C19) -/

theorem input_step_eof_paused (input : Input) (op : InputOp)
    (h : input.eof_ = true → input.paused_ = true) :
    (input.step op).eof_ = true → (input.step op).paused_ = true := by
  cases op with
  | worker ret =>
    simp only [Input.step, Input.worker]
    split
    · exact h
    · split
      · cases ret <;> simp [Input.read_frame, WorkerOutcome.state?, h]
        all_goals exact h
      · exact h
  | pause => intro _; rfl
  | resume => intro he; simp [Input.step, Input.resume] at he
  | seek lib ts flush =>
    simp only [Input.step, Input.seek]
    split
    · split
      · exact h
      · exact h
    · exact h
  | drain k => exact h
  | decoders streams => exact h

theorem input_run_eof_paused (ops : List InputOp) : ∀ input : Input,
    (input.eof_ = true → input.paused_ = true) →
      (input.run ops).eof_ = true → (input.run ops).paused_ = true := by
  induction ops with
  | nil => intro input h; exact h
  | cons op ops ih =>
    intro input h
    exact ih (input.step op) (input_step_eof_paused input op h)

/-- C19: in every state the demuxer reaches from an opened one (eof_ false) through
iterations of its thread, pause, resume, seeks, drains and work on its
decoders, if it is not paused then pause() followed by resume() gives back the
very same state: paused_ and eof_ have their previous values (both false) and
the output queue and every decoder queue are unchanged, so the next iteration
of the demuxer thread does what it would have done without the pause. -/
theorem pause_resume_identity (input0 : Input) (ops : List InputOp)
    (h_open : input0.eof_ = false) (h_running : (input0.run ops).paused_ = false) :
    (input0.run ops).pause.resume = input0.run ops
      ∧ (input0.run ops).pause.resume.paused_ = (input0.run ops).paused_
      ∧ (input0.run ops).pause.resume.eof_ = (input0.run ops).eof_
      ∧ (input0.run ops).pause.resume.output_ = (input0.run ops).output_
      ∧ (input0.run ops).pause.resume.streams_ = (input0.run ops).streams_
      ∧ (∀ ret : ReadRet,
          (input0.run ops).pause.resume.worker ret = (input0.run ops).worker ret) := by
  have hinv := input_run_eof_paused ops input0 (by simp [h_open])
  have heof : (input0.run ops).eof_ = false := by
    cases he : (input0.run ops).eof_ with
    | false => rfl
    | true =>
      have := hinv he
      rw [h_running] at this
      exact absurd this (by simp)
  have hid : (input0.run ops).pause.resume = input0.run ops := by
    generalize input0.run ops = input at *
    cases input
    simp only [Input.pause, Input.resume] at *
    simp [h_running, heof]
  rw [hid]
  exact ⟨rfl, rfl, rfl, rfl, rfl, fun _ => rfl⟩

/-- Witness of C19: the freshly opened demuxer after reading a packet. -/
theorem pause_resume_identity_witness :
    (example_open_input.run [InputOp.worker (ReadRet.packet (example_packet 3))]).pause.resume
      = example_open_input.run [InputOp.worker (ReadRet.packet (example_packet 3))] :=
  (pause_resume_identity example_open_input [InputOp.worker (ReadRet.packet (example_packet 3))]
    (by rfl) (by rfl)).1

/-! ### The empty filter spec (C20) -/

/-- The graph of a constructed filter that has one is parsed from the final spec. -/
theorem Filter.ctor_graph (lib : Lib) (filter_spec : String) (input : Input) (start_time : Int)
    (media_type : AVMediaType) (format_desc : video_format_desc) (f : Filter) (g : String)
    (h : Filter.ctor lib filter_spec input start_time media_type format_desc = some f)
    (hg : f.graph = some g) :
    Filter.final_spec lib filter_spec input start_time media_type format_desc = some g := by
  unfold Filter.ctor at h
  unfold Filter.final_spec
  simp only at h
  split at h
  · exact absurd h (by simp)
  · rename_i inputs2 outputs2 hparse
    split at h
    · exact absurd h (by simp)
    · split at h
      · exact absurd h (by simp)
      · simp only [Option.some.injEq] at h
        rw [← h] at hg
        exact absurd hg (by simp)
      · split at h
        · exact absurd h (by simp)
        · simp only [Option.some.injEq] at h
          rw [← h] at hg
          simp only [Option.some.injEq] at hg
          rw [hg]

/-- C20: for every library, stream inventory, start time and target format, the
spec with default and tail, the final spec and the whole constructed filter
are the same for the empty user spec as for "null" in a video graph and as for
"anull" in an audio graph; and the final spec is the one a constructed graph
is parsed from. -/
theorem empty_spec_default (lib : Lib) (input : Input) (start_time : Int)
    (format_desc : video_format_desc) :
    Filter.final_spec lib "" input start_time AVMediaType.VIDEO format_desc
        = Filter.final_spec lib "null" input start_time AVMediaType.VIDEO format_desc
      ∧ Filter.final_spec lib "" input start_time AVMediaType.AUDIO format_desc
        = Filter.final_spec lib "anull" input start_time AVMediaType.AUDIO format_desc
      ∧ Filter.ctor lib "" input start_time AVMediaType.VIDEO format_desc
        = Filter.ctor lib "null" input start_time AVMediaType.VIDEO format_desc
      ∧ Filter.ctor lib "" input start_time AVMediaType.AUDIO format_desc
        = Filter.ctor lib "anull" input start_time AVMediaType.AUDIO format_desc
      ∧ (∀ (filter_spec : String) (media_type : AVMediaType) (f : Filter) (g : String),
          Filter.ctor lib filter_spec input start_time media_type format_desc = some f →
          f.graph = some g →
          Filter.final_spec lib filter_spec input start_time media_type format_desc = some g) := by
  have he : ("" : String).isEmpty = true := by decide
  have hn : ("null" : String).isEmpty = false := by decide
  have ha : ("anull" : String).isEmpty = false := by decide
  have hv : Filter.spec_with_tail lib "" start_time AVMediaType.VIDEO format_desc
      = Filter.spec_with_tail lib "null" start_time AVMediaType.VIDEO format_desc := by
    simp only [Filter.spec_with_tail, he, hn, if_true, Bool.false_eq_true, if_false]
  have hau : Filter.spec_with_tail lib "" start_time AVMediaType.AUDIO format_desc
      = Filter.spec_with_tail lib "anull" start_time AVMediaType.AUDIO format_desc := by
    simp [Filter.spec_with_tail, he, ha]
  refine ⟨?_, ?_, ?_, ?_, ?_⟩
  · simp only [Filter.final_spec, hv]
  · simp only [Filter.final_spec, hau]
  · simp only [Filter.ctor, hv]
  · simp only [Filter.ctor, hau]
  · intro filter_spec media_type f g h hg
    exact Filter.ctor_graph lib filter_spec input start_time media_type format_desc f g h hg

/-- Witness of C20: on the example file the final video spec of the empty user
spec is the default with its tail. -/
theorem empty_spec_default_witness :
    Filter.final_spec example_lib "" example_input 0 AVMediaType.VIDEO example_format_25p
      = some "null,bwdif=mode=send_field:parity=auto:deint=all,fps=fps=25/1:start_time=0"
      ∧ Filter.final_spec example_lib "null" example_input 0 AVMediaType.VIDEO example_format_25p
      = some "null,bwdif=mode=send_field:parity=auto:deint=all,fps=fps=25/1:start_time=0" :=
  ⟨by rfl, (empty_spec_default example_lib example_input 0 example_format_25p).1 ▸ (by rfl)⟩

/-! ### The merge prefix of the filter spec (C21) -/

/-- C21, counterexample: on a file with two video and two audio streams, a video
graph whose spec has one dangling video input and one dangling audio input
gets amerge=inputs=2 in front; with a single audio stream in the file (stream
3 removed) it gets nothing in front, although it has exactly one video input
and the file has two video streams. -/
theorem merge_rules_counterexample :
    example_mixed_lib.avfilter_graph_parse2
        (Filter.spec_with_tail example_mixed_lib "overlay" 0 AVMediaType.VIDEO example_format_25p)
        = some ([AVMediaType.VIDEO, AVMediaType.AUDIO], [AVMediaType.VIDEO])
      ∧ example_four_streams.count_streams AVMediaType.VIDEO = 2
      ∧ (Filter.final_spec example_mixed_lib "overlay" example_four_streams 0 AVMediaType.VIDEO
          example_format_25p).map (fun spec => spec.data.take 16)
          = some "amerge=inputs=2,".data
      ∧ ({ example_four_streams with streams_ := example_four_streams.streams_.take 3 } :
          Input).count_streams AVMediaType.VIDEO = 2
      ∧ Filter.final_spec example_mixed_lib "overlay"
          { example_four_streams with streams_ := example_four_streams.streams_.take 3 } 0
          AVMediaType.VIDEO example_format_25p
          = some (Filter.spec_with_tail example_mixed_lib "overlay" 0 AVMediaType.VIDEO
              example_format_25p)
      ∧ (Filter.spec_with_tail example_mixed_lib "overlay" 0 AVMediaType.VIDEO
          example_format_25p).data.take 8 = "overlay,".data := by
  refine ⟨by rfl, by rfl, by rfl, by rfl, by rfl, by rfl⟩

theorem string_append_ne_self (p spec : String) (hp : p ≠ "") : p ++ spec ≠ spec := by
  intro h
  have hl := congrArg String.length h
  rw [String.length_append] at hl
  have hz : p.length = 0 := by omega
  apply hp
  apply String.ext
  have : p.data.length = 0 := hz
  exact List.length_eq_zero.mp this

theorem amerge_ne_alphamerge (n : Nat) (spec spec1 : String) :
    "amerge=inputs=" ++ toString n ++ "," ++ spec ≠ "alphamerge," ++ spec1 := by
  intro h
  have hd := congrArg String.data h
  simp only [String.data_append, List.cons_append, List.cons.injEq] at hd
  exact absurd hd.2.1 (by decide)

/-- C21, amended: the two merge rules are the branches of one if-else.  With v and
a the numbers of video and audio inputs of the pre-parsed spec, and Nv and Na
the numbers of video and audio streams of the file, the final spec is
amerge=inputs=Na, plus the spec when a = 1 and Na >= 2; alphamerge, plus the
spec when a is not 1, v = 1 and Nv >= 2; and the spec itself otherwise.  So
amerge is put in front exactly when a = 1 and Na >= 2, and alphamerge exactly
when a is not 1, v = 1 and Nv >= 2.  A graph that is constructed is parsed
from this final spec. -/
theorem merge_rules (lib : Lib) (filter_spec : String) (input : Input) (start_time : Int)
    (media_type : AVMediaType) (format_desc : video_format_desc)
    (inputs2 outputs2 : List AVMediaType)
    (h_parse : lib.avfilter_graph_parse2
        (Filter.spec_with_tail lib filter_spec start_time media_type format_desc)
        = some (inputs2, outputs2)) :
    Filter.final_spec lib filter_spec input start_time media_type format_desc
        = some
          (if (inputs2.filter (fun t => decide (t = AVMediaType.AUDIO))).length = 1
              ∧ 2 ≤ input.count_streams AVMediaType.AUDIO then
            "amerge=inputs=" ++ toString (input.count_streams AVMediaType.AUDIO) ++ ","
              ++ Filter.spec_with_tail lib filter_spec start_time media_type format_desc
          else if (inputs2.filter (fun t => decide (t = AVMediaType.AUDIO))).length ≠ 1
              ∧ (inputs2.filter (fun t => decide (t = AVMediaType.VIDEO))).length = 1
              ∧ 2 ≤ input.count_streams AVMediaType.VIDEO then
            "alphamerge,"
              ++ Filter.spec_with_tail lib filter_spec start_time media_type format_desc
          else Filter.spec_with_tail lib filter_spec start_time media_type format_desc)
      ∧ (Filter.final_spec lib filter_spec input start_time media_type format_desc
            = some ("amerge=inputs=" ++ toString (input.count_streams AVMediaType.AUDIO) ++ ","
                ++ Filter.spec_with_tail lib filter_spec start_time media_type format_desc)
          ↔ ((inputs2.filter (fun t => decide (t = AVMediaType.AUDIO))).length = 1
              ∧ 2 ≤ input.count_streams AVMediaType.AUDIO))
      ∧ (Filter.final_spec lib filter_spec input start_time media_type format_desc
            = some ("alphamerge,"
                ++ Filter.spec_with_tail lib filter_spec start_time media_type format_desc)
          ↔ ((inputs2.filter (fun t => decide (t = AVMediaType.AUDIO))).length ≠ 1
              ∧ (inputs2.filter (fun t => decide (t = AVMediaType.VIDEO))).length = 1
              ∧ 2 ≤ input.count_streams AVMediaType.VIDEO))
      ∧ (∀ (f : Filter) (g : String),
          Filter.ctor lib filter_spec input start_time media_type format_desc = some f →
          f.graph = some g →
          Filter.final_spec lib filter_spec input start_time media_type format_desc = some g) := by
  generalize hspec : Filter.spec_with_tail lib filter_spec start_time media_type format_desc
    = spec at h_parse
  generalize ha : (inputs2.filter (fun t => decide (t = AVMediaType.AUDIO))).length = a
  generalize hv : (inputs2.filter (fun t => decide (t = AVMediaType.VIDEO))).length = v
  generalize hna : input.count_streams AVMediaType.AUDIO = na
  generalize hnv : input.count_streams AVMediaType.VIDEO = nv
  have hfinal : Filter.final_spec lib filter_spec input start_time media_type format_desc
      = some (if a = 1 ∧ 2 ≤ na then "amerge=inputs=" ++ toString na ++ "," ++ spec
          else if a ≠ 1 ∧ v = 1 ∧ 2 ≤ nv then "alphamerge," ++ spec else spec) := by
    simp only [Filter.final_spec, hspec, h_parse, Filter.merged_spec, ha, hv, hna, hnv]
    by_cases h1 : a = 1
    · by_cases h2 : 2 ≤ na
      · have h3 : na > 1 := h2
        simp only [h1, h2, h3, and_self, if_true]
      · have h3 : ¬ na > 1 := h2
        simp [h1, h2, h3]
    · by_cases h2 : v = 1
      · by_cases h4 : 2 ≤ nv
        · have h3 : nv > 1 := h4
          simp [h1, h2, h3, h4]
        · have h3 : ¬ nv > 1 := h4
          simp [h1, h2, h3, h4]
      · simp [h1, h2]
  have hne1 : "amerge=inputs=" ++ toString na ++ "," ++ spec ≠ spec := by
    have : "amerge=inputs=" ++ toString na ++ "," ++ spec
        = ("amerge=inputs=" ++ toString na ++ ",") ++ spec := rfl
    rw [this]
    apply string_append_ne_self
    intro h
    have hl := congrArg String.length h
    simp only [String.length_append] at hl
    have h14 : ("amerge=inputs=" : String).length = 14 := by decide
    rw [h14] at hl
    have h0 : ("" : String).length = 0 := rfl
    omega
  have hne2 : "alphamerge," ++ spec ≠ spec :=
    string_append_ne_self "alphamerge," spec (by decide)
  refine ⟨hfinal, ?_, ?_, ?_⟩
  · rw [hfinal]
    constructor
    · intro h
      by_contra hc
      rw [if_neg hc] at h
      split at h
      · exact amerge_ne_alphamerge na spec spec (Option.some.inj h).symm
      · exact hne1 (Option.some.inj h).symm
    · intro h
      rw [if_pos h]
  · rw [hfinal]
    constructor
    · intro h
      by_cases hc : a = 1 ∧ 2 ≤ na
      · rw [if_pos hc] at h
        exact absurd (Option.some.inj h) (amerge_ne_alphamerge na spec spec)
      · rw [if_neg hc] at h
        by_contra hc2
        rw [if_neg hc2] at h
        exact hne2 (Option.some.inj h).symm
    · intro h
      have hc : ¬ (a = 1 ∧ 2 ≤ na) := fun hc => h.1 hc.1
      rw [if_neg hc, if_pos h]
  · intro f g hf hg
    exact Filter.ctor_graph lib filter_spec input start_time media_type format_desc f g hf hg

/-- Witness of C21 (amended): the video graph with one video and one audio input on
the file with two video and two audio streams gets amerge=inputs=2 in front,
not alphamerge. -/
theorem merge_rules_witness :
    example_mixed_lib.avfilter_graph_parse2
        (Filter.spec_with_tail example_mixed_lib "overlay" 0 AVMediaType.VIDEO example_format_25p)
        = some ([AVMediaType.VIDEO, AVMediaType.AUDIO], [AVMediaType.VIDEO])
      ∧ (Filter.final_spec example_mixed_lib "overlay" example_four_streams 0 AVMediaType.VIDEO
            example_format_25p
            = some ("amerge=inputs=" ++ toString (example_four_streams.count_streams AVMediaType.AUDIO)
                ++ "," ++ Filter.spec_with_tail example_mixed_lib "overlay" 0 AVMediaType.VIDEO
                  example_format_25p)
          ↔ (([AVMediaType.VIDEO, AVMediaType.AUDIO].filter
                (fun t => decide (t = AVMediaType.AUDIO))).length = 1
              ∧ 2 ≤ example_four_streams.count_streams AVMediaType.AUDIO))
      ∧ ¬ (Filter.final_spec example_mixed_lib "overlay" example_four_streams 0 AVMediaType.VIDEO
            example_format_25p
            = some ("alphamerge," ++ Filter.spec_with_tail example_mixed_lib "overlay" 0
                AVMediaType.VIDEO example_format_25p)) :=
  ⟨by rfl,
   (merge_rules example_mixed_lib "overlay" example_four_streams 0 AVMediaType.VIDEO
      example_format_25p [AVMediaType.VIDEO, AVMediaType.AUDIO] [AVMediaType.VIDEO] (by rfl)).2.1,
   fun h =>
     ((merge_rules example_mixed_lib "overlay" example_four_streams 0 AVMediaType.VIDEO
        example_format_25p [AVMediaType.VIDEO, AVMediaType.AUDIO] [AVMediaType.VIDEO]
        (by rfl)).2.2.1.mp h).1 (by decide)⟩

/-! ### Binding of the filter inputs (C22) -/

theorem find_first_lowest {β : Type} (pred : Int × β → Bool) (l : List (Int × β))
    (hs : (l.map (fun p => p.1)).Pairwise (fun a b => a < b)) (x : Int × β)
    (h : l.find? pred = some x) : ∀ y ∈ l, pred y = true → x.1 ≤ y.1 := by
  induction l with
  | nil => simp at h
  | cons a l ih =>
    simp only [List.map_cons, List.pairwise_cons] at hs
    intro y hy hpy
    by_cases ha : pred a = true
    · rw [List.find?_cons_of_pos _ ha] at h
      have hx : a = x := Option.some.inj h
      rw [← hx]
      rcases List.mem_cons.mp hy with hy | hy
      · rw [hy]
      · exact le_of_lt (hs.1 y.1 (List.mem_map.mpr ⟨y, hy, rfl⟩))
    · rw [List.find?_cons_of_neg _ ha] at h
      rcases List.mem_cons.mp hy with hy | hy
      · rw [hy] at hpy
        exact absurd hpy ha
      · exact ih hs.2 h y hy hpy

theorem map_emplace_length {β : Type} (m : List (Int × β)) (k : Int) (v : β)
    (h : map_contains m k = false) : (map_emplace m k v).length = m.length + 1 := by
  induction m with
  | nil => rfl
  | cons a m ih =>
    obtain ⟨k1, v1⟩ := a
    simp only [map_contains, map_find] at h
    by_cases h1 : k < k1
    · simp only [map_emplace, h1, if_true, List.length_cons]
    · by_cases h2 : k = k1
      · rw [if_pos h2.symm] at h
        simp at h
      · have h3 : ¬ k1 = k := fun e => h2 e.symm
        rw [if_neg h3] at h
        simp only [map_emplace, h1, h2, if_false, List.length_cons]
        rw [ih h]

theorem map_emplace_mem {β : Type} (m : List (Int × β)) (k : Int) (v : β) :
    ∀ p ∈ map_emplace m k v, p ∈ m ∨ p = (k, v) := by
  induction m with
  | nil =>
    intro p hp
    simp only [map_emplace, List.mem_singleton] at hp
    exact Or.inr hp
  | cons a m ih =>
    obtain ⟨k1, v1⟩ := a
    intro p hp
    simp only [map_emplace] at hp
    split at hp
    · rcases List.mem_cons.mp hp with hp | hp
      · exact Or.inr hp
      · exact Or.inl hp
    · split at hp
      · exact Or.inl hp
      · rcases List.mem_cons.mp hp with hp | hp
        · exact Or.inl (by rw [hp]; exact List.mem_cons_self _ _)
        · rcases ih p hp with h | h
          · exact Or.inl (List.mem_cons_of_mem _ h)
          · exact Or.inr h

theorem map_emplace_sorted {β : Type} (m : List (Int × β)) (k : Int) (v : β)
    (hs : (m.map (fun p => p.1)).Pairwise (fun a b => a < b)) :
    ((map_emplace m k v).map (fun p => p.1)).Pairwise (fun a b => a < b) := by
  induction m with
  | nil => simp [map_emplace]
  | cons a m ih =>
    obtain ⟨k1, v1⟩ := a
    simp only [List.map_cons, List.pairwise_cons] at hs
    simp only [map_emplace]
    split
    · rename_i h1
      simp only [List.map_cons, List.pairwise_cons]
      refine ⟨?_, hs.1, hs.2⟩
      intro b hb
      rcases List.mem_cons.mp hb with hb | hb
      · rw [hb]; exact h1
      · exact lt_trans h1 (hs.1 b hb)
    · split
      · simp only [List.map_cons, List.pairwise_cons]
        exact hs
      · rename_i h1 h2
        simp only [List.map_cons, List.pairwise_cons]
        refine ⟨?_, ih hs.2⟩
        intro b hb
        obtain ⟨p, hp, hpb⟩ := List.mem_map.mp hb
        rcases map_emplace_mem m k v p hp with h | h
        · exact hs.1 b (List.mem_map.mpr ⟨p, h, hpb⟩)
        · rw [← hpb, h]
          show k1 < k
          omega

theorem find_stream_some (input : Input) (type : AVMediaType)
    (sources : List (Int × AVFilterContext)) (index : Int) (st : Stream)
    (h : Filter.find_stream input type sources = some (index, st)) :
    (index, st) ∈ input.streams_ ∧ st.decoder_.codec_type = type
      ∧ map_contains sources index = false := by
  unfold Filter.find_stream at h
  have hp := List.find?_some h
  simp only [Bool.and_eq_true, decide_eq_true_eq, Bool.not_eq_true'] at hp
  exact ⟨List.mem_of_find?_eq_some h, hp.1, hp.2⟩

theorem bind_inputs_sources (lib : Lib) (input : Input) (pads : List AVMediaType) :
    ∀ (sources0 sources : List (Int × AVFilterContext)),
      (sources0.map (fun p => p.1)).Pairwise (fun a b => a < b) →
      (Filter.bind_inputs lib input pads sources0 = BindResult.bound sources →
        (sources.map (fun p => p.1)).Pairwise (fun a b => a < b)
          ∧ sources.length = sources0.length + pads.length
          ∧ ∀ p ∈ sources, p ∈ sources0 ∨ ∃ st : Stream, (p.1, st) ∈ input.streams_
              ∧ st.decoder_.codec_type ∈ pads ∧ p.2 = { name := "in_" ++ toString p.1 })
      ∧ (Filter.bind_inputs lib input pads sources0 = BindResult.unusable sources →
        (sources.map (fun p => p.1)).Pairwise (fun a b => a < b)
          ∧ sources.length < sources0.length + pads.length
          ∧ ∃ type ∈ pads, Filter.find_stream input type sources = none) := by
  induction pads with
  | nil =>
    intro sources0 sources hs
    simp only [Filter.bind_inputs, BindResult.bound.injEq, List.length_nil, Nat.add_zero,
      List.not_mem_nil, false_and, exists_false, and_false, imp_false]
    refine ⟨?_, by simp⟩
    intro h
    rw [← h]
    exact ⟨hs, rfl, fun p hp => Or.inl hp⟩
  | cons type pads ih =>
    intro sources0 sources hs
    unfold Filter.bind_inputs
    split
    · refine ⟨fun h => absurd h (by simp), fun h => absurd h (by simp)⟩
    · split
      · rename_i hnone
        refine ⟨fun h => absurd h (by simp), ?_⟩
        intro h
        simp only [BindResult.unusable.injEq] at h
        rw [← h]
        refine ⟨hs, by simp, type, List.mem_cons_self _ _, hnone⟩
      · rename_i index st hsome
        obtain ⟨hmem, htype, hfree⟩ := find_stream_some input type sources0 index st hsome
        split
        · split
          · have hs1 := map_emplace_sorted sources0 index
              ({ name := "in_" ++ toString index } : AVFilterContext) hs
            have hl1 := map_emplace_length sources0 index
              ({ name := "in_" ++ toString index } : AVFilterContext) hfree
            obtain ⟨ihb, ihu⟩ := ih (map_emplace sources0 index { name := "in_" ++ toString index })
              sources hs1
            constructor
            · intro h
              obtain ⟨h1, h2, h3⟩ := ihb h
              refine ⟨h1, ?_, ?_⟩
              · rw [h2, hl1, List.length_cons]
                omega
              · intro p hp
                rcases h3 p hp with h4 | ⟨st1, h5, h6, h7⟩
                · rcases map_emplace_mem sources0 index _ p h4 with h8 | h8
                  · exact Or.inl h8
                  · refine Or.inr ⟨st, ?_, ?_, ?_⟩
                    · rw [h8]; exact hmem
                    · rw [htype]; exact List.mem_cons_self _ _
                    · rw [h8]
                · exact Or.inr ⟨st1, h5, List.mem_cons_of_mem _ h6, h7⟩
            · intro h
              obtain ⟨h1, h2, t, ht, h3⟩ := ihu h
              refine ⟨h1, ?_, t, List.mem_cons_of_mem _ ht, h3⟩
              rw [hl1] at h2
              rw [List.length_cons]
              omega
          · refine ⟨fun h => absurd h (by simp), fun h => absurd h (by simp)⟩
        · refine ⟨fun h => absurd h (by simp), fun h => absurd h (by simp)⟩

/-- C22: on a demuxer whose decoders are held in ascending order of stream index,
the stream found for a dangling input pad is a stream of the pad's media kind
that is not yet bound in this graph, and the one of lowest index among them;
none is found exactly when every stream of that kind is already bound.  The
pads are taken in list order, each with the sources bound so far.  When every
pad is bound the sources are as many as the pads, under distinct stream
indices, so no stream is bound to two pads.  When the final spec parses and
some pad finds no free stream, the constructor returns a filter without graph
and without sink; a constructed filter has a graph exactly when it has a sink,
and one with a sink has every pad bound. -/
theorem input_binding (lib : Lib) (input : Input)
    (h_sorted : (input.streams_.map (fun p => p.1)).Pairwise (fun a b => a < b)) :
    (∀ (type : AVMediaType) (sources : List (Int × AVFilterContext)) (index : Int) (st : Stream),
        Filter.find_stream input type sources = some (index, st) →
        (index, st) ∈ input.streams_ ∧ st.decoder_.codec_type = type
          ∧ map_contains sources index = false
          ∧ ∀ p ∈ input.streams_, p.2.decoder_.codec_type = type →
              map_contains sources p.1 = false → index ≤ p.1)
      ∧ (∀ (type : AVMediaType) (sources : List (Int × AVFilterContext)),
          Filter.find_stream input type sources = none ↔
            ∀ p ∈ input.streams_, p.2.decoder_.codec_type = type →
              map_contains sources p.1 = true)
      ∧ (∀ (type : AVMediaType) (pads : List AVMediaType) (sources : List (Int × AVFilterContext)),
          (type = AVMediaType.VIDEO ∨ type = AVMediaType.AUDIO) →
          Filter.bind_inputs lib input (type :: pads) sources =
            match Filter.find_stream input type sources with
            | none => BindResult.unusable sources
            | some p =>
              if lib.avfilter_graph_create_filter ("in_" ++ toString p.1)
                  && lib.avfilter_link ("in_" ++ toString p.1) then
                Filter.bind_inputs lib input pads
                  (map_emplace sources p.1 { name := "in_" ++ toString p.1 })
              else BindResult.threw)
      ∧ (∀ (pads : List AVMediaType) (sources : List (Int × AVFilterContext)),
          Filter.bind_inputs lib input pads [] = BindResult.bound sources →
          (sources.map (fun p => p.1)).Nodup ∧ sources.length = pads.length
            ∧ ∀ p ∈ sources, ∃ st : Stream, (p.1, st) ∈ input.streams_
                ∧ st.decoder_.codec_type ∈ pads)
      ∧ (∀ (filter_spec : String) (start_time : Int) (media_type : AVMediaType)
          (format_desc : video_format_desc) (final : String) (inputs outputs : List AVMediaType),
          Filter.final_spec lib filter_spec input start_time media_type format_desc = some final →
          lib.avfilter_graph_parse2 final = some (inputs, outputs) →
          (∀ sources : List (Int × AVFilterContext),
              Filter.bind_inputs lib input inputs [] = BindResult.unusable sources →
              Filter.ctor lib filter_spec input start_time media_type format_desc
                = some { graph := none, sink := none, sources := sources,
                         start_time := some start_time })
            ∧ (∀ f : Filter,
                Filter.ctor lib filter_spec input start_time media_type format_desc = some f →
                (f.graph = none ↔ f.sink = none)
                  ∧ (f.sink ≠ none →
                      Filter.bind_inputs lib input inputs [] = BindResult.bound f.sources
                        ∧ f.sources.length = inputs.length))) := by
  refine ⟨?_, ?_, ?_, ?_, ?_⟩
  · intro type sources index st h
    obtain ⟨h1, h2, h3⟩ := find_stream_some input type sources index st h
    refine ⟨h1, h2, h3, ?_⟩
    intro p hp hpt hpf
    unfold Filter.find_stream at h
    have := find_first_lowest _ input.streams_ h_sorted (index, st) h p hp
      (by simp [hpt, hpf])
    exact this
  · intro type sources
    unfold Filter.find_stream
    rw [List.find?_eq_none]
    constructor
    · intro h p hp hpt
      have := h p hp
      simp only [hpt, decide_True, Bool.true_and, Bool.not_eq_true', Bool.not_eq_false] at this
      exact this
    · intro h p hp
      by_cases hpt : p.2.decoder_.codec_type = type
      · simp [hpt, h p hp hpt]
      · simp [hpt]
  · intro type pads sources htype
    have hnot : ¬ (type ≠ AVMediaType.VIDEO ∧ type ≠ AVMediaType.AUDIO) := by
      rcases htype with h | h <;> simp [h]
    rw [Filter.bind_inputs, if_neg hnot]
    cases hfind : Filter.find_stream input type sources with
    | none => rfl
    | some p =>
      obtain ⟨index, st⟩ := p
      obtain ⟨_, h2, _⟩ := find_stream_some input type sources index st hfind
      have hva : st.decoder_.codec_type = AVMediaType.VIDEO
          ∨ st.decoder_.codec_type = AVMediaType.AUDIO := by
        rw [h2]; exact htype
      simp only [if_pos hva]
  · intro pads sources h
    obtain ⟨h1, h2, h3⟩ := (bind_inputs_sources lib input pads [] sources List.Pairwise.nil).1 h
    refine ⟨?_, by simpa using h2, ?_⟩
    · exact h1.imp (fun hab => ne_of_lt hab)
    · intro p hp
      rcases h3 p hp with h4 | ⟨st, h5, h6, _⟩
      · simp at h4
      · exact ⟨st, h5, h6⟩
  · intro filter_spec start_time media_type format_desc final inputs outputs hfinal hparse
    unfold Filter.final_spec at hfinal
    unfold Filter.ctor
    simp only
    cases hpre : lib.avfilter_graph_parse2
        (Filter.spec_with_tail lib filter_spec start_time media_type format_desc) with
    | none =>
      rw [hpre] at hfinal
      simp at hfinal
    | some pre =>
      obtain ⟨inputs2, outputs2⟩ := pre
      rw [hpre] at hfinal
      simp only [Option.some.injEq] at hfinal
      simp only [hfinal, hparse]
      constructor
      · intro sources hb
        simp only [hb]
      · intro f hf
        cases hb : Filter.bind_inputs lib input inputs [] with
        | threw =>
          rw [hb] at hf
          simp at hf
        | unusable sources =>
          rw [hb] at hf
          simp only [Option.some.injEq] at hf
          rw [← hf]
          simp
        | bound sources =>
          rw [hb] at hf
          simp only at hf
          cases hsink : Filter.attach_sink lib final media_type outputs with
          | none =>
            rw [hsink] at hf
            simp at hf
          | some sink =>
            rw [hsink] at hf
            simp only [Option.some.injEq] at hf
            rw [← hf]
            simp only [reduceCtorEq, ne_eq, not_false_eq_true, true_implies, true_and]
            have := (bind_inputs_sources lib input inputs [] sources List.Pairwise.nil).1 hb
            simpa using this.2.1

/-- Witness of C22: on the file with video streams 0, 1 and audio streams 2, 3, the
pads video, audio, video are bound to the streams 0, 2, 1; a third video pad
finds no free stream. -/
theorem input_binding_witness :
    (example_four_streams.streams_.map (fun p => p.1)).Pairwise (fun a b => a < b)
      ∧ Filter.bind_inputs example_lib example_four_streams
          [AVMediaType.VIDEO, AVMediaType.AUDIO, AVMediaType.VIDEO] []
          = BindResult.bound [(0, { name := "in_0" }), (1, { name := "in_1" }), (2, { name := "in_2" })]
      ∧ Filter.bind_inputs example_lib example_four_streams
          [AVMediaType.VIDEO, AVMediaType.VIDEO, AVMediaType.VIDEO] []
          = BindResult.unusable [(0, { name := "in_0" }), (1, { name := "in_1" })]
      ∧ (([(0, { name := "in_0" }), (1, { name := "in_1" }), (2, { name := "in_2" })] :
            List (Int × AVFilterContext)).map (fun p => p.1)).Nodup
      ∧ ([(0, { name := "in_0" }), (1, { name := "in_1" }), (2, { name := "in_2" })] :
            List (Int × AVFilterContext)).length
          = [AVMediaType.VIDEO, AVMediaType.AUDIO, AVMediaType.VIDEO].length
      ∧ ∀ p ∈ ([(0, { name := "in_0" }), (1, { name := "in_1" }), (2, { name := "in_2" })] :
            List (Int × AVFilterContext)),
          ∃ st : Stream, (p.1, st) ∈ example_four_streams.streams_
            ∧ st.decoder_.codec_type ∈ [AVMediaType.VIDEO, AVMediaType.AUDIO, AVMediaType.VIDEO] :=
  ⟨by decide, by rfl, by rfl,
   (input_binding example_lib example_four_streams (by decide)).2.2.2.1
     [AVMediaType.VIDEO, AVMediaType.AUDIO, AVMediaType.VIDEO]
     [(0, { name := "in_0" }), (1, { name := "in_1" }), (2, { name := "in_2" })] (by rfl)⟩

/-! ### The SEEK command (C23) -/

theorem to_uint32_of_range (i : Int) (h0 : 0 ≤ i) (h1 : i < 4294967296) :
    (to_uint32 i : Int) = i := by
  unfold to_uint32
  omega

/-- C23: for a file of at least one frame (nb_frames a uint32_t), whenever the
SEEK command has a requested position s (the value read as a number, or taken
from rel, in, out or end, plus the offset, if there is one), the command hands
a frame index to the input, that index is max(0, min(s, nb_frames - 1)), and
it lies in [0, nb_frames).  The command fails only when the value or the
offset is not a number; the requested position then does not exist. -/
theorem seek_clamped (p : ffmpeg_producer) (lexical_cast : String → Option Int)
    (value : String) (offset : Option String) (s : Int)
    (h_frames : 1 ≤ p.file_nb_frames) (h_uint32 : p.file_nb_frames < 4294967296)
    (h_position : p.seek_position lexical_cast value offset = some s) :
    (∃ target : Nat, p.call_seek lexical_cast value offset = some target
        ∧ (target : Int) = max 0 (min s ((p.file_nb_frames : Int) - 1))
        ∧ target < p.file_nb_frames)
      ∧ ((p.call_seek lexical_cast value offset).isSome
          = (p.seek_position lexical_cast value offset).isSome) := by
  have hclamp : seek_clamp p.file_nb_frames s = max 0 (min s ((p.file_nb_frames : Int) - 1)) := by
    unfold seek_clamp
    have hu := to_uint32_of_range ((p.file_nb_frames : Int) - 1) (by omega) (by omega)
    by_cases h1 : s < 0
    · rw [if_pos h1]
      omega
    · rw [if_neg h1]
      by_cases h2 : s ≥ (p.file_nb_frames : Int)
      · rw [if_pos h2, hu]
        omega
      · rw [if_neg h2]
        omega
  have hrange : 0 ≤ seek_clamp p.file_nb_frames s
      ∧ seek_clamp p.file_nb_frames s < (p.file_nb_frames : Int) := by
    rw [hclamp]
    omega
  have ht := to_uint32_of_range (seek_clamp p.file_nb_frames s) hrange.1 (by omega)
  refine ⟨⟨to_uint32 (seek_clamp p.file_nb_frames s), ?_, ?_, ?_⟩, ?_⟩
  · simp only [ffmpeg_producer.call_seek, h_position, Option.map_some']
  · rw [ht, hclamp]
  · have := hrange.2
    rw [← ht] at this
    exact_mod_cast this
  · simp only [ffmpeg_producer.call_seek, Option.isSome_map']

/-- Witness of C23: on the file of 100 frames playing frame 40, in point 10 and out
point 90: SEEK 1000 goes to 99, SEEK -5 to 0, SEEK end to 99, SEEK rel -5 to
35, SEEK in 7 to 17, SEEK out to 90. -/
theorem seek_clamped_witness :
    example_file_producer.call_seek example_lexical_cast "1000" none = some 99
      ∧ example_file_producer.call_seek example_lexical_cast "-5" none = some 0
      ∧ example_file_producer.call_seek example_lexical_cast "END" none = some 99
      ∧ example_file_producer.call_seek example_lexical_cast "rel" (some "-5") = some 35
      ∧ example_file_producer.call_seek example_lexical_cast "in" (some "7") = some 17
      ∧ example_file_producer.call_seek example_lexical_cast "out" none = some 90
      ∧ (1 ≤ example_file_producer.file_nb_frames
          ∧ example_file_producer.file_nb_frames < 4294967296
          ∧ example_file_producer.seek_position example_lexical_cast "1000" none = some 1000
          ∧ ∃ target : Nat,
              example_file_producer.call_seek example_lexical_cast "1000" none = some target
                ∧ (target : Int) = max 0 (min 1000 ((example_file_producer.file_nb_frames : Int) - 1))
                ∧ target < example_file_producer.file_nb_frames) :=
  ⟨by rfl, by rfl, by rfl, by rfl, by rfl, by rfl, by decide, by decide, by rfl,
   (seek_clamped example_file_producer example_lexical_cast "1000" none 1000 (by decide)
      (by decide) (by rfl)).1⟩

/-! ### Timing of decoded frames (C24) -/

/-- C24, counterexample: an audio decoder receives a frame of 1024 samples at
48 kHz with best_effort_timestamp 2048 and pkt_duration 1000 (stream time base
1/48000); next_pts_ becomes 2048 + 1024 = 3072, not 2048 + 1000. -/
theorem frame_timing_counterexample :
    example_audio_stream.decoder_.codec_type = AVMediaType.AUDIO
      ∧ example_audio_frame.pkt_duration = 1000
      ∧ (example_audio_stream.worker
          { avcodec_receive_frame := [ReceiveRet.frame example_audio_frame, ReceiveRet.EAGAIN] }).state?.map
          (fun st => (st.next_pts_, st.output_.map (fun frame => frame.pts)))
          = some (3072, [2048]) := by
  refine ⟨by rfl, by rfl, by rfl⟩

/-- C24, amended: for every frame the decoder thread receives from the codec, the
frame is queued with its pts set to its best_effort_timestamp and next_pts_
becomes that pts + d.  For a video decoder d is pkt_duration when that is
positive and rescale(1, codec time base, stream time base) otherwise.  For an
audio decoder d is rescale(nb_samples, 1/sample_rate, stream time base)
whatever pkt_duration is. -/
theorem frame_timing (st : Stream) (f : AVFrame) (h_runs : st.worker_runs = true) :
    (∃ st1 : Stream,
        st.worker { avcodec_receive_frame := [ReceiveRet.frame f, ReceiveRet.EAGAIN] }
            = WorkerOutcome.done st1
          ∧ st1.output_ = st.output_ ++ [{ f with pts := f.best_effort_timestamp }]
          ∧ st1.next_pts_ = f.best_effort_timestamp + st.frame_duration f
          ∧ st1.input_ = st.input_.tail)
      ∧ (∀ rets : List ReceiveRet,
          Stream.receive_frames (ReceiveRet.frame f :: rets) st
            = Stream.receive_frames rets
                { st with next_pts_ := f.best_effort_timestamp + st.frame_duration f,
                          output_ := st.output_ ++ [{ f with pts := f.best_effort_timestamp }] })
      ∧ (st.decoder_.codec_type = AVMediaType.VIDEO →
          st.frame_duration f
            = if f.pkt_duration > 0 then f.pkt_duration
              else av_rescale_q 1 st.decoder_.time_base st.decoder_.pkt_timebase)
      ∧ (st.decoder_.codec_type = AVMediaType.AUDIO →
          st.frame_duration f
            = av_rescale_q f.nb_samples { num := 1, den := f.sample_rate }
                st.decoder_.pkt_timebase) := by
  refine ⟨?_, fun rets => rfl, ?_, ?_⟩
  · have habort : st.abort_request_ = false := by
      unfold Stream.worker_runs at h_runs
      cases h : st.abort_request_
      · rfl
      · rw [h] at h_runs
        simp at h_runs
    cases hin : st.input_ with
    | nil =>
      unfold Stream.worker_runs at h_runs
      rw [hin] at h_runs
      simp at h_runs
    | cons packet rest =>
      refine ⟨{ st with input_ := rest,
                        next_pts_ := f.best_effort_timestamp + st.frame_duration f,
                        output_ := st.output_ ++ [{ f with pts := f.best_effort_timestamp }] },
              ?_, rfl, rfl, rfl⟩
      simp only [Stream.worker, habort, h_runs, hin, if_true, Bool.false_eq_true, if_false]
      rfl
  · intro h
    simp only [Stream.frame_duration, h, if_true]
  · intro h
    have hv : ¬ (AVMediaType.AUDIO = AVMediaType.VIDEO) := by decide
    simp only [Stream.frame_duration, h, hv, if_true, if_false]

/-- Witness of C24 (amended): the audio decoder with one queued packet and the frame
of 1024 samples. -/
theorem frame_timing_witness :
    example_audio_stream.worker_runs = true
      ∧ (example_audio_stream.decoder_.codec_type = AVMediaType.AUDIO →
          example_audio_stream.frame_duration example_audio_frame
            = av_rescale_q example_audio_frame.nb_samples
                { num := 1, den := example_audio_frame.sample_rate }
                example_audio_stream.decoder_.pkt_timebase)
      ∧ example_audio_stream.frame_duration example_audio_frame = 1024 :=
  ⟨by rfl, (frame_timing example_audio_stream example_audio_frame (by rfl)).2.2.2, by rfl⟩

/-! ### The first next_pts_ of a decoder (C25) -/

/-- C25, counterexample: the decoder constructed for a stream whose start_time is
AV_NOPTS_VALUE has next_pts_ = AV_NOPTS_VALUE, not 0, and the end-of-stream
marker it emits for a null packet before any frame was decoded has that pts. -/
theorem decoder_start_counterexample :
    example_unset_stream.start_time = AV_NOPTS_VALUE
      ∧ (Stream.ctor {} example_unset_stream).map (fun st => st.next_pts_)
          = some (-9223372036854775808)
      ∧ (Stream.ctor {} example_unset_stream).map (fun st =>
            ((st.try_push none).2.worker example_decode_eof).state?.map (fun st1 => st1.output_))
          = some (some [{ pts := -9223372036854775808, has_data := false }]) := by
  refine ⟨by rfl, by rfl, by rfl⟩

theorem stream_ctor_fields (lib : CodecLib) (stream : AVStream) (st : Stream)
    (h : Stream.ctor lib stream = some st) :
    st.next_pts_ = stream.start_time ∧ st.input_ = [] ∧ st.output_ = []
      ∧ st.abort_request_ = false ∧ st.output_capacity_ = 2 ∧ st.input_capacity_ = 256
      ∧ st.decoder_.codec_type = stream.codec_type
      ∧ st.decoder_.pkt_timebase = stream.time_base := by
  unfold Stream.ctor at h
  split at h
  · split at h
    · exact absurd h (by simp)
    · split at h
      · split at h
        · simp only [Option.some.injEq] at h
          rw [← h]
          exact ⟨rfl, rfl, rfl, rfl, rfl, rfl, rfl, rfl⟩
        · exact absurd h (by simp)
      · exact absurd h (by simp)
  · exact absurd h (by simp)

/-- C25, amended: a decoder that is constructed starts with next_pts_ equal to the
start_time of its stream, copied as it is, and with empty queues; so the
end-of-stream marker emitted for a null packet before any frame was decoded
carries the stream start_time as pts: AV_NOPTS_VALUE when the start_time is
unset, and 0 only when the start_time is 0.  It is the start time of the
container that is read as 0 when unset (Input::start_time). -/
theorem decoder_start (lib : CodecLib) (stream : AVStream) (st : Stream)
    (h_ctor : Stream.ctor lib stream = some st) :
    st.next_pts_ = stream.start_time ∧ st.input_ = [] ∧ st.output_ = []
      ∧ (st.try_push none).2.worker { avcodec_receive_frame := [ReceiveRet.EOF, ReceiveRet.EAGAIN] }
          = WorkerOutcome.done
              { st with output_ := [{ pts := stream.start_time, has_data := false }] }
      ∧ (stream.start_time = AV_NOPTS_VALUE → st.next_pts_ = AV_NOPTS_VALUE ∧ st.next_pts_ ≠ 0)
      ∧ (st.next_pts_ = 0 ↔ stream.start_time = 0)
      ∧ (∀ input : Input, input.format_.start_time = AV_NOPTS_VALUE → input.start_time = 0) := by
  obtain ⟨h1, h2, h3, h4, h5, _, _, _⟩ := stream_ctor_fields lib stream st h_ctor
  refine ⟨h1, h2, h3, ?_, ?_, ?_, ?_⟩
  · have hpush : (st.try_push none).2 = { st with input_ := [none] } := by
      simp [Stream.try_push, h2]
    rw [hpush]
    simp only [Stream.worker, Stream.worker_runs, h4, h3, h5, Stream.receive_frames, h1]
    simp only [to_size_t]
    simp
    exact h2
  · intro h
    rw [h1, h]
    exact ⟨rfl, by decide⟩
  · rw [h1]
  · intro input h
    simp [Input.start_time, h]

/-- Witness of C25 (amended): the decoder constructed for the video stream with
unset start_time. -/
theorem decoder_start_witness :
    Stream.ctor {} example_unset_stream = some example_unset_decoder
      ∧ example_unset_stream.start_time = AV_NOPTS_VALUE
      ∧ example_unset_decoder.next_pts_ = AV_NOPTS_VALUE ∧ example_unset_decoder.next_pts_ ≠ 0 :=
  ⟨by rfl, by rfl,
   (decoder_start {} example_unset_stream example_unset_decoder (by rfl)).2.2.2.2.1 (by rfl)⟩

/-! ### Units of start and duration at construction (C26) -/

theorem reset_keeps_range (lib : Lib) (s s1 : Impl) (ts : Int)
    (h : s.reset lib ts = Outcome.returned () s1) :
    s1.start_ = s.start_ ∧ s1.duration_ = s.duration_ ∧ s1.format_tb_ = s.format_tb_
      ∧ s1.loop_ = s.loop_ := by
  unfold Impl.reset at h
  split at h
  · exact absurd h (by simp)
  · split at h
    · exact absurd h (by simp)
    · simp only [Outcome.returned.injEq, true_and] at h
      rw [← h]
      exact ⟨rfl, rfl, rfl, rfl⟩

theorem seek_keeps_range (lib : Lib) (s s1 : Impl) (time : Int)
    (h : s.seek lib time = Outcome.returned () s1) :
    s1.start_ = s.start_ ∧ s1.duration_ = s.duration_ ∧ s1.format_tb_ = s.format_tb_
      ∧ s1.loop_ = s.loop_ := by
  unfold Impl.seek at h
  simp only at h
  split at h
  · exact absurd h (by simp)
  · rename_i input1 _
    split at h
    · rename_i s2 hreset
      obtain ⟨h1, h2, h3, h4⟩ := reset_keeps_range lib _ s2 _ hreset
      simp only [Outcome.returned.injEq, true_and] at h
      rw [← h]
      exact ⟨h1, h2, h3, h4⟩
    · exact absurd h (by simp)
    · exact absurd h (by simp)

/-- C26, the code at the failing input: the 25p producer constructed with start = 25
and duration = 50 holds start_ = 25 and duration_ = 50 (the arguments as they
are), although its constructor seeks to frame 25 (1000000 us); start() and
duration() then return 0 and 0.  The producer constructed without them on which
start(25) and duration(50) are called holds start_ = 1000000 and
duration_ = 2000000, and start() and duration() return 25 and 50.  In general
a constructor that returns leaves start_ and duration_ equal to its arguments,
while the setters store their argument rescaled from frames to microseconds. -/
theorem ctor_units_disagree :
    Impl.ctor example_lib example_format_25p example_input "" "" (some 25) (some 50) false
        = Outcome.returned () example_ctor_ranged
      ∧ example_ctor_ranged.start_ = 25 ∧ example_ctor_ranged.duration_ = 50
      ∧ example_ctor_ranged.input_.format_.seek_requests = [1000000]
      ∧ example_ctor_ranged.get_start = some 0 ∧ example_ctor_ranged.get_duration = some 0
      ∧ Impl.ctor example_lib example_format_25p example_input "" "" none none false
          = Outcome.returned () example_constructed
      ∧ ((example_constructed.start 25).duration 50).start_ = 1000000
      ∧ ((example_constructed.start 25).duration 50).duration_ = 2000000
      ∧ ((example_constructed.start 25).duration 50).get_start = some 25
      ∧ ((example_constructed.start 25).duration 50).get_duration = some 50
      ∧ (∀ (lib : Lib) (format_desc : video_format_desc) (input : Input) (vfilter afilter : String)
          (start duration : Option Int) (loop : Bool) (s : Impl),
          Impl.ctor lib format_desc input vfilter afilter start duration loop
            = Outcome.returned () s →
          s.start_ = start.getD AV_NOPTS_VALUE ∧ s.duration_ = duration.getD AV_NOPTS_VALUE
            ∧ s.format_tb_ = { num := format_desc.duration, den := format_desc.time_scale })
      ∧ (∀ (s : Impl) (value : Int),
          (s.start value).start_ = av_rescale_q value s.format_tb_ TIME_BASE_Q
            ∧ (s.duration value).duration_ = av_rescale_q value s.format_tb_ TIME_BASE_Q) := by
  refine ⟨by rfl, by rfl, by rfl, by rfl, by rfl, by rfl, by rfl, by rfl, by rfl, by rfl, by rfl,
    ?_, fun s value => ⟨rfl, rfl⟩⟩
  intro lib format_desc input vfilter afilter start duration loop s h
  unfold Impl.ctor at h
  split at h
  · obtain ⟨h1, h2, h3, _⟩ := seek_keeps_range lib _ s _ h
    rw [h1, h2, h3]
    exact ⟨rfl, rfl, rfl⟩
  · obtain ⟨h1, h2, h3, _⟩ := reset_keeps_range lib _ s _ h
    rw [h1, h2, h3]
    exact ⟨rfl, rfl, rfl⟩

/-! ### The restart point of the two loop paths (C27) -/

theorem seek_logs_request (lib : Lib) (input input1 : Input) (ts : Int) (flush : Bool)
    (h : input.seek lib ts flush = some input1) :
    input1.format_.seek_requests = input.format_.seek_requests ++ [ts] := by
  unfold Input.seek at h
  cases hs : lib.avformat_seek_file ts
  · rw [hs] at h
    exact absurd h (by simp)
  · rw [hs] at h
    cases flush
    · simp only [if_true, Bool.false_eq_true, if_false, Option.some.injEq] at h
      rw [← h]
    · simp only [if_true, Option.some.injEq] at h
      rw [← h]

/-- C27, the code at the failing input: on a container whose start_time is
1000000 us, with loop on, no start and the range end at 80000 us, an iteration
whose frame lies past the range end rebuilds the filters for timestamp 1000000
but seeks the demuxer to 0; the loop at end of file, in the same state, seeks
the demuxer to 1000000.  In general, with start the value of start_ (0 when
unset), a range-end loop that returns has rebuilt both filters for start +
container start_time and has asked avformat_seek_file for start, and an
end-of-file loop that returns has asked it for start + container start_time. -/
theorem loop_restart_points :
    example_shifted.input_.start_time = 1000000
      ∧ example_shifted.loop_ = true ∧ example_shifted.duration_ = 80000
      ∧ example_shifted.start_ = AV_NOPTS_VALUE
      ∧ (example_shifted.tick (example_tick 30)).state?.map (fun s =>
            (s.input_.format_.seek_requests, s.video_filter_.start_time,
              s.audio_filter_.start_time))
          = some ([0], some 1000000, some 1000000)
      ∧ (example_shifted_eof.tick (example_tick 30)).state?.map (fun s =>
            s.input_.format_.seek_requests)
          = some [1000000]
      ∧ (∀ (lib : Lib) (s s1 : Impl) (video audio : Option AVFrame),
          s.loop_ = true → s.duration_ ≠ AV_NOPTS_VALUE →
          (s.output_frame video audio).pts ≥ s.duration_ →
          s.tick_output lib video audio = Outcome.returned () s1 →
          s1.input_.format_.seek_requests = s.input_.format_.seek_requests
              ++ [if s.start_ ≠ AV_NOPTS_VALUE then s.start_ else 0]
            ∧ s1.video_filter_.start_time
                = some ((if s.start_ ≠ AV_NOPTS_VALUE then s.start_ else 0) + s.input_.start_time)
            ∧ s1.audio_filter_.start_time
                = some ((if s.start_ ≠ AV_NOPTS_VALUE then s.start_ else 0) + s.input_.start_time))
      ∧ (∀ (o : TickScript) (s s1 : Impl),
          s.tick_runs = true → s.loop_ = true → s.input_.eof_ = true →
          s.tick o = Outcome.returned () s1 →
          s1.input_.format_.seek_requests = s.input_.format_.seek_requests
              ++ [(if s.start_ ≠ AV_NOPTS_VALUE then s.start_ else 0) + s.input_.start_time]) := by
  refine ⟨by rfl, by rfl, by rfl, by rfl, by rfl, by rfl, ?_, ?_⟩
  · intro lib s s1 video audio hloop hdur hpts h
    have hcond : s.loop_ = true ∧ s.duration_ ≠ AV_NOPTS_VALUE
        ∧ (s.output_frame video audio).pts ≥ s.duration_ := ⟨hloop, hdur, hpts⟩
    unfold Impl.tick_output at h
    rw [if_pos hcond] at h
    generalize (if s.start_ ≠ AV_NOPTS_VALUE then s.start_ else 0) = start at h ⊢
    split at h
    · rename_i s2 hreset
      obtain ⟨hv, ha, hfmt, _⟩ := Impl.reset_returned lib s s2 _ hreset
      cases hseek : s2.input_.seek lib start true with
      | none =>
        rw [hseek] at h
        exact absurd h (by simp)
      | some input1 =>
        rw [hseek] at h
        simp only [Outcome.returned.injEq, true_and] at h
        rw [← h]
        refine ⟨?_, hv, ha⟩
        have hlog := seek_logs_request lib s2.input_ input1 start true hseek
        rw [hfmt] at hlog
        exact hlog
    · exact absurd h (by simp)
    · exact absurd h (by simp)
  · intro o s s1 hruns hloop heof h
    have hcond : s.rotate_cadence.loop_ = true ∧ s.rotate_cadence.input_.eof = true :=
      ⟨hloop, heof⟩
    unfold Impl.tick at h
    rw [if_pos hruns, if_pos hcond] at h
    split at h
    · exact absurd h (by simp)
    · rename_i input1 hseek
      simp only [Outcome.returned.injEq, true_and] at h
      rw [← h]
      exact seek_logs_request o.lib s.rotate_cadence.input_ input1 _ false hseek

/-! ### Sources of a filter without sink (C28) -/

theorem map_contains_map {β : Type} (f : Int × β → Int × β) (hf : ∀ p, (f p).1 = p.1)
    (m : List (Int × β)) (j : Int) : map_contains (m.map f) j = map_contains m j := by
  induction m with
  | nil => rfl
  | cons a m ih =>
    obtain ⟨k1, v1⟩ := a
    have hk := hf (k1, v1)
    rcases hfa : f (k1, v1) with ⟨k2, v2⟩
    rw [hfa] at hk
    simp only at hk
    simp only [map_contains, List.map_cons, hfa, map_find] at ih ⊢
    rw [hk]
    by_cases h : k1 = j
    · simp [h]
    · simp only [h, if_false]
      exact ih

theorem map_contains_set {β : Type} (m : List (Int × β)) (k : Int) (v : β) (j : Int) :
    map_contains (map_set m k v) j = map_contains m j := by
  unfold map_set
  apply map_contains_map
  intro p
  split <;> rfl

theorem map_contains_emplace {β : Type} (m : List (Int × β)) (k : Int) (v : β) (j : Int) :
    map_contains (map_emplace m k v) j = (map_contains m j || decide (j = k)) := by
  induction m with
  | nil =>
    by_cases h : k = j
    · simp [map_contains, map_emplace, map_find, h]
    · have h2 : ¬ j = k := fun e => h e.symm
      simp [map_contains, map_emplace, map_find, h, h2]
  | cons a m ih =>
    obtain ⟨k1, v1⟩ := a
    simp only [map_contains] at ih ⊢
    simp only [map_emplace]
    split
    · by_cases h : k = j
      · simp [map_find, h]
      · have h2 : ¬ j = k := fun e => h e.symm
        simp [map_find, h, h2]
    · split
      · rename_i hk
        by_cases h : k1 = j
        · simp [map_find, h]
        · have h2 : ¬ j = k := fun e => h (by rw [← hk, e])
          simp [map_find, h, h2]
      · by_cases h : k1 = j
        · simp [map_find, h]
        · simp only [map_find, h, if_false]
          exact ih

theorem map_contains_push_back (m : List (Int × List AVFilterContext)) (k : Int)
    (source : AVFilterContext) (j : Int) :
    map_contains (sources_push_back m k source) j = (map_contains m j || decide (j = k)) := by
  unfold sources_push_back
  cases h : map_find m k with
  | none => exact map_contains_emplace m k [source] j
  | some l =>
    simp only
    rw [map_contains_set]
    by_cases hj : j = k
    · simp [map_contains, hj, h]
    · simp [hj]

theorem map_contains_foldl (l : List (Int × AVFilterContext)) :
    ∀ (m : List (Int × List AVFilterContext)) (j : Int),
      map_contains (l.foldl (fun m p => sources_push_back m p.1 p.2) m) j
        = (map_contains m j || l.any (fun p => decide (j = p.1))) := by
  induction l with
  | nil => intro m j; simp
  | cons a l ih =>
    intro m j
    simp only [List.foldl_cons, List.any_cons]
    rw [ih, map_contains_push_back, Bool.or_assoc]

/-- C28, the code at the failing input: on a file with one video and one audio
stream, the constructor of a video filter whose spec has two video inputs
binds stream 0 to the first pad, finds no stream for the second and returns a
filter without graph and without sink whose sources still hold the source
in_0; after the reset of the constructed producer sources_ records in_0 under
stream 0, although the video filter has neither graph nor sink.  In general a
constructed filter without sink has no graph and holds the sources that were
bound before the pad that found no stream, and after a reset that returns
sources_ is built from the sources of both filters and has an entry for every
one of them, whether the filter has a sink or not. -/
theorem unusable_filter_sources :
    Filter.ctor example_overlay_lib "overlay" example_input 0 AVMediaType.VIDEO example_format_25p
        = some { graph := none, sink := none, sources := [(0, { name := "in_0" })],
                 start_time := some 0 }
      ∧ Impl.ctor example_overlay_lib example_format_25p example_input "overlay" "" none none false
          = Outcome.returned () example_overlay
      ∧ example_overlay.video_filter_.graph = none
      ∧ example_overlay.video_filter_.sink = none
      ∧ example_overlay.video_filter_.sources = [(0, { name := "in_0" })]
      ∧ example_overlay.sources_ = [(0, [{ name := "in_0" }]), (1, [{ name := "in_1" }])]
      ∧ (∀ (lib : Lib) (filter_spec : String) (input : Input) (start_time : Int)
          (media_type : AVMediaType) (format_desc : video_format_desc) (f : Filter),
          Filter.ctor lib filter_spec input start_time media_type format_desc = some f →
          f.sink = none →
          f.graph = none
            ∧ ∃ (final : String) (inputs outputs : List AVMediaType),
                Filter.final_spec lib filter_spec input start_time media_type format_desc
                    = some final
                  ∧ lib.avfilter_graph_parse2 final = some (inputs, outputs)
                  ∧ Filter.bind_inputs lib input inputs [] = BindResult.unusable f.sources)
      ∧ (∀ (lib : Lib) (s s1 : Impl) (ts : Int), s.reset lib ts = Outcome.returned () s1 →
          s1.sources_
              = s1.audio_filter_.sources.foldl (fun m p => sources_push_back m p.1 p.2)
                  (s1.video_filter_.sources.foldl (fun m p => sources_push_back m p.1 p.2) [])
            ∧ (∀ p ∈ s1.video_filter_.sources, map_contains s1.sources_ p.1 = true)
            ∧ (∀ p ∈ s1.audio_filter_.sources, map_contains s1.sources_ p.1 = true)) := by
  refine ⟨by rfl, by rfl, by rfl, by rfl, by rfl, by rfl, ?_, ?_⟩
  · intro lib filter_spec input start_time media_type format_desc f hf hsink
    unfold Filter.ctor at hf
    unfold Filter.final_spec
    simp only at hf
    cases hpre : lib.avfilter_graph_parse2
        (Filter.spec_with_tail lib filter_spec start_time media_type format_desc) with
    | none =>
      rw [hpre] at hf
      simp at hf
    | some pre =>
      obtain ⟨inputs2, outputs2⟩ := pre
      rw [hpre] at hf
      simp only at hf ⊢
      cases hparse : lib.avfilter_graph_parse2 (Filter.merged_spec input
          (Filter.spec_with_tail lib filter_spec start_time media_type format_desc)
          (inputs2.filter (fun t => decide (t = AVMediaType.VIDEO))).length
          (inputs2.filter (fun t => decide (t = AVMediaType.AUDIO))).length) with
      | none =>
        rw [hparse] at hf
        simp at hf
      | some res =>
        obtain ⟨inputs, outputs⟩ := res
        rw [hparse] at hf
        simp only at hf
        cases hb : Filter.bind_inputs lib input inputs [] with
        | threw =>
          rw [hb] at hf
          simp at hf
        | unusable sources =>
          rw [hb] at hf
          simp only [Option.some.injEq] at hf
          rw [← hf]
          exact ⟨rfl, _, inputs, outputs, rfl, hparse, hb⟩
        | bound sources =>
          rw [hb] at hf
          simp only at hf
          cases hs : Filter.attach_sink lib _ media_type outputs with
          | none =>
            rw [hs] at hf
            simp at hf
          | some sink =>
            rw [hs] at hf
            simp only [Option.some.injEq] at hf
            rw [← hf] at hsink
            simp at hsink
  · intro lib s s1 ts h
    unfold Impl.reset at h
    split at h
    · exact absurd h (by simp)
    · rename_i vf hvf
      split at h
      · exact absurd h (by simp)
      · rename_i af haf
        simp only [Outcome.returned.injEq, true_and] at h
        rw [← h]
        refine ⟨rfl, ?_, ?_⟩
        · intro p hp
          show map_contains (af.sources.foldl (fun m p => sources_push_back m p.1 p.2)
            (vf.sources.foldl (fun m p => sources_push_back m p.1 p.2) [])) p.1 = true
          rw [map_contains_foldl, map_contains_foldl]
          have : vf.sources.any (fun q => decide (p.1 = q.1)) = true :=
            List.any_eq_true.mpr ⟨p, hp, by simp⟩
          simp [this]
        · intro p hp
          show map_contains (af.sources.foldl (fun m p => sources_push_back m p.1 p.2)
            (vf.sources.foldl (fun m p => sources_push_back m p.1 p.2) [])) p.1 = true
          rw [map_contains_foldl]
          have : af.sources.any (fun q => decide (p.1 = q.1)) = true :=
            List.any_eq_true.mpr ⟨p, hp, by simp⟩
          simp [this]

/-! ### The SEEK command on an input without video (C29) -/

/-- C29, the code at the failing input: on an input without video file_nb_frames
is 0, and SEEK 0, SEEK 7 and SEEK rel hand the frame index 4294967295 to the
input, above max(nb_frames, 1) - 1 = 0: the subtraction nb_frames - 1 of line
416 is made in uint32_t and wraps.  In general, with nb_frames = 0 a requested
position s < 0 gives 0 and every s >= 0 gives 4294967295. -/
theorem seek_without_video :
    example_audio_producer.file_nb_frames = 0
      ∧ example_audio_producer.call_seek example_lexical_cast "0" none = some 4294967295
      ∧ example_audio_producer.call_seek example_lexical_cast "7" none = some 4294967295
      ∧ example_audio_producer.call_seek example_lexical_cast "rel" none = some 4294967295
      ∧ example_audio_producer.call_seek example_lexical_cast "-5" none = some 0
      ∧ to_uint32 ((0 : Int) - 1) = 4294967295
      ∧ (∀ s : Int, seek_clamp 0 s = if s < 0 then 0 else 4294967295)
      ∧ (∀ (p : ffmpeg_producer) (lexical_cast : String → Option Int) (value : String)
          (offset : Option String) (s : Int),
          p.file_nb_frames = 0 → p.seek_position lexical_cast value offset = some s →
          p.call_seek lexical_cast value offset = some (if s < 0 then 0 else 4294967295)) := by
  have hwrap : to_uint32 ((0 : Int) - 1) = 4294967295 := by decide
  have hclamp : ∀ s : Int, seek_clamp 0 s = if s < 0 then 0 else 4294967295 := by
    intro s
    unfold seek_clamp
    by_cases h1 : s < 0
    · simp only [h1, if_true]
    · have h2 : s ≥ ((0 : Nat) : Int) := by
        simp only [Nat.cast_zero]
        omega
      simp only [h1, if_false, h2, if_true]
      simp only [Nat.cast_zero, hwrap]
      rfl
  refine ⟨by rfl, by rfl, by rfl, by rfl, by rfl, hwrap, hclamp, ?_⟩
  intro p lexical_cast value offset s hnb hpos
  simp only [ffmpeg_producer.call_seek, hpos, Option.map_some', hnb, hclamp, Option.some.injEq]
  by_cases h1 : s < 0
  · simp only [h1, if_true]
    decide
  · simp only [h1, if_false]
    decide

/-! ### The out point of create_producer (C30) -/

/-- C30: when no OUT parameter is given (in and LENGTH being uint32_t values), the
out point is min(LENGTH + in, 4294967295), with 4294967295 for an absent
LENGTH; it is 4294967295 when LENGTH is absent; and nothing wraps: the
difference uint32_max - in of line 587 is the mathematical one, and when the
sum of line 588 is computed it is below 4294967295. -/
theorem out_point_saturates (params : producer_params)
    (h_in : create_producer_in params ≤ UINT32_MAX)
    (h_length : params.LENGTH.getD UINT32_MAX ≤ UINT32_MAX)
    (h_out : params.OUT = none) :
    create_producer_out params
        = min (params.LENGTH.getD UINT32_MAX + create_producer_in params) UINT32_MAX
      ∧ (params.LENGTH = none → create_producer_out params = UINT32_MAX)
      ∧ to_uint32 ((UINT32_MAX : Int) - (create_producer_in params : Int))
          = UINT32_MAX - create_producer_in params
      ∧ (params.LENGTH.getD UINT32_MAX < UINT32_MAX - create_producer_in params →
          create_producer_out params = params.LENGTH.getD UINT32_MAX + create_producer_in params
            ∧ params.LENGTH.getD UINT32_MAX + create_producer_in params < UINT32_MAX)
      ∧ (¬ params.LENGTH.getD UINT32_MAX < UINT32_MAX - create_producer_in params →
          create_producer_out params = UINT32_MAX) := by
  generalize hi : create_producer_in params = i at h_in ⊢
  generalize hl : params.LENGTH.getD UINT32_MAX = l at h_length ⊢
  have hdiff : to_uint32 ((UINT32_MAX : Int) - (i : Int)) = UINT32_MAX - i := by
    unfold to_uint32 UINT32_MAX at *
    omega
  have hout : create_producer_out params
      = if l < UINT32_MAX - i then l + i else UINT32_MAX := by
    simp only [create_producer_out, h_out, Option.getD_none, create_producer_length_out, hi, hl,
      hdiff]
    by_cases h : l < UINT32_MAX - i
    · have h2 : (l : Int) < ((UINT32_MAX - i : Nat) : Int) := by exact_mod_cast h
      rw [if_pos h2, if_pos h]
      unfold to_uint32 UINT32_MAX at *
      omega
    · have h2 : ¬ (l : Int) < ((UINT32_MAX - i : Nat) : Int) := by
        intro h3
        exact h (by exact_mod_cast h3)
      rw [if_neg h2, if_neg h]
  refine ⟨?_, ?_, hdiff, ?_, ?_⟩
  · rw [hout]
    unfold UINT32_MAX at *
    split <;> omega
  · intro hnone
    have : l = UINT32_MAX := by
      rw [← hl, hnone]
      rfl
    rw [hout, this]
    unfold UINT32_MAX
    split <;> omega
  · intro h
    rw [hout, if_pos h]
    refine ⟨rfl, ?_⟩
    unfold UINT32_MAX at *
    omega
  · intro h
    rw [hout, if_neg h]

/-- Witness of C30: LENGTH 100 with IN 50 gives the out point 150, LENGTH
4294967290 with IN 50 gives 4294967295, and no LENGTH gives 4294967295. -/
theorem out_point_saturates_witness :
    create_producer_out { IN := some 50, LENGTH := some 100 } = 150
      ∧ create_producer_out { IN := some 50, LENGTH := some 4294967290 } = 4294967295
      ∧ create_producer_out { SEEK := some 50 } = 4294967295
      ∧ create_producer_out { IN := some 50, LENGTH := some 4294967290 }
          = min ((some 4294967290 : Option Nat).getD UINT32_MAX
              + create_producer_in { IN := some 50, LENGTH := some 4294967290 }) UINT32_MAX :=
  ⟨by decide, by decide, by decide,
   (out_point_saturates { IN := some 50, LENGTH := some 4294967290 } (by decide) (by decide)
      (by rfl)).1⟩

end caspar.ffmpeg
